import Mathlib

/-!
# HAMPOD control core: response queue, packet codec, keypad hold detection, Frequency Mode

A shallow embedding of

* `Software2/tests/test_comm_queue.c` (the response queue, duplicated there from `comm.c`),
* `Firmware/imitation_software.c` (`send_packet`, `read_from_pipe`),
* `Firmware/hal/tests/test_hal_integration.c` (the tap / hold / release loop),
* `Software2/src/frequency_mode.c` (the Frequency Mode overlay),
* `Software2/src/radio_setters.c` (the radio parameter setters and the mode cycle),

together with the properties the specification states about them.

Conventions.  A C `int` is a Lean `Int`; the values that occur (queue indices, tick
counters) stay far below `2^31`, so no wrap-around is modelled.  C's `%` truncates towards
zero and is `Int.tmod`.  A `double` is an exact rational: rounding is not modelled, with one
exception: `frequency_text_double` embeds `announce_frequency` in binary64 arithmetic, and
the rendering of the spoken frequency, which rests on how the kHz field rounds, is proved
about it.
Global variables become the fields of an explicit state, and calls into collaborators
(speech, radio, `read`, `write`, the condition wait) become traces and oracles.
-/

set_option linter.unusedVariables false
set_option maxRecDepth 4000

namespace Hampod

/-! ## Response queue (`test_comm_queue.c`) -/

/-- Modelled from the spec: the result codes of `hampod_core.h`, which is not among the
sources.  The spec requires OK, TIMEOUT, ERROR and NOT_FOUND to be pairwise distinct. -/
inductive HampodResult where
  | HAMPOD_OK
  | HAMPOD_ERROR
  | HAMPOD_TIMEOUT
  | HAMPOD_NOT_FOUND
deriving DecidableEq, Repr

open HampodResult

/-- Modelled from the spec: `CommPacket` of `comm.h`, which is not among the sources: a frame
with a type code, a payload length, a correlation tag and payload bytes.  The queue only
copies whole packets. -/
structure CommPacket where
  type : Nat
  data_len : Nat
  tag : Nat
  data : List Nat
deriving DecidableEq, Repr

/-- The capacity `#define TEST_QUEUE_SIZE 4`. -/
def TEST_QUEUE_SIZE : Int := 4

/-- The struct `TestQueue`: `packets[TEST_QUEUE_SIZE]` is a map from index to packet; the
mutex and the condition variable are not state of the model. -/
structure TestQueue where
  packets : Int → CommPacket
  head : Int
  tail : Int
  count : Int
  running : Bool

/-- The function `test_queue_init`; `mem` is the (uninitialised) content of the packet
array, which the function does not touch. -/
def test_queue_init (mem : Int → CommPacket) : TestQueue :=
  { packets := mem, head := 0, tail := 0, count := 0, running := true }

/-- The function `test_queue_push`: returns the new queue and the result code.  It has no
wait of any kind: when the queue is full the oldest entry is dropped. -/
def test_queue_push (q : TestQueue) (packet : CommPacket) : TestQueue × HampodResult :=
  let q1 : TestQueue :=
    if q.count ≥ TEST_QUEUE_SIZE then
      { q with head := (q.head + 1).tmod TEST_QUEUE_SIZE, count := q.count - 1 }
    else q
  let q2 : TestQueue := { q1 with packets := Function.update q1.packets q1.tail packet }
  let q3 : TestQueue := { q2 with tail := (q2.tail + 1).tmod TEST_QUEUE_SIZE }
  ({ q3 with count := q3.count + 1 }, HAMPOD_OK)

/-- One return of `pthread_cond_timedwait`: whether it reported `ETIMEDOUT`, and what the
other threads did to the queue while the mutex was released. -/
structure WaitOutcome where
  etimedout : Bool
  others : TestQueue → TestQueue

/-- The `while (q->count == 0 && q->running)` loop of `test_queue_pop_timeout`.  `waits`
lists the outcomes of the successive condition waits.  The result is `none` when the loop
is still waiting after the listed outcomes, `some (q, true)` when a wait timed out and
`some (q, false)` when the loop condition became false. -/
def pop_wait_loop : TestQueue → List WaitOutcome → Option (TestQueue × Bool)
  | q, [] => if q.count = 0 ∧ q.running = true then none else some (q, false)
  | q, w :: rest =>
    if q.count = 0 ∧ q.running = true then
      if w.etimedout then some (w.others q, true)
      else pop_wait_loop (w.others q) rest
    else some (q, false)

/-- The function `test_queue_pop_timeout`.  `packet` is the content of `*packet` before the
call and the second component of the result its content afterwards. -/
def test_queue_pop_timeout (q : TestQueue) (packet : CommPacket) (timeout_ms : Int)
    (waits : List WaitOutcome) : Option (TestQueue × CommPacket × HampodResult) :=
  match pop_wait_loop q waits with
  | none => none
  | some (q1, true) => some (q1, packet, HAMPOD_TIMEOUT)
  | some (q1, false) =>
    if q1.running = false ∧ q1.count = 0 then some (q1, packet, HAMPOD_ERROR)
    else if q1.count = 0 then some (q1, packet, HAMPOD_NOT_FOUND)
    else
      some ({ q1 with head := (q1.head + 1).tmod TEST_QUEUE_SIZE, count := q1.count - 1 },
            q1.packets q1.head, HAMPOD_OK)

/-- The function `test_queue_count`. -/
def test_queue_count (q : TestQueue) : Int := q.count

/-- Successive `test_queue_push` calls, as in the loops of the tests: the final queue and
the result code of every push. -/
def push_all (q : TestQueue) : List CommPacket → TestQueue × List HampodResult
  | [] => (q, [])
  | p :: ps =>
    let r := test_queue_push q p
    let rs := push_all r.1 ps
    (rs.1, r.2 :: rs.2)

/-- In total `n` successive `test_queue_pop_timeout` calls; call number `i` (counted down
from `n`) is made with the wait outcomes `waits i`.  The result lists, per call, the
packet it yielded and its result code; `none` when some call never returns. -/
def pop_n (timeout_ms : Int) (waits : Nat → List WaitOutcome) :
    Nat → TestQueue → CommPacket → Option (TestQueue × List (CommPacket × HampodResult))
  | 0, q, _ => some (q, [])
  | n + 1, q, packet =>
    match test_queue_pop_timeout q packet timeout_ms (waits (n + 1)) with
    | none => none
    | some (q1, out, r) =>
      match pop_n timeout_ms waits n q1 out with
      | none => none
      | some (q2, rs) => some (q2, (out, r) :: rs)

/-- The queue `q` holds exactly the packets `l`, oldest first: the invariant that links
the ring buffer to its logical content. -/
def Holds (q : TestQueue) (l : List CommPacket) : Prop :=
  0 ≤ q.head ∧ q.head < TEST_QUEUE_SIZE ∧ q.count = l.length ∧
  (l.length : Int) ≤ TEST_QUEUE_SIZE ∧
  q.tail = (q.head + q.count) % TEST_QUEUE_SIZE ∧
  ∀ i : Nat, i < l.length → l[i]? = some (q.packets ((q.head + i) % TEST_QUEUE_SIZE))

/-- The last `n` elements of a list. -/
def keep_last {α : Type} (n : Nat) (l : List α) : List α := l.drop (l.length - n)

/-- An empty queue as the tests create it and as pushes and pops leave it: no entries, and
the read and write positions coincide inside the array. -/
def EmptyQueue (q : TestQueue) : Prop :=
  0 ≤ q.head ∧ q.head < TEST_QUEUE_SIZE ∧ q.tail = q.head ∧ q.count = 0

/-- The packets of `test_fifo_ordering`, `test_overflow_drops_oldest`: type and tag only. -/
def tagged (type tag : Nat) : CommPacket := { type := type, data_len := 0, tag := tag, data := [] }

/-! ## Packet codec (`imitation_software.c`) -/

/-- The object representation of an unsigned value in `k` bytes, least significant byte
first (the hosts are little-endian). -/
def le_bytes : Nat → Nat → List Nat
  | 0, _ => []
  | k + 1, n => n % 256 :: le_bytes k (n / 256)

/-- The unsigned value that a little-endian byte sequence represents. -/
def le_value : List Nat → Nat
  | [] => 0
  | b :: bs => b + 256 * le_value bs

/-- Modelled from the spec: `sizeof(Packet_type)`.  `hampod_firm_packet.h`, which declares
`Packet_type`, is not among the sources; the spec fixes the type field of the wire frame at
1 byte. -/
def sizeof_Packet_type : Nat := 1

/-- Modelled from the spec: `Inst_packet` of `hampod_firm_packet.h`, which is not among the
sources, with the fields the code uses: `type` (a `Packet_type` code), `data_len` and `tag`
(both `unsigned short`) and the bytes `data` points to. -/
structure Inst_packet where
  type : Nat
  data_len : Nat
  tag : Nat
  data : List Nat
deriving DecidableEq, Repr

/-- Modelled from the spec: `create_inst_packet` of the packet library, which is not among
the sources: a packet with the given type, length and tag that owns a copy of the first
`data_len` bytes of `data`. -/
def create_inst_packet (type data_len : Nat) (data : List Nat) (tag : Nat) : Inst_packet :=
  { type := type, data_len := data_len, tag := tag, data := data.take data_len }

/-- The invariants of a frame in the data model: the length field is the payload byte count
and is at most 256. -/
def Inst_packet.frame (p : Inst_packet) : Prop :=
  p.data.length = p.data_len ∧ p.data_len ≤ 256

/-- The function `send_packet`: the content of the outbound channel after the four `write`
calls, given its content before.  Each `write` is taken to transfer all its bytes.  The
result is `none` when `memcpy` would run past the 256-byte `buffer` or past the packet's
data (undefined behaviour).  The `printf` calls are not modelled. -/
def send_packet (output_pipe : List Nat) (packet : Inst_packet) : Option (List Nat) :=
  let o1 := output_pipe ++ le_bytes sizeof_Packet_type packet.type
  let o2 := o1 ++ le_bytes 2 packet.data_len
  let o3 := o2 ++ le_bytes 2 packet.tag
  if packet.data_len ≤ 256 ∧ packet.data_len ≤ packet.data.length then
    let buffer := packet.data.take packet.data_len
    some (o3 ++ buffer.take packet.data_len)
  else none

/-- The inbound channel: the bytes not yet read, and for each coming `read` call what the
kernel grants it: `none` makes the call fail with -1, `some k` lets it return at most `k`
bytes.  When the list is used up every call may return all it asks for. -/
structure Pipe where
  stream : List Nat
  grants : List (Option Nat)

/-- The system call `read(fd, dst, n)`: its return value, the bytes it stored at `dst`, and
the pipe afterwards.  It returns 0 when there is nothing to deliver. -/
def read (p : Pipe) (n : Nat) : Int × List Nat × Pipe :=
  match p.grants with
  | [] => (((p.stream.take n).length : Int), p.stream.take n,
      { stream := p.stream.drop n, grants := [] })
  | none :: gs => (-1, [], { stream := p.stream, grants := gs })
  | some k :: gs =>
    (((p.stream.take (min n k)).length : Int), p.stream.take (min n k),
      { stream := p.stream.drop (min n k), grants := gs })

/-- The bytes of an object after `data` was stored at its start. -/
def overwrite (old data : List Nat) : List Nat := data ++ old.drop data.length

/-- The uninitialised locals of `read_from_pipe`: whatever the stack held. -/
structure Stack where
  type : Nat
  size : Nat
  tag : Nat
  buffer : List Nat

/-- What a call of `read_from_pipe` did: the packet it returned (`none` for `NULL`), the
pipe afterwards, and its `read` calls in order, each as the byte count asked for and the
value returned. -/
structure ReadResult where
  packet : Option Inst_packet
  pipe : Pipe
  reads : List (Nat × Int)

/-- The function `read_from_pipe`.  A `read` into the 256-byte `buffer` that asks for more
than 256 bytes is recorded in `reads`; the model lets the buffer grow. -/
def read_from_pipe (input_pipe : Pipe) (stack : Stack) : ReadResult :=
  let r1 := read input_pipe sizeof_Packet_type
  let t1 := [(sizeof_Packet_type, r1.1)]
  if r1.1 ≤ 0 then ⟨none, r1.2.2, t1⟩
  else
    let type := le_value (overwrite (le_bytes sizeof_Packet_type stack.type) r1.2.1)
    let r2 := read r1.2.2 2
    let t2 := t1 ++ [(2, r2.1)]
    if r2.1 ≤ 0 then ⟨none, r2.2.2, t2⟩
    else
      let size := le_value (overwrite (le_bytes 2 stack.size) r2.2.1)
      let r3 := read r2.2.2 2
      let t3 := t2 ++ [(2, r3.1)]
      if r3.1 ≤ 0 then ⟨none, r3.2.2, t3⟩
      else
        let tag := le_value (overwrite (le_bytes 2 stack.tag) r3.2.1)
        let r4 := read r3.2.2 size
        let t4 := t3 ++ [(size, r4.1)]
        if r4.1 ≤ 0 then ⟨none, r4.2.2, t4⟩
        else
          let buffer := overwrite stack.buffer r4.2.1
          ⟨some (create_inst_packet type size buffer tag), r4.2.2, t4⟩

/-- The bytes of one frame on the wire, as `send_packet` writes them. -/
def wire (p : Inst_packet) : List Nat :=
  le_bytes sizeof_Packet_type p.type ++ le_bytes 2 p.data_len ++ le_bytes 2 p.tag ++ p.data

/-! ## Keypad hold detection (the loop of `test_hal_integration.c`) -/

/-- The function `get_spoken_word`. -/
def get_spoken_word (key : Char) : String :=
  match key with
  | '0' => "zero"
  | '1' => "one"
  | '2' => "two"
  | '3' => "three"
  | '4' => "four"
  | '5' => "five"
  | '6' => "six"
  | '7' => "seven"
  | '8' => "eight"
  | '9' => "nine"
  | 'A' => "A"
  | 'B' => "B"
  | 'C' => "C"
  | 'D' => "D"
  | '*' => "star"
  | '#' => "pound"
  | 'X' => "num lock"
  | 'Y' => "backspace"
  | _ => "unknown"

/-- The value returned by `hal_keypad_read`, with the two fields the loop uses
(`hal_keypad.h` is not among the sources). -/
structure KeypadEvent where
  valid : Bool
  key : Char
deriving DecidableEq, Repr

/-- The constant `HOLD_THRESHOLD`: 100 polls. -/
def HOLD_THRESHOLD : Int := 100

/-- The constant `RELEASE_THRESHOLD`: 30 consecutive no-events. -/
def RELEASE_THRESHOLD : Int := 30

/-- The hold detection state of `main`; `hold_spoken` is the C `int` flag (0 or 1). -/
structure HoldState where
  last_key : Char
  hold_count : Int
  no_event_count : Int
  hold_spoken : Int
deriving DecidableEq, Repr

/-- The state before the loop: no key, all counters 0. -/
def baseline : HoldState :=
  { last_key := '-', hold_count := 0, no_event_count := 0, hold_spoken := 0 }

/-- One pass through the body of `while (running)` for the event that `hal_keypad_read`
returned: the new state and the texts passed to `hal_tts_speak`, in order. -/
def loop_body (s : HoldState) (event : KeypadEvent) : HoldState × List String :=
  if event.valid then
    let s1 : HoldState := { s with no_event_count := 0 }
    if event.key = s1.last_key then
      let s2 : HoldState := { s1 with hold_count := s1.hold_count + 1 }
      if s2.hold_count ≥ HOLD_THRESHOLD ∧ s2.hold_spoken = 0 then
        ({ s2 with hold_spoken := 1 }, ["key held"])
      else (s2, [])
    else
      ({ s1 with last_key := event.key, hold_count := 1, hold_spoken := 0 },
        [get_spoken_word event.key])
  else
    if s.last_key ≠ '-' then
      let s1 : HoldState :=
        { s with no_event_count := s.no_event_count + 1, hold_count := s.hold_count + 1 }
      let r : HoldState × List String :=
        if s1.hold_count ≥ HOLD_THRESHOLD ∧ s1.hold_spoken = 0 then
          ({ s1 with hold_spoken := 1 }, ["key held"])
        else (s1, [])
      if r.1.no_event_count ≥ RELEASE_THRESHOLD then
        ({ r.1 with last_key := '-', hold_count := 0, hold_spoken := 0 }, r.2)
      else r
    else (s, [])

/-- The loop over a sequence of poll results: the final state and, per tick, the texts
spoken on that tick. -/
def run_loop : HoldState → List KeypadEvent → HoldState × List (List String)
  | s, [] => (s, [])
  | s, e :: es =>
    let r := loop_body s e
    let rs := run_loop r.1 es
    (rs.1, r.2 :: rs.2)

/-- Every run of consecutive no-events in `es` is shorter than `limit`, where a run of
length `g` is already in progress when `es` starts. -/
def gaps_below (limit : Int) : Int → List KeypadEvent → Bool
  | _, [] => true
  | g, e :: es =>
    if e.valid then gaps_below limit 0 es
    else decide (g + 1 < limit) && gaps_below limit (g + 1) es

/-- A sample of `'5'` followed by these ticks is a hold of 100 ticks: 29 no-events, then
70 further samples of `'5'`. -/
def held_five : List KeypadEvent :=
  List.replicate 29 ⟨false, '-'⟩ ++ List.replicate 70 ⟨true, '5'⟩

/-! ## Frequency Mode (`frequency_mode.c`) -/

/-- Modelled from the spec: the enumeration `FreqModeState` of `frequency_mode.h`, which is
not among the sources: IDLE, SELECT_VFO, ENTERING. -/
inductive FreqModeState where
  | FREQ_MODE_IDLE
  | FREQ_MODE_SELECT_VFO
  | FREQ_MODE_ENTERING
deriving DecidableEq, Repr

open FreqModeState

/-- Modelled from the spec: the enumerator `VFO_A` of `VfoSelection` (`frequency_mode.h` is
not among the sources); the selections are A, B, CURRENT in this order, counted from 0. -/
def VFO_A : Int := 0

/-- Modelled from the spec: the enumerator `VFO_B`. -/
def VFO_B : Int := 1

/-- Modelled from the spec: the enumerator `VFO_CURRENT`. -/
def VFO_CURRENT : Int := 2

/-- The constant `MAX_FREQ_DIGITS`. -/
def MAX_FREQ_DIGITS : Int := 12

/-- The module state of `frequency_mode.c`, with the two traces of its effects: the texts
passed to `speech_say_text` and the arguments passed to `radio_set_frequency`, oldest
first.  `g_freq_buffer` is the array of `MAX_FREQ_DIGITS + 1` characters. -/
structure FreqMode where
  g_state : FreqModeState
  g_selected_vfo : Int
  g_freq_buffer : List Char
  g_freq_len : Int
  g_has_decimal : Bool
  spoken : List String
  radio_calls : List ℚ

/-- The function `vfo_name`. -/
def vfo_name (vfo : Int) : String :=
  if vfo = VFO_A then "VFO A"
  else if vfo = VFO_B then "VFO B"
  else if vfo = VFO_CURRENT then "Current VFO"
  else "VFO"

/-- The function `speech_say_text`, as an entry of the speech trace. -/
def speech_say_text (s : FreqMode) (text : String) : FreqMode :=
  { s with spoken := s.spoken ++ [text] }

/-- The function `clear_freq_buffer`. -/
def clear_freq_buffer (s : FreqMode) : FreqMode :=
  { s with g_freq_buffer := List.replicate (MAX_FREQ_DIGITS + 1).toNat (Char.ofNat 0),
           g_freq_len := 0, g_has_decimal := false }

/-- The function `announce_digit`: `"%c"` of the digit. -/
def announce_digit (s : FreqMode) (digit : Char) : FreqMode :=
  speech_say_text s (String.singleton digit)

/-- The cast `(int)x` of a `double`: truncation towards zero (values outside the range of
`int` are not modelled). -/
def c_int (x : ℚ) : Int := if 0 ≤ x then ⌊x⌋ else ⌈x⌉

/-- The conversion `%03d` of `printf`: at least three characters, padded with zeros after
the sign. -/
def fmt_03d (n : Int) : String :=
  if n < 0 then
    "-" ++ String.mk (List.replicate (2 - (toString n.natAbs).length) '0') ++ toString n.natAbs
  else
    String.mk (List.replicate (3 - (toString n.toNat).length) '0') ++ toString n.toNat

/-- The text that `announce_frequency` builds with `snprintf`, in exact arithmetic.  The
same computation in binary64 arithmetic is `frequency_text_double`; the two agree except
at the rounding ties of the kHz field and within a rounding error of them. -/
def frequency_text (freq_hz : ℚ) : String :=
  let freq_mhz : ℚ := freq_hz / 1000000
  let mhz_part : Int := c_int freq_mhz
  let khz_part : Int := c_int ((freq_mhz - mhz_part) * 1000 + 1 / 2)
  if khz_part = 0 then toString mhz_part ++ " megahertz"
  else toString mhz_part ++ " point " ++ fmt_03d khz_part ++ " megahertz"

/-- The function `announce_frequency`. -/
def announce_frequency (s : FreqMode) (freq_hz : ℚ) : FreqMode :=
  speech_say_text s (frequency_text freq_hz)

/-- The characters of a C string stored in an array: those before the first NUL. -/
def c_string (buf : List Char) : List Char := buf.takeWhile (fun c => c ≠ Char.ofNat 0)

/-- The value of a run of decimal digits. -/
def digits_value (ds : List Char) : Nat :=
  ds.foldl (fun acc c => 10 * acc + (c.toNat - '0'.toNat)) 0

/-- The library function `atof` on the strings the digit buffer can hold (decimal digits
and `'.'`): the longest prefix of the form digits, optionally `'.'` and digits, is
converted; the value is exact. -/
def atof (str : List Char) : ℚ :=
  match str.dropWhile Char.isDigit with
  | '.' :: frac =>
    (digits_value (str.takeWhile Char.isDigit) : ℚ) +
      (digits_value (frac.takeWhile Char.isDigit) : ℚ) /
        (10 : ℚ) ^ (frac.takeWhile Char.isDigit).length
  | _ => (digits_value (str.takeWhile Char.isDigit) : ℚ)

/-- The function `parse_frequency`: the frequency in Hz, or -1. -/
def parse_frequency (s : FreqMode) : ℚ :=
  if s.g_freq_len = 0 then -1
  else
    let freq_mhz := atof (c_string s.g_freq_buffer)
    if freq_mhz < 1 / 10 ∨ freq_mhz > 500 then -1
    else freq_mhz * 1000000

/-- The function `submit_frequency`; `radio_set_frequency` gives the value the radio
collaborator returns for a call. -/
def submit_frequency (radio_set_frequency : ℚ → Int) (s : FreqMode) : FreqMode :=
  let freq_hz := parse_frequency s
  if freq_hz < 0 then
    let s1 := speech_say_text s "Invalid frequency"
    let s2 := clear_freq_buffer s1
    { s2 with g_state := FREQ_MODE_IDLE }
  else
    let s1 : FreqMode := { s with radio_calls := s.radio_calls ++ [freq_hz] }
    let s2 :=
      if radio_set_frequency freq_hz = 0 then
        announce_frequency (speech_say_text s1 "Frequency set") freq_hz
      else speech_say_text s1 "Failed to set frequency"
    let s3 := clear_freq_buffer s2
    { s3 with g_state := FREQ_MODE_IDLE }

/-- The function `frequency_mode_init`, from a program start (empty traces). -/
def frequency_mode_init : FreqMode :=
  clear_freq_buffer
    { g_state := FREQ_MODE_IDLE, g_selected_vfo := VFO_CURRENT, g_freq_buffer := [],
      g_freq_len := 0, g_has_decimal := false, spoken := [], radio_calls := [] }

/-- The two statements `g_freq_buffer[g_freq_len++] = c; g_freq_buffer[g_freq_len] = '\0';`. -/
def append_char (s : FreqMode) (c : Char) : FreqMode :=
  { s with
    g_freq_buffer :=
      (s.g_freq_buffer.set s.g_freq_len.toNat c).set (s.g_freq_len + 1).toNat (Char.ofNat 0),
    g_freq_len := s.g_freq_len + 1 }

/-- The function `frequency_mode_handle_key`: whether the key was consumed, and the state
afterwards. -/
def frequency_mode_handle_key (radio_set_frequency : ℚ → Int) (key : Char) (is_hold : Bool)
    (s : FreqMode) : Bool × FreqMode :=
  match s.g_state with
  | FREQ_MODE_IDLE =>
    if key = '#' then
      let s1 : FreqMode := { s with g_state := FREQ_MODE_SELECT_VFO }
      (true, speech_say_text s1 (vfo_name s1.g_selected_vfo))
    else (false, s)
  | FREQ_MODE_SELECT_VFO =>
    if key = '#' then
      let s1 : FreqMode := { s with g_selected_vfo := (s.g_selected_vfo + 1).tmod 3 }
      (true, speech_say_text s1 (vfo_name s1.g_selected_vfo))
    else if key.isDigit then
      let s1 : FreqMode := { s with g_state := FREQ_MODE_ENTERING }
      (true, announce_digit (append_char s1 key) key)
    else if key = '*' then
      let s1 := clear_freq_buffer s
      (true, speech_say_text { s1 with g_state := FREQ_MODE_IDLE } "Cancelled")
    else if key = 'D' then
      let s1 := clear_freq_buffer s
      (true, speech_say_text { s1 with g_state := FREQ_MODE_IDLE } "Cancelled")
    else (true, s)
  | FREQ_MODE_ENTERING =>
    if key.isDigit then
      if s.g_freq_len < MAX_FREQ_DIGITS then (true, announce_digit (append_char s key) key)
      else (true, s)
    else if key = '*' then
      if s.g_has_decimal = false then
        if s.g_freq_len < MAX_FREQ_DIGITS then
          let s1 := append_char s '.'
          (true, speech_say_text { s1 with g_has_decimal := true } "point")
        else (true, s)
      else
        let s1 := clear_freq_buffer s
        (true, speech_say_text { s1 with g_state := FREQ_MODE_IDLE } "Cancelled")
    else if key = '#' then (true, submit_frequency radio_set_frequency s)
    else if key = 'D' then
      let s1 := clear_freq_buffer s
      (true, speech_say_text { s1 with g_state := FREQ_MODE_IDLE } "Cancelled")
    else (true, s)

/-- The function `frequency_mode_is_active`. -/
def frequency_mode_is_active (s : FreqMode) : Bool := decide (s.g_state ≠ FREQ_MODE_IDLE)

/-- The function `frequency_mode_get_state`. -/
def frequency_mode_get_state (s : FreqMode) : FreqModeState := s.g_state

/-- The function `frequency_mode_cancel`. -/
def frequency_mode_cancel (s : FreqMode) : FreqMode :=
  if s.g_state ≠ FREQ_MODE_IDLE then
    let s1 := clear_freq_buffer s
    { s1 with g_state := FREQ_MODE_IDLE }
  else s

/-- The function `frequency_mode_on_radio_change`. -/
def frequency_mode_on_radio_change (s : FreqMode) (new_freq : ℚ) : FreqMode :=
  if s.g_state = FREQ_MODE_IDLE then announce_frequency s new_freq else s

/-- One call of the public interface after `frequency_mode_init`; a key call carries the
answer the radio would give to a frequency-set request made during it. -/
inductive Call where
  | handle_key (radio_set_frequency : ℚ → Int) (key : Char) (is_hold : Bool)
  | cancel
  | on_radio_change (new_freq : ℚ)

/-- The state after one call. -/
def apply_call (s : FreqMode) : Call → FreqMode
  | Call.handle_key radio key is_hold => (frequency_mode_handle_key radio key is_hold s).2
  | Call.cancel => frequency_mode_cancel s
  | Call.on_radio_change new_freq => frequency_mode_on_radio_change s new_freq

/-- The state after a sequence of calls. -/
def run_calls (s : FreqMode) (calls : List Call) : FreqMode := calls.foldl apply_call s

/-- The key presses `keys` (taps, not holds) with a radio that answers `radio`. -/
def taps (radio : ℚ → Int) (keys : List Char) : List Call :=
  keys.map (fun k => Call.handle_key radio k false)

/-- The zeroed digit buffer that `clear_freq_buffer` leaves. -/
def empty_buffer : List Char := List.replicate 13 (Char.ofNat 0)

/-- A radio that accepts every request. -/
def radio_ok : ℚ → Int := fun _ => 0

/-- The state in which the digits `14.250` have been entered: after the keys
`#`, `1`, `4`, `*`, `2`, `5`, `0` from the initial state. -/
def entered_14_250 : FreqMode :=
  { g_state := FREQ_MODE_ENTERING, g_selected_vfo := VFO_CURRENT,
    g_freq_buffer := ['1', '4', '.', '2', '5', '0'] ++ List.replicate 7 (Char.ofNat 0),
    g_freq_len := 6, g_has_decimal := true,
    spoken := ["Current VFO", "1", "4", "point", "2", "5", "0"], radio_calls := [] }

/-- The state in which the digits `600` have been entered: after the keys `#`, `6`, `0`,
`0` from the initial state. -/
def entered_600 : FreqMode :=
  { g_state := FREQ_MODE_ENTERING, g_selected_vfo := VFO_CURRENT,
    g_freq_buffer := ['6', '0', '0'] ++ List.replicate 10 (Char.ofNat 0),
    g_freq_len := 3, g_has_decimal := false,
    spoken := ["Current VFO", "6", "0", "0"], radio_calls := [] }

/-- A return of the condition wait without timeout during which no other thread touched
the queue: a spurious wakeup. -/
def spurious_wakeup : WaitOutcome := { etimedout := false, others := fun q => q }

/-- A return of the condition wait with `ETIMEDOUT` during which no other thread touched
the queue. -/
def wait_timed_out : WaitOutcome := { etimedout := true, others := fun q => q }

/-- A fresh queue as `test_queue_init` leaves it, over an array of zeroed packets. -/
def fresh_queue : TestQueue := test_queue_init (fun _ => tagged 0 0)

/-- A fresh queue after `q.running = false`, as in `test_shutdown_wakes_waiters`. -/
def stopped_queue : TestQueue := { fresh_queue with running := false }

/-- A frame whose header declares 257 payload bytes, one more than `buffer` holds. -/
def oversized_packet : Inst_packet :=
  { type := 0, data_len := 257, tag := 5, data := List.replicate 257 65 }

/-! ## Invariant of the Frequency Mode digit buffer -/

/-- The four variables state, buffer, length and decimal flag are consistent, with the
characters `content` entered so far: the 13-character array is `content` followed by NULs,
the length counts `content`, which has at most 12 characters, all digits or `'.'`, at most
one `'.'`, flagged by the decimal flag; outside state ENTERING nothing is entered, and in
state ENTERING the first character is a digit. -/
def BufCore (st : FreqModeState) (buf : List Char) (len : Int) (dec : Bool)
    (content : List Char) : Prop :=
  buf = content ++ List.replicate (13 - content.length) (Char.ofNat 0) ∧
  len = (content.length : Int) ∧
  content.length ≤ 12 ∧
  (∀ c ∈ content, c.isDigit = true ∨ c = '.') ∧
  content.count '.' ≤ 1 ∧
  (dec = true ↔ '.' ∈ content) ∧
  (st ≠ FREQ_MODE_ENTERING → content = []) ∧
  (st = FREQ_MODE_ENTERING → ∃ d tl, content = d :: tl ∧ d.isDigit = true)

/-- The invariant `BufCore` for the module state `s`. -/
def BufHolds (s : FreqMode) (content : List Char) : Prop :=
  BufCore s.g_state s.g_freq_buffer s.g_freq_len s.g_has_decimal content

/-- The state after the key `#` and the twelve digits `123456789012`: the buffer is full
and holds no decimal point. -/
def entered_12_digits : FreqMode :=
  { g_state := FREQ_MODE_ENTERING, g_selected_vfo := VFO_CURRENT,
    g_freq_buffer := ['1', '2', '3', '4', '5', '6', '7', '8', '9', '0', '1', '2',
      Char.ofNat 0],
    g_freq_len := 12, g_has_decimal := false,
    spoken := ["Current VFO", "1", "2", "3", "4", "5", "6", "7", "8", "9", "0", "1", "2"],
    radio_calls := [] }

/-- The key presses that lead to `entered_12_digits`. -/
def keys_12_digits : List Char :=
  ['#', '1', '2', '3', '4', '5', '6', '7', '8', '9', '0', '1', '2']

/-! ## Radio setters (`radio_setters.c`)

The rig control library (Hamlib) is an external collaborator: its constants are named after
`hamlib/rig.h`, and a rig is given by the answers it returns to the calls made on it.  Every
operation returns its C result together with the trace of what it did to `g_rig_mutex` and
to the rig, in order. -/

/-- Hamlib's return code for success. -/
def RIG_OK : Int := 0

/-- Hamlib's operating modes, as far as the code names them; any other mode is `other`. -/
inductive rmode_t where
  | RIG_MODE_USB
  | RIG_MODE_LSB
  | RIG_MODE_CW
  | RIG_MODE_AM
  | RIG_MODE_FM
  | RIG_MODE_RTTY
  | other (bits : Nat)
deriving DecidableEq, Repr

open rmode_t

/-- Hamlib's level and function selectors that the code uses. -/
inductive setting_t where
  | RIG_LEVEL_RFPOWER
  | RIG_LEVEL_MICGAIN
  | RIG_LEVEL_COMP
  | RIG_LEVEL_NB
  | RIG_LEVEL_NR
  | RIG_LEVEL_AGC
  | RIG_LEVEL_PREAMP
  | RIG_LEVEL_ATT
  | RIG_FUNC_COMP
  | RIG_FUNC_NB
  | RIG_FUNC_NR
deriving DecidableEq, Repr

open setting_t

/-- Hamlib's union `value_t`, with the two members the code uses; a `float` is an exact
rational. -/
inductive value_t where
  | i (n : Int)
  | f (x : ℚ)
deriving DecidableEq, Repr

/-- The member `val.f` (0 when the union holds an integer: the reinterpretation of the
bits is not modelled). -/
def value_t.get_f : value_t → ℚ
  | value_t.f x => x
  | value_t.i _ => 0

/-- The member `val.i` (0 when the union holds a float). -/
def value_t.get_i : value_t → Int
  | value_t.i n => n
  | value_t.f _ => 0

/-- Hamlib's AGC constant `RIG_AGC_OFF`. -/
def RIG_AGC_OFF : Int := 0

/-- Hamlib's AGC constant `RIG_AGC_FAST`. -/
def RIG_AGC_FAST : Int := 2

/-- Hamlib's AGC constant `RIG_AGC_SLOW`. -/
def RIG_AGC_SLOW : Int := 3

/-- Hamlib's AGC constant `RIG_AGC_MEDIUM`. -/
def RIG_AGC_MEDIUM : Int := 5

/-- Hamlib's AGC constant `RIG_AGC_AUTO`. -/
def RIG_AGC_AUTO : Int := 6

/-- The enumerator `AGC_OFF` of `AgcSpeed` (`radio_setters.h`). -/
def AGC_OFF : Int := 0

/-- The enumerator `AGC_FAST`. -/
def AGC_FAST : Int := 1

/-- The enumerator `AGC_MEDIUM`. -/
def AGC_MEDIUM : Int := 2

/-- The enumerator `AGC_SLOW`. -/
def AGC_SLOW : Int := 3

/-- A rig, as the answers of the Hamlib calls on it: return codes and, for the getters, the
values stored through the out-parameters. -/
structure Rig where
  rig_set_level : setting_t → value_t → Int
  rig_get_level : setting_t → Int × value_t
  rig_set_func : setting_t → Int → Int
  rig_get_func : setting_t → Int × Int
  rig_get_mode : Int × rmode_t × Int
  rig_set_mode : rmode_t → Int → Int
  rig_passband_normal : rmode_t → Int

/-- The globals `g_connected` and `g_rig` of `radio.c`; `none` is the NULL pointer. -/
structure RadioLink where
  g_connected : Bool
  g_rig : Option Rig

/-- One step of an operation that is visible outside it. -/
inductive Ev where
  | lock
  | unlock
  | rig_set_level (level : setting_t) (val : value_t)
  | rig_get_level (level : setting_t)
  | rig_set_func (func : setting_t) (status : Int)
  | rig_get_func (func : setting_t)
  | rig_get_mode
  | rig_set_mode (mode : rmode_t) (width : Int)
  | rig_passband_normal (mode : rmode_t)
deriving DecidableEq, Repr

/-- Whether an event is a call into the rig library. -/
def Ev.is_rig_call : Ev → Bool
  | Ev.lock => false
  | Ev.unlock => false
  | _ => true

/-- Whether `g_rig_mutex` is held after a trace, given whether it was held before. -/
def mutex_held (held : Bool) : List Ev → Bool
  | [] => held
  | Ev.lock :: es => mutex_held true es
  | Ev.unlock :: es => mutex_held false es
  | _ :: es => mutex_held held es

/-- The guard `if (!g_connected || !g_rig)`: the rig to use, or `none` when the guard
fires. -/
def connected_rig (link : RadioLink) : Option Rig :=
  if link.g_connected = false ∨ link.g_rig.isNone = true then none else link.g_rig

/-- The two statements `if (level < 0) level = 0; if (level > 100) level = 100;`. -/
def clamp_0_100 (level : Int) : Int :=
  let level1 := if level < 0 then 0 else level
  if level1 > 100 then 100 else level1

/-- The common body of `radio_set_power`, `radio_set_mic_gain` and
`radio_set_compression`, which differ in the level selector only. -/
def set_percent_level (selector : setting_t) (link : RadioLink) (level : Int) :
    Int × List Ev :=
  match connected_rig link with
  | none => (-1, [Ev.lock, Ev.unlock])
  | some rig =>
    let level1 := clamp_0_100 level
    let val := value_t.f ((level1 : ℚ) / 100)
    let retcode := rig.rig_set_level selector val
    if retcode ≠ RIG_OK then (-1, [Ev.lock, Ev.rig_set_level selector val, Ev.unlock])
    else (0, [Ev.lock, Ev.rig_set_level selector val, Ev.unlock])

/-- The function `radio_set_power`. -/
def radio_set_power (link : RadioLink) (level : Int) : Int × List Ev :=
  set_percent_level RIG_LEVEL_RFPOWER link level

/-- The function `radio_set_mic_gain`. -/
def radio_set_mic_gain (link : RadioLink) (level : Int) : Int × List Ev :=
  set_percent_level RIG_LEVEL_MICGAIN link level

/-- The function `radio_set_compression`. -/
def radio_set_compression (link : RadioLink) (level : Int) : Int × List Ev :=
  set_percent_level RIG_LEVEL_COMP link level

/-- The common body of the getters that return `(int)(val.f * scale + 0.5f)`. -/
def get_scaled_level (selector : setting_t) (scale : ℚ) (link : RadioLink) : Int × List Ev :=
  match connected_rig link with
  | none => (-1, [Ev.lock, Ev.unlock])
  | some rig =>
    let r := rig.rig_get_level selector
    if r.1 ≠ RIG_OK then (-1, [Ev.lock, Ev.rig_get_level selector, Ev.unlock])
    else (c_int (r.2.get_f * scale + 1 / 2), [Ev.lock, Ev.rig_get_level selector, Ev.unlock])

/-- The function `radio_get_power`. -/
def radio_get_power (link : RadioLink) : Int × List Ev :=
  get_scaled_level RIG_LEVEL_RFPOWER 100 link

/-- The function `radio_get_mic_gain`. -/
def radio_get_mic_gain (link : RadioLink) : Int × List Ev :=
  get_scaled_level RIG_LEVEL_MICGAIN 100 link

/-- The function `radio_get_compression`. -/
def radio_get_compression (link : RadioLink) : Int × List Ev :=
  get_scaled_level RIG_LEVEL_COMP 100 link

/-- The function `radio_get_nb_level`. -/
def radio_get_nb_level (link : RadioLink) : Int × List Ev :=
  get_scaled_level RIG_LEVEL_NB 10 link

/-- The function `radio_get_nr_level`. -/
def radio_get_nr_level (link : RadioLink) : Int × List Ev :=
  get_scaled_level RIG_LEVEL_NR 10 link

/-- The function `radio_set_compression_enabled`. -/
def radio_set_compression_enabled (link : RadioLink) (enabled : Bool) : Int × List Ev :=
  match connected_rig link with
  | none => (-1, [Ev.lock, Ev.unlock])
  | some rig =>
    let status : Int := if enabled then 1 else 0
    let retcode := rig.rig_set_func RIG_FUNC_COMP status
    if retcode ≠ RIG_OK then (-1, [Ev.lock, Ev.rig_set_func RIG_FUNC_COMP status, Ev.unlock])
    else (0, [Ev.lock, Ev.rig_set_func RIG_FUNC_COMP status, Ev.unlock])

/-- The common body of `radio_get_compression_enabled`, `radio_get_nb_enabled` and
`radio_get_nr_enabled`. -/
def get_func_enabled (selector : setting_t) (link : RadioLink) : Bool × List Ev :=
  match connected_rig link with
  | none => (false, [Ev.lock, Ev.unlock])
  | some rig =>
    let r := rig.rig_get_func selector
    if r.1 ≠ RIG_OK then (false, [Ev.lock, Ev.rig_get_func selector, Ev.unlock])
    else (decide (r.2 ≠ 0), [Ev.lock, Ev.rig_get_func selector, Ev.unlock])

/-- The function `radio_get_compression_enabled`. -/
def radio_get_compression_enabled (link : RadioLink) : Bool × List Ev :=
  get_func_enabled RIG_FUNC_COMP link

/-- The function `radio_get_nb_enabled`. -/
def radio_get_nb_enabled (link : RadioLink) : Bool × List Ev :=
  get_func_enabled RIG_FUNC_NB link

/-- The function `radio_get_nr_enabled`. -/
def radio_get_nr_enabled (link : RadioLink) : Bool × List Ev :=
  get_func_enabled RIG_FUNC_NR link

/-- The common body of `radio_set_nb` and `radio_set_nr`. -/
def set_noise_control (func level_sel : setting_t) (link : RadioLink) (enabled : Bool)
    (level : Int) : Int × List Ev :=
  match connected_rig link with
  | none => (-1, [Ev.lock, Ev.unlock])
  | some rig =>
    let status : Int := if enabled then 1 else 0
    let retcode := rig.rig_set_func func status
    if retcode ≠ RIG_OK then (-1, [Ev.lock, Ev.rig_set_func func status, Ev.unlock])
    else if enabled = true ∧ level ≥ 0 then
      let level1 := if level > 10 then 10 else level
      let val := value_t.f ((level1 : ℚ) / 10)
      let retcode1 := rig.rig_set_level level_sel val
      if retcode1 ≠ RIG_OK then
        (-1, [Ev.lock, Ev.rig_set_func func status, Ev.rig_set_level level_sel val, Ev.unlock])
      else
        (0, [Ev.lock, Ev.rig_set_func func status, Ev.rig_set_level level_sel val, Ev.unlock])
    else (0, [Ev.lock, Ev.rig_set_func func status, Ev.unlock])

/-- The function `radio_set_nb`. -/
def radio_set_nb (link : RadioLink) (enabled : Bool) (level : Int) : Int × List Ev :=
  set_noise_control RIG_FUNC_NB RIG_LEVEL_NB link enabled level

/-- The function `radio_set_nr`. -/
def radio_set_nr (link : RadioLink) (enabled : Bool) (level : Int) : Int × List Ev :=
  set_noise_control RIG_FUNC_NR RIG_LEVEL_NR link enabled level

/-- The common tail of the setters that pass an integer value: `radio_set_agc_speed`,
`radio_set_preamp`, `radio_set_attenuation`. -/
def set_int_level (selector : setting_t) (link : RadioLink) (n : Int) : Int × List Ev :=
  match connected_rig link with
  | none => (-1, [Ev.lock, Ev.unlock])
  | some rig =>
    let val := value_t.i n
    let retcode := rig.rig_set_level selector val
    if retcode ≠ RIG_OK then (-1, [Ev.lock, Ev.rig_set_level selector val, Ev.unlock])
    else (0, [Ev.lock, Ev.rig_set_level selector val, Ev.unlock])

/-- The `switch (speed)` of `radio_set_agc_speed`. -/
def agc_to_rig (speed : Int) : Int :=
  if speed = AGC_OFF then RIG_AGC_OFF
  else if speed = AGC_FAST then RIG_AGC_FAST
  else if speed = AGC_MEDIUM then RIG_AGC_MEDIUM
  else if speed = AGC_SLOW then RIG_AGC_SLOW
  else RIG_AGC_AUTO

/-- The function `radio_set_agc_speed`. -/
def radio_set_agc_speed (link : RadioLink) (speed : Int) : Int × List Ev :=
  set_int_level RIG_LEVEL_AGC link (agc_to_rig speed)

/-- The `switch (val.i)` of `radio_get_agc_speed`. -/
def agc_of_rig (n : Int) : Int :=
  if n = RIG_AGC_OFF then AGC_OFF
  else if n = RIG_AGC_FAST then AGC_FAST
  else if n = RIG_AGC_MEDIUM then AGC_MEDIUM
  else if n = RIG_AGC_SLOW then AGC_SLOW
  else AGC_MEDIUM

/-- The function `radio_get_agc_speed`. -/
def radio_get_agc_speed (link : RadioLink) : Int × List Ev :=
  match connected_rig link with
  | none => (AGC_OFF, [Ev.lock, Ev.unlock])
  | some rig =>
    let r := rig.rig_get_level RIG_LEVEL_AGC
    if r.1 ≠ RIG_OK then (AGC_OFF, [Ev.lock, Ev.rig_get_level RIG_LEVEL_AGC, Ev.unlock])
    else (agc_of_rig r.2.get_i, [Ev.lock, Ev.rig_get_level RIG_LEVEL_AGC, Ev.unlock])

/-- The function `radio_get_agc_string`. -/
def radio_get_agc_string (link : RadioLink) : String × List Ev :=
  let r := radio_get_agc_speed link
  let text :=
    if r.1 = AGC_OFF then "Off"
    else if r.1 = AGC_FAST then "Fast"
    else if r.1 = AGC_MEDIUM then "Medium"
    else if r.1 = AGC_SLOW then "Slow"
    else "Unknown"
  (text, r.2)

/-- The function `radio_set_preamp`. -/
def radio_set_preamp (link : RadioLink) (state : Int) : Int × List Ev :=
  set_int_level RIG_LEVEL_PREAMP link (state * 10)

/-- The function `radio_set_attenuation`. -/
def radio_set_attenuation (link : RadioLink) (db : Int) : Int × List Ev :=
  set_int_level RIG_LEVEL_ATT link db

/-- The function `radio_get_preamp`: `val.i / 10`, divided as C does. -/
def radio_get_preamp (link : RadioLink) : Int × List Ev :=
  match connected_rig link with
  | none => (-1, [Ev.lock, Ev.unlock])
  | some rig =>
    let r := rig.rig_get_level RIG_LEVEL_PREAMP
    if r.1 ≠ RIG_OK then (-1, [Ev.lock, Ev.rig_get_level RIG_LEVEL_PREAMP, Ev.unlock])
    else (r.2.get_i.tdiv 10, [Ev.lock, Ev.rig_get_level RIG_LEVEL_PREAMP, Ev.unlock])

/-- The function `radio_get_attenuation`. -/
def radio_get_attenuation (link : RadioLink) : Int × List Ev :=
  match connected_rig link with
  | none => (-1, [Ev.lock, Ev.unlock])
  | some rig =>
    let r := rig.rig_get_level RIG_LEVEL_ATT
    if r.1 ≠ RIG_OK then (-1, [Ev.lock, Ev.rig_get_level RIG_LEVEL_ATT, Ev.unlock])
    else (r.2.get_i, [Ev.lock, Ev.rig_get_level RIG_LEVEL_ATT, Ev.unlock])

/-- The table `mode_list`. -/
def mode_list : List rmode_t :=
  [RIG_MODE_USB, RIG_MODE_LSB, RIG_MODE_CW, RIG_MODE_AM, RIG_MODE_FM, RIG_MODE_RTTY]

/-- The constant `mode_count`: the number of entries of `mode_list`. -/
def mode_count : Int := mode_list.length

/-- The array access `mode_list[index]`; an index outside the table (which the code never
uses) yields an unnamed mode. -/
def mode_at (index : Int) : rmode_t :=
  if index < 0 then rmode_t.other 0 else mode_list.getD index.toNat (rmode_t.other 0)

/-- The first loop of `radio_cycle_mode`, from index `i` on with `left` entries to go: the
index of the first entry equal to `current_mode`, or `current_index` unchanged. -/
def find_current_index (current_mode : rmode_t) (current_index : Int) :
    Nat → Int → Int
  | 0, _ => current_index
  | left + 1, i =>
    if mode_at i = current_mode then i
    else find_current_index current_mode current_index left (i + 1)

/-- The second loop of `radio_cycle_mode`, from counter `i` on with `left` iterations to
go: the result of the function and the events from there to its return. -/
def try_next_modes (rig : Rig) (current_index : Int) : Nat → Int → Int × List Ev
  | 0, _ => (-1, [Ev.unlock])
  | left + 1, i =>
    let next_index := (current_index + 1 + i).tmod mode_count
    let next_mode := mode_at next_index
    let width := rig.rig_passband_normal next_mode
    let retcode := rig.rig_set_mode next_mode width
    if retcode = RIG_OK then
      (0, [Ev.rig_passband_normal next_mode, Ev.rig_set_mode next_mode width, Ev.unlock])
    else
      let r := try_next_modes rig current_index left (i + 1)
      (r.1, Ev.rig_passband_normal next_mode :: Ev.rig_set_mode next_mode width :: r.2)

/-- The function `radio_cycle_mode`; both loops run for `i = 0 .. mode_count - 1`. -/
def radio_cycle_mode (link : RadioLink) : Int × List Ev :=
  match connected_rig link with
  | none => (-1, [Ev.lock, Ev.unlock])
  | some rig =>
    let r := rig.rig_get_mode
    if r.1 ≠ RIG_OK then (-1, [Ev.lock, Ev.rig_get_mode, Ev.unlock])
    else
      let current_index := find_current_index r.2.1 (-1) mode_count.toNat 0
      let t := try_next_modes rig current_index mode_count.toNat 0
      (t.1, Ev.lock :: Ev.rig_get_mode :: t.2)

/-- The function `radio_set_mode_by_index`. -/
def radio_set_mode_by_index (link : RadioLink) (mode_index : Int) : Int × List Ev :=
  if mode_index < 0 ∨ mode_index ≥ mode_count then (-1, [])
  else
    match connected_rig link with
    | none => (-1, [Ev.lock, Ev.unlock])
    | some rig =>
      let mode := mode_at mode_index
      let width := rig.rig_passband_normal mode
      let retcode := rig.rig_set_mode mode width
      if retcode ≠ RIG_OK then
        (-1, [Ev.lock, Ev.rig_passband_normal mode, Ev.rig_set_mode mode width, Ev.unlock])
      else
        (0, [Ev.lock, Ev.rig_passband_normal mode, Ev.rig_set_mode mode width, Ev.unlock])

/-- The mode that the comment of `radio_set_mode_by_index` in `radio_setters.h` documents
for an index: `0=AM, 1=CW, 2=USB, 3=LSB, 4=FM, 5=RTTY`. -/
def documented_mode (mode_index : Int) : rmode_t :=
  if mode_index = 0 then RIG_MODE_AM
  else if mode_index = 1 then RIG_MODE_CW
  else if mode_index = 2 then RIG_MODE_USB
  else if mode_index = 3 then RIG_MODE_LSB
  else if mode_index = 4 then RIG_MODE_FM
  else if mode_index = 5 then RIG_MODE_RTTY
  else rmode_t.other 0

/-- The calls of `rig_set_mode` in a trace: the modes requested, in order. -/
def set_mode_requests : List Ev → List rmode_t
  | [] => []
  | Ev.rig_set_mode mode _ :: es => mode :: set_mode_requests es
  | _ :: es => set_mode_requests es

/-- A rig that accepts every request and reports mode `current`, width 2400. -/
def rig_accepting (current : rmode_t) : Rig :=
  { rig_set_level := fun _ _ => RIG_OK,
    rig_get_level := fun _ => (RIG_OK, value_t.f 0),
    rig_set_func := fun _ _ => RIG_OK,
    rig_get_func := fun _ => (RIG_OK, 0),
    rig_get_mode := (RIG_OK, current, 2400),
    rig_set_mode := fun _ _ => RIG_OK,
    rig_passband_normal := fun _ => 2400 }

/-- A link to a connected rig. -/
def link_to (rig : Rig) : RadioLink := { g_connected := true, g_rig := some rig }

/-- The link before the radio is connected. -/
def link_down : RadioLink := { g_connected := false, g_rig := none }

/-! ## Further inputs for Frequency Mode -/

/-- The state in which `14.9996` has been entered: after the keys `#`, `1`, `4`, `*`, `9`,
`9`, `9`, `6` from the initial state. -/
def entered_14_9996 : FreqMode :=
  { g_state := FREQ_MODE_ENTERING, g_selected_vfo := VFO_CURRENT,
    g_freq_buffer := ['1', '4', '.', '9', '9', '9', '6'] ++ List.replicate 6 (Char.ofNat 0),
    g_freq_len := 7, g_has_decimal := true,
    spoken := ["Current VFO", "1", "4", "point", "9", "9", "9", "6"], radio_calls := [] }

/-- A radio that refuses every request. -/
def radio_refusing : ℚ → Int := fun _ => -1

/-- The texts that `vfo_name` can return. -/
def is_vfo_name (text : String) : Prop :=
  text = "VFO A" ∨ text = "VFO B" ∨ text = "Current VFO" ∨ text = "VFO"

/-- Two speech traces are the same apart from VFO names: they have the same length, and at
every position the texts are equal or both are VFO names. -/
def same_apart_from_vfo_names (a b : List String) : Prop :=
  List.Forall₂ (fun x y => x = y ∨ (is_vfo_name x ∧ is_vfo_name y)) a b

/-- Two module states agree in everything but the VFO selection and the VFO names spoken. -/
def VfoBlind (s1 s2 : FreqMode) : Prop :=
  s1.g_state = s2.g_state ∧ s1.g_freq_buffer = s2.g_freq_buffer ∧
  s1.g_freq_len = s2.g_freq_len ∧ s1.g_has_decimal = s2.g_has_decimal ∧
  s1.radio_calls = s2.radio_calls ∧ same_apart_from_vfo_names s1.spoken s2.spoken

/-! ## The mode cycle in the words of the specification -/

/-- The index of a mode in `mode_list`, -1 when it is not in the list. -/
def index_in_mode_list (mode : rmode_t) : Int :=
  if mode ∈ mode_list then (mode_list.indexOf mode : Int) else -1

/-- The modes at the indices `(c + 1 + i) mod 6` for `i = 0, 1, ..., 5`, in that order. -/
def candidate_modes (c : Int) : List rmode_t :=
  (List.range 6).map
    (fun (i : Nat) => mode_list.getD ((c + 1 + (i : Int)) % 6).toNat (rmode_t.other 0))

/-- The attempts made on a list of candidates when one stops at the first that succeeds. -/
def attempts_until_ok (ok : rmode_t → Bool) : List rmode_t → List rmode_t
  | [] => []
  | m :: ms => if ok m then [m] else m :: attempts_until_ok ok ms

/-- Whether the rig accepts a mode with its normal passband. -/
def accepts_mode (rig : Rig) (mode : rmode_t) : Bool :=
  decide (rig.rig_set_mode mode (rig.rig_passband_normal mode) = RIG_OK)

/-- A rig that reports mode AM and accepts only the mode CW. -/
def rig_cw_only : Rig :=
  { rig_accepting RIG_MODE_AM with
    rig_set_mode := fun mode _ => if mode = RIG_MODE_CW then RIG_OK else -1 }

/-! ## Binary64 arithmetic of `announce_frequency` -/

/-- Rounding to the nearest integer, ties to the even one. -/
def round_half_even (y : ℚ) : Int :=
  if Int.fract y < 1 / 2 then ⌊y⌋
  else if 1 / 2 < Int.fract y then ⌊y⌋ + 1
  else if ⌊y⌋ % 2 = 0 then ⌊y⌋
  else ⌊y⌋ + 1

/-- The double nearest to a positive rational: with `2^e <= x < 2^(e+1)`, the multiple of
`2^(e-52)` nearest to `x` (53 significant bits, ties to even). -/
def to_double_pos (x : ℚ) : ℚ :=
  (round_half_even (x / (2 : ℚ) ^ (Int.log 2 x - 52)) : ℚ) * (2 : ℚ) ^ (Int.log 2 x - 52)

/-- The rounding of the exact result of an operation on `double`s: IEEE 754 binary64, round
to nearest, ties to even.  The exponent is not bounded, so overflow and underflow are not
modelled: in `announce_frequency` they need a frequency above `10^300` Hz or, other than
0, below `10^-300` Hz. -/
def to_double (x : ℚ) : ℚ :=
  if 0 < x then to_double_pos x
  else if x < 0 then - to_double_pos (-x)
  else 0

/-- The expression `a * b + c` on `double`s: a multiplication and an addition, each
rounded, or one fused multiply-add, rounded once, when the compiler contracts the two (C
leaves the choice to the implementation). -/
def mul_add_double (fused : Bool) (a b c : ℚ) : ℚ :=
  if fused then to_double (a * b + c) else to_double (to_double (a * b) + c)

/-- The text that `announce_frequency` builds with `snprintf`, every operation on `double`s
rounded to binary64.  The conversions of `mhz_part` and of `1000` to `double` are exact,
and `1000000.0` and `0.5` are doubles. -/
def frequency_text_double (fused : Bool) (freq_hz : ℚ) : String :=
  let freq_mhz : ℚ := to_double (freq_hz / 1000000)
  let mhz_part : Int := c_int freq_mhz
  let khz_part : Int :=
    c_int (mul_add_double fused (to_double (freq_mhz - mhz_part)) 1000 (1 / 2))
  if khz_part = 0 then toString mhz_part ++ " megahertz"
  else toString mhz_part ++ " point " ++ fmt_03d khz_part ++ " megahertz"

/-! ## Theorems: response queue -/

theorem keep_last_of_le {α : Type} (n : Nat) (l : List α) (h : l.length ≤ n) :
    keep_last n l = l := by
  unfold keep_last
  have : l.length - n = 0 := by omega
  rw [this, List.drop_zero]

theorem keep_last_append {α : Type} (n : Nat) (xs ys : List α) :
    keep_last n (keep_last n xs ++ ys) = keep_last n (xs ++ ys) := by
  unfold keep_last
  rw [← List.drop_append_of_le_length (by omega : xs.length - n ≤ xs.length), List.drop_drop]
  congr 1
  simp only [List.length_drop, List.length_append]
  omega

theorem holds_nil (q : TestQueue) (h0 : 0 ≤ q.head) (h1 : q.head < TEST_QUEUE_SIZE)
    (ht : q.tail = q.head) (hc : q.count = 0) : Holds q [] := by
  unfold Holds TEST_QUEUE_SIZE at *
  refine ⟨h0, h1, by simpa using hc, by simp, ?_, ?_⟩
  · rw [ht, hc]; omega
  · intro i hi; simp at hi

theorem push_not_full (q : TestQueue) (p : CommPacket) (h : ¬ q.count ≥ 4) :
    test_queue_push q p =
      ({ packets := Function.update q.packets q.tail p, head := q.head,
         tail := (q.tail + 1).tmod 4, count := q.count + 1, running := q.running },
       HAMPOD_OK) := by
  simp [test_queue_push, TEST_QUEUE_SIZE, h]

theorem push_full (q : TestQueue) (p : CommPacket) (h : q.count ≥ 4) :
    test_queue_push q p =
      ({ packets := Function.update q.packets q.tail p, head := (q.head + 1).tmod 4,
         tail := (q.tail + 1).tmod 4, count := q.count - 1 + 1, running := q.running },
       HAMPOD_OK) := by
  simp [test_queue_push, TEST_QUEUE_SIZE, h]

/-- A push onto a queue holding `l` leaves it holding the last four of `l ++ [p]`. -/
theorem holds_push (q : TestQueue) (l : List CommPacket) (p : CommPacket) (h : Holds q l) :
    Holds (test_queue_push q p).1 (keep_last 4 (l ++ [p])) := by
  obtain ⟨h0, h1, hc, hl, ht, hp⟩ := h
  unfold TEST_QUEUE_SIZE at *
  have htl : 0 ≤ q.tail := by omega
  have htm : (q.tail + 1).tmod 4 = (q.tail + 1) % 4 :=
    Int.tmod_eq_emod (by omega) (by omega)
  have hhm : (q.head + 1).tmod 4 = (q.head + 1) % 4 :=
    Int.tmod_eq_emod (by omega) (by omega)
  by_cases hfull : q.count ≥ 4
  · rw [push_full q p hfull, htm, hhm]
    have hlen : l.length = 4 := by omega
    have hk : keep_last 4 (l ++ [p]) = l.drop 1 ++ [p] := by
      unfold keep_last
      have h1 : (l ++ [p]).length - 4 = 1 := by simp [hlen]
      rw [h1, List.drop_append_of_le_length (by omega)]
    rw [hk]
    unfold Holds TEST_QUEUE_SIZE
    simp only [List.length_append, List.length_drop, List.length_singleton, hlen]
    refine ⟨by omega, by omega, by omega, by omega, by omega, ?_⟩
    intro i hi
    by_cases h3 : i = 3
    · subst h3
      rw [List.getElem?_append_right (by simp [hlen])]
      have : (((q.head + 1) % 4 + ((3 : Nat) : Int)) % 4) = q.tail := by omega
      rw [this]
      simp [hlen]
    · have hi3 : i < 3 := by omega
      rw [List.getElem?_append_left (by simp [hlen]; omega), List.getElem?_drop,
        hp (1 + i) (by omega)]
      have hne : ((q.head + 1) % 4 + (i : Int)) % 4 ≠ q.tail := by omega
      rw [Function.update_noteq hne]
      congr 2
      push_cast
      omega
  · rw [push_not_full q p hfull, htm]
    have hlen : l.length < 4 := by omega
    rw [keep_last_of_le 4 _ (by simp; omega)]
    unfold Holds TEST_QUEUE_SIZE
    simp only [List.length_append, List.length_singleton]
    refine ⟨h0, h1, by push_cast; omega, by push_cast; omega, by omega, ?_⟩
    intro i hi
    by_cases hil : i = l.length
    · subst hil
      rw [List.getElem?_append_right (le_refl _)]
      have : ((q.head + (l.length : Int)) % 4) = q.tail := by omega
      rw [this]
      simp
    · have hi3 : i < l.length := by omega
      rw [List.getElem?_append_left hi3, hp i hi3]
      have hne : (q.head + (i : Int)) % 4 ≠ q.tail := by omega
      rw [Function.update_noteq hne]

/-- A pop from a queue holding `x :: l` returns `x` with `HAMPOD_OK` and leaves `l`. -/
theorem holds_pop (q : TestQueue) (x : CommPacket) (l : List CommPacket)
    (h : Holds q (x :: l)) (packet : CommPacket) (t : Int) (waits : List WaitOutcome) :
    ∃ q1, test_queue_pop_timeout q packet t waits = some (q1, x, HAMPOD_OK) ∧ Holds q1 l := by
  obtain ⟨h0, h1, hc, hl, ht, hp⟩ := h
  unfold TEST_QUEUE_SIZE at *
  simp only [List.length_cons] at hc hl
  have hcnt : q.count ≠ 0 := by push_cast at hc; omega
  have hloop : pop_wait_loop q waits = some (q, false) := by
    cases waits <;> simp [pop_wait_loop, hcnt]
  have hx : q.packets q.head = x := by
    have := hp 0 (by simp)
    simp at this
    have h4 : q.head % 4 = q.head := by omega
    rw [h4] at this
    exact this.symm
  have hhm : (q.head + 1).tmod 4 = (q.head + 1) % 4 :=
    Int.tmod_eq_emod (by omega) (by omega)
  refine ⟨{ q with head := (q.head + 1).tmod 4, count := q.count - 1 }, ?_, ?_⟩
  · simp [test_queue_pop_timeout, hloop, hcnt, hx, TEST_QUEUE_SIZE]
  · unfold Holds TEST_QUEUE_SIZE
    simp only [hhm]
    push_cast at hc hl
    refine ⟨by omega, by omega, by omega, by omega, by omega, ?_⟩
    intro i hi
    have := hp (i + 1) (by simp; omega)
    rw [List.getElem?_cons_succ] at this
    rw [this]
    congr 2
    push_cast
    omega

theorem holds_length_le (q : TestQueue) (l : List CommPacket) (h : Holds q l) :
    l.length ≤ 4 := by
  obtain ⟨_, _, _, hl, _, _⟩ := h
  unfold TEST_QUEUE_SIZE at hl
  omega

/-- Pushing `ps` onto a queue holding `l` leaves the last four of `l ++ ps`, and every push
returns `HAMPOD_OK`. -/
theorem holds_push_all (ps : List CommPacket) :
    ∀ (q : TestQueue) (l : List CommPacket), Holds q l →
      Holds (push_all q ps).1 (keep_last 4 (l ++ ps)) ∧
      (push_all q ps).2 = List.replicate ps.length HAMPOD_OK := by
  induction ps with
  | nil =>
    intro q l h
    have hl := holds_length_le q l h
    simp only [push_all, List.append_nil, List.length_nil, List.replicate_zero, and_true]
    rw [keep_last_of_le 4 l hl]
    exact h
  | cons p ps ih =>
    intro q l h
    have h1 := holds_push q l p h
    obtain ⟨ih1, ih2⟩ := ih (test_queue_push q p).1 _ h1
    rw [keep_last_append, List.append_assoc, List.singleton_append] at ih1
    refine ⟨ih1, ?_⟩
    simp only [push_all, List.length_cons, List.replicate_succ, ih2]
    rfl

/-- Popping as many times as the queue holds packets returns them oldest first, each with
`HAMPOD_OK`, and leaves the queue holding nothing. -/
theorem holds_pop_n (t : Int) (waits : Nat → List WaitOutcome) (l : List CommPacket) :
    ∀ (q : TestQueue) (packet : CommPacket), Holds q l →
      ∃ q1, pop_n t waits l.length q packet = some (q1, l.map (fun p => (p, HAMPOD_OK))) ∧
        Holds q1 [] := by
  induction l with
  | nil =>
    intro q packet h
    exact ⟨q, rfl, h⟩
  | cons x l ih =>
    intro q packet h
    obtain ⟨q1, hq1, hh1⟩ := holds_pop q x l h packet t (waits (l.length + 1))
    obtain ⟨q2, hq2, hh2⟩ := ih q1 x hh1
    refine ⟨q2, ?_, hh2⟩
    simp only [List.length_cons, pop_n, hq1, hq2, List.map_cons]

/-- Claim C1. FIFO order: after at most `TEST_QUEUE_SIZE` packets `ps` are pushed with
`test_queue_push` onto an empty queue (running or not), `ps.length` successive
`test_queue_pop_timeout` calls all return, each with `HAMPOD_OK`, and yield the packets in
exactly the order they were pushed; the queue is left with `count == 0`.  The pops return
whatever the timeout and the outcomes of condition waits would be: they never wait. -/
theorem fifo_ordering (q : TestQueue) (hq : EmptyQueue q) (ps : List CommPacket)
    (hn : (ps.length : Int) ≤ TEST_QUEUE_SIZE) (packet : CommPacket) (timeout_ms : Int)
    (waits : Nat → List WaitOutcome) :
    ∃ q1, pop_n timeout_ms waits ps.length (push_all q ps).1 packet =
        some (q1, ps.map (fun p => (p, HAMPOD_OK))) ∧ test_queue_count q1 = 0 := by
  obtain ⟨h0, h1, ht, hc⟩ := hq
  have hps : ps.length ≤ 4 := by unfold TEST_QUEUE_SIZE at hn; omega
  have h := (holds_push_all ps q [] (holds_nil q h0 h1 ht hc)).1
  rw [List.nil_append, keep_last_of_le 4 ps hps] at h
  obtain ⟨q1, hq1, hh1⟩ := holds_pop_n timeout_ms waits ps (push_all q ps).1 packet h
  refine ⟨q1, hq1, ?_⟩
  obtain ⟨_, _, hc1, _⟩ := hh1
  simpa [test_queue_count] using hc1

/-- The scenario of `test_fifo_ordering`: tags 1, 2, 3 are pushed onto a fresh queue and
popped in that order. -/
theorem fifo_ordering_witness :
    ∃ q1, pop_n 1000 (fun _ => []) 3
        (push_all (test_queue_init (fun _ => tagged 0 0))
          [tagged 0 1, tagged 0 2, tagged 0 3]).1 (tagged 0 0) =
        some (q1, [(tagged 0 1, HAMPOD_OK), (tagged 0 2, HAMPOD_OK), (tagged 0 3, HAMPOD_OK)]) ∧
      test_queue_count q1 = 0 :=
  fifo_ordering (test_queue_init (fun _ => tagged 0 0))
    ⟨by decide, by decide, rfl, rfl⟩ [tagged 0 1, tagged 0 2, tagged 0 3] (by decide)
    (tagged 0 0) 1000 (fun _ => [])

/-- Claim C2. Drop-oldest overflow: when more than `TEST_QUEUE_SIZE` packets `ps` are pushed
with `test_queue_push` onto an empty queue, every push returns `HAMPOD_OK` (the push has no
wait), the queue afterwards has `count == TEST_QUEUE_SIZE`, and `TEST_QUEUE_SIZE` successive
pops return, each with `HAMPOD_OK`, the last `TEST_QUEUE_SIZE` pushed packets, oldest of
those first. -/
theorem overflow_drops_oldest (q : TestQueue) (hq : EmptyQueue q) (ps : List CommPacket)
    (hM : TEST_QUEUE_SIZE < (ps.length : Int)) (packet : CommPacket) (timeout_ms : Int)
    (waits : Nat → List WaitOutcome) :
    (push_all q ps).2 = List.replicate ps.length HAMPOD_OK ∧
    test_queue_count (push_all q ps).1 = TEST_QUEUE_SIZE ∧
    ∃ q1, pop_n timeout_ms waits TEST_QUEUE_SIZE.toNat (push_all q ps).1 packet =
        some (q1, (keep_last TEST_QUEUE_SIZE.toNat ps).map (fun p => (p, HAMPOD_OK))) ∧
      test_queue_count q1 = 0 := by
  obtain ⟨h0, h1, ht, hc⟩ := hq
  have hps : 4 < ps.length := by unfold TEST_QUEUE_SIZE at hM; omega
  obtain ⟨h, hr⟩ := holds_push_all ps q [] (holds_nil q h0 h1 ht hc)
  rw [List.nil_append] at h
  have h4 : TEST_QUEUE_SIZE.toNat = 4 := rfl
  have hlen : (keep_last 4 ps).length = 4 := by
    unfold keep_last
    rw [List.length_drop]
    omega
  refine ⟨hr, ?_, ?_⟩
  · obtain ⟨_, _, hc1, _⟩ := h
    rw [test_queue_count, hc1, hlen]
    rfl
  · obtain ⟨q1, hq1, hh1⟩ :=
      holds_pop_n timeout_ms waits (keep_last 4 ps) (push_all q ps).1 packet h
    rw [hlen] at hq1
    refine ⟨q1, by rw [h4]; exact hq1, ?_⟩
    obtain ⟨_, _, hc1, _⟩ := hh1
    simpa [test_queue_count] using hc1

/-- The scenario of `test_overflow_drops_oldest`: tags 1 to 5 are pushed onto a fresh queue
of capacity 4; tag 1 is dropped and the pops return tags 2, 3, 4, 5. -/
theorem overflow_drops_oldest_witness :
    (push_all (test_queue_init (fun _ => tagged 1 0))
        [tagged 1 1, tagged 1 2, tagged 1 3, tagged 1 4, tagged 1 5]).2 =
      List.replicate 5 HAMPOD_OK ∧
    test_queue_count (push_all (test_queue_init (fun _ => tagged 1 0))
        [tagged 1 1, tagged 1 2, tagged 1 3, tagged 1 4, tagged 1 5]).1 = 4 ∧
    ∃ q1, pop_n 1000 (fun _ => []) 4
        (push_all (test_queue_init (fun _ => tagged 1 0))
          [tagged 1 1, tagged 1 2, tagged 1 3, tagged 1 4, tagged 1 5]).1 (tagged 1 0) =
        some (q1, [(tagged 1 2, HAMPOD_OK), (tagged 1 3, HAMPOD_OK), (tagged 1 4, HAMPOD_OK),
          (tagged 1 5, HAMPOD_OK)]) ∧
      test_queue_count q1 = 0 :=
  overflow_drops_oldest (test_queue_init (fun _ => tagged 1 0))
    ⟨by decide, by decide, rfl, rfl⟩
    [tagged 1 1, tagged 1 2, tagged 1 3, tagged 1 4, tagged 1 5] (by decide)
    (tagged 1 0) 1000 (fun _ => [])

/-! ## Theorems: packet codec -/

theorem le_bytes_length (k n : Nat) : (le_bytes k n).length = k := by
  induction k generalizing n with
  | zero => rfl
  | succ k ih => simp [le_bytes, ih]

theorem le_value_le_bytes (k n : Nat) : le_value (le_bytes k n) = n % 256 ^ k := by
  induction k generalizing n with
  | zero => simp [le_bytes, le_value, Nat.mod_one]
  | succ k ih =>
    simp only [le_bytes, le_value, ih]
    rw [pow_succ, Nat.mul_comm (256 ^ k) 256, Nat.mod_mul]

theorem overwrite_full (old data : List Nat) (h : old.length ≤ data.length) :
    overwrite old data = data := by
  simp [overwrite, List.drop_eq_nil_of_le h]

/-- A `read` that is granted everything returns the `n` bytes at the front of the pipe. -/
theorem read_all (a rest : List Nat) :
    read ⟨a ++ rest, []⟩ a.length = ((a.length : Int), a, ⟨rest, []⟩) := by
  simp [read]

theorem send_packet_frame (out : List Nat) (p : Inst_packet) (h : p.frame) :
    send_packet out p = some (out ++ wire p) := by
  obtain ⟨h1, h2⟩ := h
  have ht : p.data.take p.data_len = p.data := by
    rw [← h1]; exact List.take_length _
  simp only [send_packet, wire, h2, h1, le_refl, and_self, if_true, ht, List.append_assoc]

theorem read_exact (a rest : List Nat) (n : Nat) (h : a.length = n) :
    read ⟨a ++ rest, []⟩ n = ((n : Int), a, ⟨rest, []⟩) := by
  subst h
  exact read_all a rest

/-- Decoding what `send_packet` wrote gives the packet back when the payload is not empty
and every `read` returns the bytes it asked for. -/
theorem roundtrip_nonempty (p : Inst_packet) (hf : p.frame) (hpos : 0 < p.data_len)
    (htype : p.type < 256) (htag : p.tag < 65536) (rest : List Nat) (stack : Stack) :
    read_from_pipe ⟨wire p ++ rest, []⟩ stack =
      ⟨some p, ⟨rest, []⟩, [(sizeof_Packet_type, 1), (2, 2), (2, 2),
        (p.data_len, (p.data_len : Int))]⟩ := by
  obtain ⟨hlen, hcap⟩ := hf
  have r1 := read_exact (le_bytes sizeof_Packet_type p.type)
    (le_bytes 2 p.data_len ++ le_bytes 2 p.tag ++ p.data ++ rest) sizeof_Packet_type
    (le_bytes_length _ _)
  have r2 := read_exact (le_bytes 2 p.data_len) (le_bytes 2 p.tag ++ p.data ++ rest) 2
    (le_bytes_length _ _)
  have r3 := read_exact (le_bytes 2 p.tag) (p.data ++ rest) 2 (le_bytes_length _ _)
  have r4 := read_exact p.data rest p.data_len hlen
  have e1 : wire p ++ rest = le_bytes sizeof_Packet_type p.type ++
      (le_bytes 2 p.data_len ++ le_bytes 2 p.tag ++ p.data ++ rest) := by
    simp [wire, List.append_assoc]
  have v1 : le_value (le_bytes sizeof_Packet_type p.type) = p.type := by
    rw [le_value_le_bytes]; exact Nat.mod_eq_of_lt (by simpa [sizeof_Packet_type] using htype)
  have v2 : le_value (le_bytes 2 p.data_len) = p.data_len := by
    rw [le_value_le_bytes]; exact Nat.mod_eq_of_lt (by norm_num; omega)
  have v3 : le_value (le_bytes 2 p.tag) = p.tag := by
    rw [le_value_le_bytes]; exact Nat.mod_eq_of_lt (by norm_num; omega)
  have o1 : ∀ x y k, overwrite (le_bytes k x) (le_bytes k y) = le_bytes k y := by
    intro x y k
    exact overwrite_full _ _ (by simp [le_bytes_length])
  have hs : ((sizeof_Packet_type : Nat) : Int) = 1 := rfl
  have hd : ¬ ((p.data_len : Int) ≤ 0) := by omega
  rw [e1]
  simp only [read_from_pipe, r1, o1, v1, hs]
  simp only [List.append_assoc] at r2 r3 ⊢
  simp only [r2, o1, v2, r3, v3, r4, hd]
  simp only [create_inst_packet, overwrite, ← hlen, List.take_left]
  cases p
  simp_all

/-- Claim C3. The round trip fails for the empty payload: `send_packet` writes the 5 header
bytes of a packet with `data_len == 0`, and `read_from_pipe`, with every `read` returning
exactly the bytes it asks for, returns `NULL`: the fourth `read` asks for 0 bytes, returns
0, and the test `bytes_read <= 0` takes that for a closed pipe. -/
theorem roundtrip_empty_payload_null (type tag : Nat) (rest : List Nat) (stack : Stack) :
    send_packet [] ⟨type, 0, tag, []⟩ = some (wire ⟨type, 0, tag, []⟩) ∧
    (wire ⟨type, 0, tag, []⟩).length = 5 ∧
    (read_from_pipe ⟨wire ⟨type, 0, tag, []⟩ ++ rest, []⟩ stack).packet = none ∧
    (read_from_pipe ⟨wire ⟨type, 0, tag, []⟩ ++ rest, []⟩ stack).reads =
      [(sizeof_Packet_type, 1), (2, 2), (2, 2), (0, 0)] := by
  have r1 := read_exact (le_bytes sizeof_Packet_type type)
    (le_bytes 2 0 ++ le_bytes 2 tag ++ rest) sizeof_Packet_type (le_bytes_length _ _)
  have r2 := read_exact (le_bytes 2 0) (le_bytes 2 tag ++ rest) 2 (le_bytes_length _ _)
  have r3 := read_exact (le_bytes 2 tag) rest 2 (le_bytes_length _ _)
  have r4 : read ⟨rest, []⟩ 0 = (0, [], ⟨rest, []⟩) := by simp [read]
  have e1 : wire ⟨type, 0, tag, []⟩ ++ rest = le_bytes sizeof_Packet_type type ++
      (le_bytes 2 0 ++ le_bytes 2 tag ++ rest) := by
    simp [wire, List.append_assoc]
  have o1 : ∀ x y k, overwrite (le_bytes k x) (le_bytes k y) = le_bytes k y := by
    intro x y k
    exact overwrite_full _ _ (by simp [le_bytes_length])
  have v2 : le_value (le_bytes 2 0) = 0 := by rw [le_value_le_bytes]; rfl
  have hs : ((sizeof_Packet_type : Nat) : Int) = 1 := rfl
  refine ⟨by simp [send_packet, wire], ?_, ?_, ?_⟩
  · simp [wire, le_bytes_length, sizeof_Packet_type]
  · rw [e1]
    simp only [read_from_pipe, r1, o1, hs]
    simp only [List.append_assoc] at r2 ⊢
    simp [r2, o1, v2, r3, r4]
  · rw [e1]
    simp only [read_from_pipe, r1, o1, hs]
    simp only [List.append_assoc] at r2 ⊢
    simp [r2, o1, v2, r3, r4]

/-- Claim C9. Wire layout: for every packet that is a frame (its length field is its payload
byte count, at most 256), `send_packet` appends exactly `5 + data_len` bytes to the outbound
channel: 1 byte of type, the length as 2 bytes least significant first, the tag as 2 bytes
least significant first, then the `data_len` payload bytes. -/
theorem send_packet_wire_layout (output_pipe : List Nat) (p : Inst_packet) (hf : p.frame) :
    ∃ written, send_packet output_pipe p = some (output_pipe ++ written) ∧
      written.length = 5 + p.data_len ∧
      written = [p.type % 256, p.data_len % 256, p.data_len / 256 % 256,
        p.tag % 256, p.tag / 256 % 256] ++ p.data ∧
      (written.drop 5).length = p.data_len := by
  refine ⟨wire p, send_packet_frame output_pipe p hf, ?_, ?_, ?_⟩
  · simp [wire, le_bytes_length, sizeof_Packet_type, hf.1]; omega
  · simp [wire, le_bytes, sizeof_Packet_type]
  · simp [wire, le_bytes, sizeof_Packet_type, hf.1]

/-- The keypad request of the main loop (`KEYPAD`, one payload byte `'r'`, tag 0) after
earlier traffic: six bytes are appended. -/
theorem send_packet_wire_layout_witness :
    ∃ written, send_packet [9, 9] ⟨0, 1, 0, [114]⟩ = some ([9, 9] ++ written) ∧
      written.length = 5 + 1 ∧
      written = [0 % 256, 1 % 256, 1 / 256 % 256, 0 % 256, 0 / 256 % 256] ++ [114] ∧
      (written.drop 5).length = 1 :=
  send_packet_wire_layout [9, 9] ⟨0, 1, 0, [114]⟩ ⟨rfl, by decide⟩

/-- The part of "decode fails closed" that the code has: `read_from_pipe` makes at most
four `read` calls, never two for the same field, and returns `NULL` exactly when one of
them returned 0 or less. -/
theorem read_from_pipe_null_iff (pipe : Pipe) (stack : Stack) :
    (read_from_pipe pipe stack).reads.length ≤ 4 ∧
    ((read_from_pipe pipe stack).packet = none ↔
      ∃ c ∈ (read_from_pipe pipe stack).reads, c.2 ≤ 0) := by
  unfold read_from_pipe
  simp only
  split_ifs with h1 h2 h3 h4 <;> simp_all

/-- Claim C10. A partial read is not reported: the stream holds a frame with a 2-byte payload,
the fourth `read` asks for 2 bytes and returns 1, and `read_from_pipe` still returns a
packet, of length 2, whose second payload byte is whatever the stack held. -/
theorem short_read_accepted (stack : Stack) :
    (read_from_pipe ⟨[0, 2, 0, 5, 0, 65, 66], [some 1, some 2, some 2, some 1]⟩
        stack).packet =
      some ⟨0, 2, 5, [65] ++ (stack.buffer.drop 1).take 1⟩ ∧
    (read_from_pipe ⟨[0, 2, 0, 5, 0, 65, 66], [some 1, some 2, some 2, some 1]⟩
        stack).reads = [(sizeof_Packet_type, 1), (2, 2), (2, 2), (2, 1)] := by
  constructor <;>
    simp [read_from_pipe, read, overwrite, le_bytes, le_value, sizeof_Packet_type,
      create_inst_packet]

/-! ## Theorems: keypad hold detection -/

theorem get_spoken_word_ne_key_held (key : Char) : get_spoken_word key ≠ "key held" := by
  unfold get_spoken_word
  split <;> decide

/-- Claim C7. In every loop state, a valid sample whose key differs from `last_key` speaks
the word of the new key and nothing else (so no "key held"), sets `last_key` to the new
key, the hold counter to 1, the hold-announced flag to 0 and the no-event counter to 0. -/
theorem new_key_emits_tap (s : HoldState) (event : KeypadEvent) (hv : event.valid = true)
    (hk : event.key ≠ s.last_key) :
    loop_body s event =
      ({ last_key := event.key, hold_count := 1, no_event_count := 0, hold_spoken := 0 },
        [get_spoken_word event.key]) ∧
    get_spoken_word event.key ≠ "key held" := by
  refine ⟨?_, get_spoken_word_ne_key_held _⟩
  simp [loop_body, hv, hk]

/-- A hold of `'5'` that was already announced, interrupted by a sample of `'7'`. -/
theorem new_key_emits_tap_witness :
    loop_body ⟨'5', 140, 3, 1⟩ ⟨true, '7'⟩ =
      ({ last_key := '7', hold_count := 1, no_event_count := 0, hold_spoken := 0 },
        [get_spoken_word '7']) ∧
    get_spoken_word '7' ≠ "key held" :=
  new_key_emits_tap ⟨'5', 140, 3, 1⟩ ⟨true, '7'⟩ rfl (by decide)

/-- While the key `k` stays down (samples of `k` and gaps shorter than the release
threshold), each tick adds 1 to the hold counter and speaks "key held" exactly on the tick
that brings the counter to `HOLD_THRESHOLD`. -/
theorem hold_run (k : Char) (hk : k ≠ '-') :
    ∀ (es : List KeypadEvent) (s : HoldState), s.last_key = k →
      s.hold_spoken = (if s.hold_count ≥ HOLD_THRESHOLD then 1 else 0) →
      (∀ e ∈ es, e.valid = true → e.key = k) →
      gaps_below RELEASE_THRESHOLD s.no_event_count es = true →
      (run_loop s es).2 = (List.range es.length).map
          (fun (i : Nat) =>
            if s.hold_count + (i : Int) + 1 = HOLD_THRESHOLD then ["key held"] else []) ∧
        (run_loop s es).1.hold_count = s.hold_count + es.length ∧
        (run_loop s es).1.last_key = k := by
  intro es
  induction es with
  | nil => intro s hl hs _ _; simp [run_loop, hl]
  | cons e es ih =>
    intro s hl hs hes hg
    have hes1 : ∀ e1 ∈ es, e1.valid = true → e1.key = k :=
      fun e1 h1 => hes e1 (List.mem_cons_of_mem _ h1)
    have hstep : (loop_body s e).1.last_key = k ∧
        (loop_body s e).1.hold_count = s.hold_count + 1 ∧
        (loop_body s e).1.hold_spoken =
          (if s.hold_count + 1 ≥ HOLD_THRESHOLD then 1 else 0) ∧
        (loop_body s e).2 =
          (if s.hold_count + 1 = HOLD_THRESHOLD then ["key held"] else []) ∧
        gaps_below RELEASE_THRESHOLD (loop_body s e).1.no_event_count es = true := by
      unfold HOLD_THRESHOLD RELEASE_THRESHOLD at *
      cases hv : e.valid
      · simp only [gaps_below, hv, Bool.false_eq_true, if_false, Bool.and_eq_true,
          decide_eq_true_eq] at hg
        have hne : s.last_key ≠ '-' := by rw [hl]; exact hk
        simp only [loop_body, HOLD_THRESHOLD, RELEASE_THRESHOLD, hv, Bool.false_eq_true,
          if_false, hne, ne_eq, not_false_eq_true, if_true]
        by_cases h100 : s.hold_count ≥ 100
        · rw [if_pos h100] at hs
          have h1 : ¬ (s.hold_count + 1 ≥ 100 ∧ s.hold_spoken = 0) := by omega
          have h2 : ¬ (s.no_event_count + 1 ≥ 30) := by omega
          have h3 : ¬ (s.hold_count + 1 = 100) := by omega
          have h4 : s.hold_count + 1 ≥ 100 := by omega
          simp [h1, h2, h3, h4, hl, hs, hg.2]
        · rw [if_neg h100] at hs
          have h2 : ¬ (s.no_event_count + 1 ≥ 30) := by omega
          by_cases h99 : s.hold_count + 1 = 100
          · have h4 : s.hold_count + 1 ≥ 100 := by omega
            simp [h2, h99, hl, hs, hg.2]
          · have h4 : ¬ (s.hold_count + 1 ≥ 100) := by omega
            simp [h2, h99, h4, hl, hs, hg.2]
      · simp only [gaps_below, hv, if_true] at hg
        have hkey : e.key = s.last_key := by rw [hl]; exact hes e (List.mem_cons_self _ _) hv
        simp only [loop_body, HOLD_THRESHOLD, RELEASE_THRESHOLD, hv, if_true, hkey]
        by_cases h100 : s.hold_count ≥ 100
        · rw [if_pos h100] at hs
          have h1 : ¬ (s.hold_count + 1 ≥ 100 ∧ s.hold_spoken = 0) := by omega
          have h3 : ¬ (s.hold_count + 1 = 100) := by omega
          have h4 : s.hold_count + 1 ≥ 100 := by omega
          simp [h1, h3, h4, hl, hs, hg]
        · rw [if_neg h100] at hs
          by_cases h99 : s.hold_count + 1 = 100
          · have h4 : s.hold_count + 1 ≥ 100 := by omega
            simp [h99, hl, hs, hg]
          · have h4 : ¬ (s.hold_count + 1 ≥ 100) := by omega
            simp [h99, h4, hl, hs, hg]
    obtain ⟨s1, s2, s3, s4, s5⟩ := hstep
    obtain ⟨i1, i2, i3⟩ := ih (loop_body s e).1 s1 (by rw [s3, s2]) hes1 s5
    refine ⟨?_, ?_, i3⟩
    · simp only [run_loop, i1, s4, s2, List.length_cons, List.range_succ_eq_map, List.map_cons,
        List.map_map]
      congr 1
      · simp
      · apply List.map_congr_left
        intro i _
        simp only [Function.comp, Nat.succ_eq_add_one]
        push_cast
        have : s.hold_count + 1 + (i : Int) + 1 = s.hold_count + ((i : Int) + 1) + 1 := by ring
        rw [this]
    · simp only [run_loop, i2, s2, List.length_cons]
      push_cast
      ring

/-- Claim C6. Hold detection.  From the no-key baseline, let the ticks be a sample of the key
`k`, then `es`, where every tick of `es` is a sample of `k` or a no-event and every run of
consecutive no-events is shorter than `RELEASE_THRESHOLD`.  Then the first tick speaks the
word of `k` (the one tap), the tick number `HOLD_THRESHOLD` (if the sequence is that long)
speaks "key held", and every other tick speaks nothing; after `n` ticks the hold counter is
`n`, so the hold event falls on the tick where the counter first reaches `HOLD_THRESHOLD`.
The symbol `'-'` is the loop's marker for "no key" and is not a key. -/
theorem hold_emits_once (k : Char) (hk : k ≠ '-') (es : List KeypadEvent)
    (hes : ∀ e ∈ es, e.valid = true → e.key = k)
    (hg : gaps_below RELEASE_THRESHOLD 0 es = true) :
    (run_loop baseline (⟨true, k⟩ :: es)).2 = (List.range (es.length + 1)).map
        (fun (i : Nat) =>
          if i = 0 then [get_spoken_word k]
          else if (i : Int) + 1 = HOLD_THRESHOLD then ["key held"] else []) ∧
      (run_loop baseline (⟨true, k⟩ :: es)).1.hold_count = (es.length : Int) + 1 ∧
      (run_loop baseline (⟨true, k⟩ :: es)).1.last_key = k ∧
      get_spoken_word k ≠ "key held" := by
  have h1 : loop_body baseline ⟨true, k⟩ = (⟨k, 1, 0, 0⟩, [get_spoken_word k]) := by
    simp [loop_body, baseline, hk]
  obtain ⟨r1, r2, r3⟩ := hold_run k hk es ⟨k, 1, 0, 0⟩ rfl (by simp [HOLD_THRESHOLD]) hes hg
  refine ⟨?_, ?_, ?_, get_spoken_word_ne_key_held k⟩
  · simp only [run_loop, h1, r1, List.range_succ_eq_map, List.map_cons, List.map_map]
    congr 1
    apply List.map_congr_left
    intro i _
    simp only [Function.comp, Nat.succ_eq_add_one]
    have hne : ¬ (i + 1 = 0) := by omega
    rw [if_neg hne]
    push_cast
    have : (1 : Int) + (i : Int) + 1 = (i : Int) + 1 + 1 := by ring
    rw [this]
  · simp only [run_loop, h1, r2]
    ring
  · simp only [run_loop, h1, r3]

/-- The key `'5'` held for 100 ticks with a gap of 29 no-events after the first sample:
one tap and one hold event, the latter on tick 100. -/
theorem hold_emits_once_witness :
    (run_loop baseline (⟨true, '5'⟩ :: held_five)).2 = (List.range (held_five.length + 1)).map
        (fun (i : Nat) =>
          if i = 0 then [get_spoken_word '5']
          else if (i : Int) + 1 = HOLD_THRESHOLD then ["key held"] else []) ∧
      (run_loop baseline (⟨true, '5'⟩ :: held_five)).1.hold_count =
        (held_five.length : Int) + 1 ∧
      (run_loop baseline (⟨true, '5'⟩ :: held_five)).1.last_key = '5' ∧
      get_spoken_word '5' ≠ "key held" :=
  hold_emits_once '5' (by decide) held_five
    (by
      intro e he hv
      rcases List.mem_append.1 he with h | h
      · rw [(List.mem_replicate.1 h).2] at hv; cases hv
      · rw [(List.mem_replicate.1 h).2])
    (by decide)

/-- Without a key down, no-event ticks change nothing and speak nothing. -/
theorem idle_no_events :
    ∀ (es : List KeypadEvent) (s : HoldState), s.last_key = '-' →
      (∀ e ∈ es, e.valid = false) → (run_loop s es).1 = s := by
  intro es
  induction es with
  | nil => intro s _ _; rfl
  | cons e es ih =>
    intro s hl hes
    have hv : e.valid = false := hes e (List.mem_cons_self _ _)
    have h1 : loop_body s e = (s, []) := by simp [loop_body, hv, hl]
    simp only [run_loop, h1]
    exact ih s hl (fun e1 h => hes e1 (List.mem_cons_of_mem _ h))

/-- A gap that stays below the release threshold keeps the key and adds its length to both
counters. -/
theorem gap_below_threshold :
    ∀ (es : List KeypadEvent) (s : HoldState), s.last_key ≠ '-' →
      (∀ e ∈ es, e.valid = false) → s.no_event_count + es.length < RELEASE_THRESHOLD →
      (run_loop s es).1.last_key = s.last_key ∧
      (run_loop s es).1.hold_count = s.hold_count + es.length ∧
      (run_loop s es).1.no_event_count = s.no_event_count + es.length := by
  intro es
  induction es with
  | nil => intro s _ _ _; simp [run_loop]
  | cons e es ih =>
    intro s hl hes hlt
    have hv : e.valid = false := hes e (List.mem_cons_self _ _)
    simp only [List.length_cons, RELEASE_THRESHOLD] at hlt
    push_cast at hlt
    have h30 : ¬ (30 ≤ s.no_event_count + 1) := by omega
    have h1 : (loop_body s e).1.last_key = s.last_key ∧
        (loop_body s e).1.hold_count = s.hold_count + 1 ∧
        (loop_body s e).1.no_event_count = s.no_event_count + 1 := by
      simp only [loop_body, hv, RELEASE_THRESHOLD]
      split_ifs <;> simp_all
    obtain ⟨a1, a2, a3⟩ := h1
    obtain ⟨b1, b2, b3⟩ := ih (loop_body s e).1 (by rw [a1]; exact hl)
      (fun e1 h => hes e1 (List.mem_cons_of_mem _ h))
      (by rw [a3]; simp only [RELEASE_THRESHOLD]; omega)
    simp only [run_loop, b1, b2, b3, a1, a2, a3, List.length_cons]
    push_cast
    refine ⟨trivial, by ring, by ring⟩

/-- A gap that reaches the release threshold resets the loop to "no key". -/
theorem gap_reaches_threshold :
    ∀ (es : List KeypadEvent) (s : HoldState), s.last_key ≠ '-' →
      (∀ e ∈ es, e.valid = false) → s.no_event_count < RELEASE_THRESHOLD →
      RELEASE_THRESHOLD ≤ s.no_event_count + es.length →
      (run_loop s es).1.last_key = '-' ∧ (run_loop s es).1.hold_count = 0 ∧
      (run_loop s es).1.hold_spoken = 0 ∧
      (run_loop s es).1.no_event_count = RELEASE_THRESHOLD := by
  intro es
  induction es with
  | nil =>
    intro s _ _ h1 h2
    simp only [List.length_nil] at h2
    push_cast at h2
    omega
  | cons e es ih =>
    intro s hl hes hlt hge
    have hv : e.valid = false := hes e (List.mem_cons_self _ _)
    have hes1 : ∀ e1 ∈ es, e1.valid = false := fun e1 h => hes e1 (List.mem_cons_of_mem _ h)
    simp only [List.length_cons, RELEASE_THRESHOLD] at hlt hge
    push_cast at hge
    by_cases h30 : 30 ≤ s.no_event_count + 1
    · have h1 : (loop_body s e).1 = ⟨'-', 0, 30, 0⟩ := by
        have hn : s.no_event_count + 1 = 30 := by omega
        simp only [loop_body, hv, RELEASE_THRESHOLD]
        split_ifs <;> simp_all
      simp only [run_loop]
      rw [h1, idle_no_events es ⟨'-', 0, 30, 0⟩ rfl hes1]
      simp [RELEASE_THRESHOLD]
    · have h1 : (loop_body s e).1.last_key = s.last_key ∧
          (loop_body s e).1.no_event_count = s.no_event_count + 1 := by
        simp only [loop_body, hv, RELEASE_THRESHOLD]
        split_ifs <;> simp_all
      obtain ⟨a1, a3⟩ := h1
      simp only [run_loop]
      exact ih (loop_body s e).1 (by rw [a1]; exact hl) hes1
        (by rw [a3]; simp only [RELEASE_THRESHOLD]; omega)
        (by rw [a3]; simp only [RELEASE_THRESHOLD]; omega)

/-- Claim C8. Release.  Let a key be down (`last_key != '-'`) with no no-event counted yet,
and let `es` be consecutive no-event ticks.  If `es` is shorter than `RELEASE_THRESHOLD`,
the key is kept, both the hold counter and the no-event counter have grown by the number
of ticks, and a following sample of the same key speaks no tap (nothing, or only
"key held").  If `es` has `RELEASE_THRESHOLD` ticks or more, the loop is back at the
baseline (`last_key` `'-'`, hold counter 0, announced flag 0) and a following sample of the
same key speaks a fresh tap and starts a new hold at 1. -/
theorem release_after_gap (s : HoldState) (es : List KeypadEvent) (hk : s.last_key ≠ '-')
    (h0 : s.no_event_count = 0) (hes : ∀ e ∈ es, e.valid = false) :
    ((es.length : Int) < RELEASE_THRESHOLD →
      (run_loop s es).1.last_key = s.last_key ∧
      (run_loop s es).1.hold_count = s.hold_count + es.length ∧
      (run_loop s es).1.no_event_count = es.length ∧
      (loop_body (run_loop s es).1 ⟨true, s.last_key⟩).1.last_key = s.last_key ∧
      ((loop_body (run_loop s es).1 ⟨true, s.last_key⟩).2 = [] ∨
        (loop_body (run_loop s es).1 ⟨true, s.last_key⟩).2 = ["key held"])) ∧
    (RELEASE_THRESHOLD ≤ (es.length : Int) →
      (run_loop s es).1.last_key = '-' ∧
      (run_loop s es).1.hold_count = 0 ∧
      (run_loop s es).1.hold_spoken = 0 ∧
      loop_body (run_loop s es).1 ⟨true, s.last_key⟩ =
        (⟨s.last_key, 1, 0, 0⟩, [get_spoken_word s.last_key])) := by
  constructor
  · intro hlt
    obtain ⟨a1, a2, a3⟩ := gap_below_threshold es s hk hes (by rw [h0]; omega)
    refine ⟨a1, a2, by rw [a3, h0]; ring, ?_, ?_⟩
    · simp only [loop_body, a1]
      split_ifs <;> simp_all
    · simp only [loop_body, a1]
      split_ifs <;> simp_all
  · intro hge
    obtain ⟨b1, b2, b3, b4⟩ := gap_reaches_threshold es s hk hes
      (by rw [h0]; decide) (by rw [h0]; omega)
    refine ⟨b1, b2, b3, ?_⟩
    have hne : ¬ (s.last_key = (run_loop s es).1.last_key) := by rw [b1]; exact hk
    simp [loop_body, hne]

/-- The key `'5'` down with hold counter 40: 29 no-events keep it (counter 69, a further
sample speaks nothing), 30 no-events release it (a further sample speaks "five"). -/
theorem release_after_gap_witness :
    ((run_loop ⟨'5', 40, 0, 0⟩ (List.replicate 29 ⟨false, '-'⟩)).1.last_key = '5' ∧
      (run_loop ⟨'5', 40, 0, 0⟩ (List.replicate 29 ⟨false, '-'⟩)).1.hold_count =
        40 + ((List.replicate 29 (⟨false, '-'⟩ : KeypadEvent)).length : Int)) ∧
    loop_body (run_loop ⟨'5', 40, 0, 0⟩ (List.replicate 30 ⟨false, '-'⟩)).1 ⟨true, '5'⟩ =
      (⟨'5', 1, 0, 0⟩, [get_spoken_word '5']) :=
  ⟨⟨((release_after_gap ⟨'5', 40, 0, 0⟩ (List.replicate 29 ⟨false, '-'⟩) (by decide) rfl
      (fun e h => by rw [(List.mem_replicate.1 h).2])).1 (by decide)).1,
    ((release_after_gap ⟨'5', 40, 0, 0⟩ (List.replicate 29 ⟨false, '-'⟩) (by decide) rfl
      (fun e h => by rw [(List.mem_replicate.1 h).2])).1 (by decide)).2.1⟩,
   ((release_after_gap ⟨'5', 40, 0, 0⟩ (List.replicate 30 ⟨false, '-'⟩) (by decide) rfl
      (fun e h => by rw [(List.mem_replicate.1 h).2])).2 (by decide)).2.2.2⟩

/-! ## Theorems: Frequency Mode -/

theorem c_int_eq (x : ℚ) (n : Int) (h0 : 0 ≤ x) (h1 : (n : ℚ) ≤ x) (h2 : x < n + 1) :
    c_int x = n := by
  rw [c_int, if_pos h0, Int.floor_eq_iff]
  exact ⟨h1, h2⟩

/-- The key `#` in state ENTERING runs `submit_frequency`. -/
theorem entering_pound (radio : ℚ → Int) (is_hold : Bool) (s : FreqMode)
    (hs : s.g_state = FREQ_MODE_ENTERING) :
    frequency_mode_handle_key radio '#' is_hold s = (true, submit_frequency radio s) := by
  have h1 : Char.isDigit '#' = false := by decide
  have h2 : ¬ ('#' = '*') := by decide
  simp only [frequency_mode_handle_key, hs, h1, h2, if_false, if_true, Bool.false_eq_true]

/-- Claim C5. In state ENTERING, when the value of the digit buffer in MHz is below 0.1 or
above 500.0, the key `#` is consumed, speaks "Invalid frequency" and nothing else, makes no
call to `radio_set_frequency`, clears the buffer and sets the state to IDLE; the VFO
selection is kept. -/
theorem submit_invalid_frequency (radio : ℚ → Int) (is_hold : Bool) (s : FreqMode)
    (hs : s.g_state = FREQ_MODE_ENTERING)
    (hv : atof (c_string s.g_freq_buffer) < 1 / 10 ∨ atof (c_string s.g_freq_buffer) > 500) :
    frequency_mode_handle_key radio '#' is_hold s =
      (true,
        { g_state := FREQ_MODE_IDLE, g_selected_vfo := s.g_selected_vfo,
          g_freq_buffer := empty_buffer, g_freq_len := 0, g_has_decimal := false,
          spoken := s.spoken ++ ["Invalid frequency"], radio_calls := s.radio_calls }) := by
  rw [entering_pound radio is_hold s hs]
  have hp : parse_frequency s = -1 := by
    unfold parse_frequency
    by_cases h0 : s.g_freq_len = 0
    · rw [if_pos h0]
    · rw [if_neg h0]
      simp only [hv, if_true]
  have hneg : parse_frequency s < 0 := by rw [hp]; norm_num
  simp only [submit_frequency, hneg, if_true, speech_say_text, clear_freq_buffer]
  rfl

/-- With `600` entered (600 MHz is above the range), `#` speaks "Invalid frequency" and
calls nothing. -/
theorem submit_invalid_frequency_witness :
    run_calls frequency_mode_init (taps radio_ok ['#', '6', '0', '0']) = entered_600 ∧
    frequency_mode_handle_key radio_ok '#' false entered_600 =
      (true,
        { g_state := FREQ_MODE_IDLE, g_selected_vfo := entered_600.g_selected_vfo,
          g_freq_buffer := empty_buffer, g_freq_len := 0, g_has_decimal := false,
          spoken := entered_600.spoken ++ ["Invalid frequency"],
          radio_calls := entered_600.radio_calls }) :=
  ⟨rfl, submit_invalid_frequency radio_ok false entered_600 rfl (by
    have h1 : c_string entered_600.g_freq_buffer = ['6', '0', '0'] := by decide
    have h2 : List.dropWhile Char.isDigit ['6', '0', '0'] = [] := by decide
    have h3 : List.takeWhile Char.isDigit ['6', '0', '0'] = ['6', '0', '0'] := by decide
    have h4 : digits_value ['6', '0', '0'] = 600 := by decide
    right
    simp only [h1, atof, h2, h3, h4]
    norm_num)⟩

/-- A submit with a non-empty buffer whose value lies in the accepted range. -/
theorem submit_in_range (radio : ℚ → Int) (s : FreqMode) (hlen : s.g_freq_len ≠ 0)
    (hlo : 1 / 10 ≤ atof (c_string s.g_freq_buffer))
    (hhi : atof (c_string s.g_freq_buffer) ≤ 500) :
    submit_frequency radio s =
      { g_state := FREQ_MODE_IDLE, g_selected_vfo := s.g_selected_vfo,
        g_freq_buffer := empty_buffer, g_freq_len := 0, g_has_decimal := false,
        spoken := s.spoken ++
          (if radio (atof (c_string s.g_freq_buffer) * 1000000) = 0 then
            ["Frequency set", frequency_text (atof (c_string s.g_freq_buffer) * 1000000)]
          else ["Failed to set frequency"]),
        radio_calls := s.radio_calls ++ [atof (c_string s.g_freq_buffer) * 1000000] } := by
  have hr : ¬ (atof (c_string s.g_freq_buffer) < 1 / 10 ∨
      atof (c_string s.g_freq_buffer) > 500) := by
    rintro (h | h)
    · exact absurd hlo (not_le.2 h)
    · exact absurd hhi (not_le.2 h)
  have hp : parse_frequency s = atof (c_string s.g_freq_buffer) * 1000000 := by
    simp only [parse_frequency, hlen, hr, if_false]
  have hneg : ¬ (atof (c_string s.g_freq_buffer) * 1000000 < 0) := by
    have : (0 : ℚ) ≤ atof (c_string s.g_freq_buffer) := le_trans (by norm_num) hlo
    exact not_lt.2 (mul_nonneg this (by norm_num))
  simp only [submit_frequency, hp, hneg, if_false]
  by_cases hrc : radio (atof (c_string s.g_freq_buffer) * 1000000) = 0
  · simp only [hrc, if_true, speech_say_text, announce_frequency, clear_freq_buffer,
      List.append_assoc]
    rfl
  · simp only [hrc, if_false, speech_say_text, clear_freq_buffer]
    rfl

theorem atof_14_250 : atof (c_string entered_14_250.g_freq_buffer) = 57 / 4 := by
  have h1 : c_string entered_14_250.g_freq_buffer = ['1', '4', '.', '2', '5', '0'] := by
    decide
  have h2 : List.dropWhile Char.isDigit ['1', '4', '.', '2', '5', '0'] =
      ['.', '2', '5', '0'] := by decide
  have h3 : List.takeWhile Char.isDigit ['1', '4', '.', '2', '5', '0'] = ['1', '4'] := by
    decide
  have h4 : List.takeWhile Char.isDigit ['2', '5', '0'] = ['2', '5', '0'] := by decide
  have h5 : digits_value ['1', '4'] = 14 := by decide
  have h6 : digits_value ['2', '5', '0'] = 250 := by decide
  simp only [h1, atof, h2, h3, h4, h5, h6]
  norm_num

/-- Decoding what was written for a packet whose length field is its payload size gives
the packet back whenever the payload is not empty, whatever its length: the fourth `read`
asks for `data_len` bytes. -/
theorem read_back_wire (p : Inst_packet) (hlen : p.data.length = p.data_len)
    (hpos : 0 < p.data_len) (hshort : p.data_len < 65536)
    (htype : p.type < 256) (htag : p.tag < 65536) (rest : List Nat) (stack : Stack) :
    read_from_pipe ⟨wire p ++ rest, []⟩ stack =
      ⟨some p, ⟨rest, []⟩, [(sizeof_Packet_type, 1), (2, 2), (2, 2),
        (p.data_len, (p.data_len : Int))]⟩ := by
  have r1 := read_exact (le_bytes sizeof_Packet_type p.type)
    (le_bytes 2 p.data_len ++ le_bytes 2 p.tag ++ p.data ++ rest) sizeof_Packet_type
    (le_bytes_length _ _)
  have r2 := read_exact (le_bytes 2 p.data_len) (le_bytes 2 p.tag ++ p.data ++ rest) 2
    (le_bytes_length _ _)
  have r3 := read_exact (le_bytes 2 p.tag) (p.data ++ rest) 2 (le_bytes_length _ _)
  have r4 := read_exact p.data rest p.data_len hlen
  have e1 : wire p ++ rest = le_bytes sizeof_Packet_type p.type ++
      (le_bytes 2 p.data_len ++ le_bytes 2 p.tag ++ p.data ++ rest) := by
    simp [wire, List.append_assoc]
  have v1 : le_value (le_bytes sizeof_Packet_type p.type) = p.type := by
    rw [le_value_le_bytes]; exact Nat.mod_eq_of_lt (by simpa [sizeof_Packet_type] using htype)
  have v2 : le_value (le_bytes 2 p.data_len) = p.data_len := by
    rw [le_value_le_bytes]; exact Nat.mod_eq_of_lt (by norm_num; omega)
  have v3 : le_value (le_bytes 2 p.tag) = p.tag := by
    rw [le_value_le_bytes]; exact Nat.mod_eq_of_lt (by norm_num; omega)
  have o1 : ∀ x y k, overwrite (le_bytes k x) (le_bytes k y) = le_bytes k y := by
    intro x y k
    exact overwrite_full _ _ (by simp [le_bytes_length])
  have hs : ((sizeof_Packet_type : Nat) : Int) = 1 := rfl
  have hd : ¬ ((p.data_len : Int) ≤ 0) := by omega
  rw [e1]
  simp only [read_from_pipe, r1, o1, v1, hs]
  simp only [List.append_assoc] at r2 r3 ⊢
  simp only [r2, o1, v2, r3, v3, r4, hd]
  simp only [create_inst_packet, overwrite, ← hlen, List.take_left]
  cases p
  simp_all

/-- Claim C11. The length field is not checked against the 256-byte `buffer`: for a stream
whose header declares 257 payload bytes, `read_from_pipe` asks `read` for 257 bytes into
`buffer` (in C an overrun of the array) and returns a packet with `data_len == 257`. -/
theorem oversized_length_read (rest : List Nat) (stack : Stack) :
    (read_from_pipe ⟨wire oversized_packet ++ rest, []⟩ stack).packet =
      some oversized_packet ∧
    oversized_packet.data_len = 257 ∧
    (read_from_pipe ⟨wire oversized_packet ++ rest, []⟩ stack).reads =
      [(sizeof_Packet_type, 1), (2, 2), (2, 2), (257, 257)] := by
  have h := read_back_wire oversized_packet (by simp [oversized_packet])
    (by simp [oversized_packet]) (by simp [oversized_packet]) (by simp [oversized_packet])
    (by simp [oversized_packet]) rest stack
  rw [h]
  exact ⟨rfl, rfl, rfl⟩

/-! ## Theorems: waiting, timeout and shutdown of the queue -/

/-- The wait loop is left without timeout only when the queue has data or is stopped. -/
theorem pop_wait_loop_exit (waits : List WaitOutcome) :
    ∀ (q q1 : TestQueue), pop_wait_loop q waits = some (q1, false) →
      ¬ (q1.count = 0 ∧ q1.running = true) := by
  induction waits with
  | nil =>
    intro q q1 h
    unfold pop_wait_loop at h
    split_ifs at h with hc
    simp only [Option.some.injEq, Prod.mk.injEq, and_true] at h
    rw [← h]; exact hc
  | cons w rest ih =>
    intro q q1 h
    unfold pop_wait_loop at h
    split_ifs at h with hc ht
    · simp at h
    · exact ih _ _ h
    · simp only [Option.some.injEq, Prod.mk.injEq, and_true] at h
      rw [← h]; exact hc

/-- No call of `test_queue_pop_timeout` returns `HAMPOD_NOT_FOUND`: behind the wait loop
the queue has data or is stopped. -/
theorem pop_never_not_found (q : TestQueue) (packet : CommPacket) (t : Int)
    (waits : List WaitOutcome) (r : TestQueue × CommPacket × HampodResult)
    (h : test_queue_pop_timeout q packet t waits = some r) : r.2.2 ≠ HAMPOD_NOT_FOUND := by
  unfold test_queue_pop_timeout at h
  cases hl : pop_wait_loop q waits with
  | none => rw [hl] at h; simp at h
  | some x =>
    obtain ⟨q1, b⟩ := x
    rw [hl] at h
    cases b with
    | true =>
      simp only [Option.some.injEq] at h
      rw [← h]; simp
    | false =>
      have hex := pop_wait_loop_exit waits q q1 hl
      simp only at h
      split_ifs at h with h1 h2
      · simp only [Option.some.injEq] at h
        rw [← h]; simp
      · exfalso
        apply hex
        refine ⟨h2, ?_⟩
        cases hrun : q1.running with
        | true => rfl
        | false => exact absurd ⟨hrun, h2⟩ h1
      · simp only [Option.some.injEq] at h
        rw [← h]; simp

/-- Claim C12, as stated, fails: a fresh queue is empty and running; the first condition wait
returns without timeout and without data (a spurious wakeup).  The call then does not
return `HAMPOD_NOT_FOUND`: with no further wait outcome it is still waiting, and when the
next wait times out it returns `HAMPOD_TIMEOUT`. -/
theorem spurious_wakeup_not_reported :
    fresh_queue.count = 0 ∧ fresh_queue.running = true ∧
    spurious_wakeup.etimedout = false ∧
    (test_queue_pop_timeout fresh_queue (tagged 0 0) 1000 [spurious_wakeup]).isNone = true ∧
    (test_queue_pop_timeout fresh_queue (tagged 0 0) 1000
        [spurious_wakeup, wait_timed_out]).map (fun r => r.2.2) = some HAMPOD_TIMEOUT := by
  refine ⟨rfl, rfl, rfl, rfl, rfl⟩

/-- Claim C12, amended.  When `test_queue_pop_timeout` is woken from its condition wait
without timeout while the queue has no data and is still running, it does not return: the
loop waits again, so the call ends as the call on the queue then present ends with the
remaining wait outcomes; whatever follows, the result is never `HAMPOD_NOT_FOUND`. -/
theorem spurious_wakeup_waits_again (q : TestQueue) (packet : CommPacket) (timeout_ms : Int)
    (w : WaitOutcome) (rest : List WaitOutcome)
    (hc : q.count = 0) (hr : q.running = true) (hw : w.etimedout = false)
    (hc1 : (w.others q).count = 0) (hr1 : (w.others q).running = true) :
    test_queue_pop_timeout q packet timeout_ms (w :: rest) =
      test_queue_pop_timeout (w.others q) packet timeout_ms rest ∧
    test_queue_pop_timeout q packet timeout_ms [w] = none ∧
    ∀ r, test_queue_pop_timeout q packet timeout_ms (w :: rest) = some r →
      r.2.2 ≠ HAMPOD_NOT_FOUND := by
  have hloop : ∀ ws, pop_wait_loop q (w :: ws) = pop_wait_loop (w.others q) ws := by
    intro ws
    simp [pop_wait_loop, hc, hr, hw]
  refine ⟨?_, ?_, ?_⟩
  · simp only [test_queue_pop_timeout, hloop]
  · have h1 : pop_wait_loop q [w] = none := by
      rw [hloop]
      simp [pop_wait_loop, hc1, hr1]
    simp only [test_queue_pop_timeout, h1]
  · intro r h
    exact pop_never_not_found q packet timeout_ms (w :: rest) r h

/-- A spurious wakeup on a fresh queue, followed by a wait that times out. -/
theorem spurious_wakeup_waits_again_witness :
    test_queue_pop_timeout fresh_queue (tagged 0 0) 1000 [spurious_wakeup, wait_timed_out] =
      test_queue_pop_timeout (spurious_wakeup.others fresh_queue) (tagged 0 0) 1000
        [wait_timed_out] ∧
    test_queue_pop_timeout fresh_queue (tagged 0 0) 1000 [spurious_wakeup] = none ∧
    ∀ r, test_queue_pop_timeout fresh_queue (tagged 0 0) 1000
        [spurious_wakeup, wait_timed_out] = some r → r.2.2 ≠ HAMPOD_NOT_FOUND :=
  spurious_wakeup_waits_again fresh_queue (tagged 0 0) 1000 spurious_wakeup [wait_timed_out]
    rfl rfl rfl rfl rfl

/-- Claim C13. Shutdown: on a queue with `running == false`, for every timeout value and
without any condition wait (the result is the same for every list of wait outcomes, the
empty list included): with `count == 0` the call returns `HAMPOD_ERROR`, which is neither
`HAMPOD_OK` nor `HAMPOD_TIMEOUT`, leaves the queue (head, tail, count) unchanged and does
not write the output packet; with `count > 0` it returns the packet at `head`, the oldest
one, with `HAMPOD_OK`. -/
theorem shutdown_pop (q : TestQueue) (packet : CommPacket) (timeout_ms : Int)
    (waits : List WaitOutcome) (hr : q.running = false) :
    (q.count = 0 →
      test_queue_pop_timeout q packet timeout_ms waits = some (q, packet, HAMPOD_ERROR) ∧
      HAMPOD_ERROR ≠ HAMPOD_OK ∧ HAMPOD_ERROR ≠ HAMPOD_TIMEOUT) ∧
    (0 < q.count →
      test_queue_pop_timeout q packet timeout_ms waits =
        some ({ q with head := (q.head + 1).tmod TEST_QUEUE_SIZE, count := q.count - 1 },
          q.packets q.head, HAMPOD_OK)) ∧
    (∀ x l, Holds q (x :: l) →
      ∃ q1, test_queue_pop_timeout q packet timeout_ms waits = some (q1, x, HAMPOD_OK) ∧
        Holds q1 l) := by
  have hloop : pop_wait_loop q waits = some (q, false) := by
    cases waits <;> simp [pop_wait_loop, hr]
  refine ⟨?_, ?_, ?_⟩
  · intro hc
    refine ⟨?_, by decide, by decide⟩
    simp [test_queue_pop_timeout, hloop, hr, hc]
  · intro hc
    have hne : q.count ≠ 0 := by omega
    simp [test_queue_pop_timeout, hloop, hne]
  · intro x l h
    exact holds_pop q x l h packet timeout_ms waits

/-- The call of `test_shutdown_wakes_waiters`: a fresh queue with `running = false`, timeout
5000 ms, no wait outcome available. -/
theorem shutdown_pop_witness :
    test_queue_pop_timeout stopped_queue (tagged 0 0) 5000 [] =
      some (stopped_queue, tagged 0 0, HAMPOD_ERROR) ∧
    HAMPOD_ERROR ≠ HAMPOD_OK ∧ HAMPOD_ERROR ≠ HAMPOD_TIMEOUT :=
  (shutdown_pop stopped_queue (tagged 0 0) 5000 [] rfl).1 rfl

/-- Claim C14. Timeout: on an empty, running queue, when the timed wait reports `ETIMEDOUT`
and no push (no change of the queue by another thread) occurred before, also after any
number of wakeups without data, `test_queue_pop_timeout` returns `HAMPOD_TIMEOUT`, does not
write the output packet and leaves the queue, so head, tail and count, unchanged. -/
theorem empty_queue_timeout (q : TestQueue) (packet : CommPacket) (timeout_ms : Int)
    (before : List WaitOutcome) (w : WaitOutcome) (rest : List WaitOutcome)
    (hc : q.count = 0) (hr : q.running = true)
    (hb : ∀ b ∈ before, b.etimedout = false ∧ b.others q = q)
    (hw : w.etimedout = true) (hq : w.others q = q) :
    test_queue_pop_timeout q packet timeout_ms (before ++ w :: rest) =
      some (q, packet, HAMPOD_TIMEOUT) := by
  have hloop : pop_wait_loop q (before ++ w :: rest) = some (q, true) := by
    induction before with
    | nil => simp [pop_wait_loop, hc, hr, hw, hq]
    | cons b bs ih =>
      have hb1 := hb b (List.mem_cons_self _ _)
      simp only [List.cons_append, pop_wait_loop, hc, hr, and_self, if_true, hb1.1, hb1.2,
        Bool.false_eq_true, if_false]
      exact ih (fun b1 h1 => hb b1 (List.mem_cons_of_mem _ h1))
  simp [test_queue_pop_timeout, hloop]

/-- The call of `test_empty_queue_timeout`: a fresh queue, 100 ms, the wait times out. -/
theorem empty_queue_timeout_witness :
    test_queue_pop_timeout fresh_queue (tagged 0 0) 100 ([] ++ wait_timed_out :: []) =
      some (fresh_queue, tagged 0 0, HAMPOD_TIMEOUT) :=
  empty_queue_timeout fresh_queue (tagged 0 0) 100 [] wait_timed_out [] rfl rfl
    (fun b h => by cases h) rfl rfl

/-! ## Theorems: the digit buffer of Frequency Mode -/

theorem set_append_char (content : List Char) (k : Nat) (c z : Char) :
    ((content ++ List.replicate (k + 2) z).set content.length c).set (content.length + 1) z =
      (content ++ [c]) ++ List.replicate (k + 1) z := by
  induction content with
  | nil => simp [List.replicate_succ]
  | cons x xs ih => simpa using ih

theorem c_string_content (content : List Char) (n : Nat)
    (h : ∀ c ∈ content, c.isDigit = true ∨ c = '.') :
    c_string (content ++ List.replicate (n + 1) (Char.ofNat 0)) = content := by
  induction content with
  | nil => simp [c_string, List.replicate_succ]
  | cons x xs ih =>
    have hx : x ≠ Char.ofNat 0 := by
      rcases h x (List.mem_cons_self _ _) with hd | hd
      · intro h0; rw [h0] at hd; revert hd; decide
      · rw [hd]; decide
    have := ih (fun c hc => h c (List.mem_cons_of_mem _ hc))
    simp only [c_string, ne_eq, decide_not] at this ⊢
    simp [List.takeWhile, hx, this]

theorem buf_core_clear (st : FreqModeState) (hst : st ≠ FREQ_MODE_ENTERING) :
    BufCore st (List.replicate (MAX_FREQ_DIGITS + 1).toNat (Char.ofNat 0)) 0 false [] := by
  refine ⟨rfl, rfl, by simp, by simp, by simp, by simp, fun _ => rfl, fun h => absurd h hst⟩

theorem buf_core_state (st st1 : FreqModeState) (buf : List Char) (len : Int) (dec : Bool)
    (content : List Char) (h : BufCore st buf len dec content)
    (hst : st ≠ FREQ_MODE_ENTERING) (hst1 : st1 ≠ FREQ_MODE_ENTERING) :
    BufCore st1 buf len dec content := by
  obtain ⟨h1, h2, h3, h4, h5, h6, h7, h8⟩ := h
  exact ⟨h1, h2, h3, h4, h5, h6, fun _ => h7 hst, fun h => absurd h hst1⟩

/-- Appending a character below the cap extends `content` by it. -/
theorem buf_core_append (st : FreqModeState) (buf : List Char) (len : Int) (dec dec1 : Bool)
    (content : List Char) (c : Char) (h : BufCore st buf len dec content)
    (hlt : len < MAX_FREQ_DIGITS) (hc : c.isDigit = true ∨ c = '.')
    (hcount : (content ++ [c]).count '.' ≤ 1)
    (hdec : dec1 = true ↔ '.' ∈ content ++ [c])
    (hhead : content = [] → c.isDigit = true) :
    BufCore FREQ_MODE_ENTERING ((buf.set len.toNat c).set (len + 1).toNat (Char.ofNat 0))
      (len + 1) dec1 (content ++ [c]) := by
  obtain ⟨h1, h2, h3, h4, h5, h6, h7, h8⟩ := h
  unfold MAX_FREQ_DIGITS at hlt
  have hn : content.length ≤ 11 := by omega
  have e1 : len.toNat = content.length := by omega
  have e2 : (len + 1).toNat = content.length + 1 := by omega
  have e3 : 13 - content.length = (11 - content.length) + 2 := by omega
  have e4 : 13 - (content ++ [c]).length = (11 - content.length) + 1 := by
    simp only [List.length_append, List.length_singleton]; omega
  refine ⟨?_, ?_, ?_, ?_, hcount, hdec, ?_, ?_⟩
  · rw [h1, e1, e2, e3, e4]
    exact set_append_char content _ c _
  · rw [h2]; simp
  · simp only [List.length_append, List.length_singleton]; omega
  · intro x hx
    rcases List.mem_append.1 hx with hx | hx
    · exact h4 x hx
    · rw [List.mem_singleton.1 hx]; exact hc
  · intro hne; exact absurd rfl hne
  · intro _
    cases hcont : content with
    | nil => exact ⟨c, [], rfl, hhead hcont⟩
    | cons d tl =>
      have hd : d.isDigit = true := by
        by_cases hst : st = FREQ_MODE_ENTERING
        · obtain ⟨d1, tl1, hd1, hd2⟩ := h8 hst
          rw [hcont] at hd1
          cases hd1
          exact hd2
        · have := h7 hst
          rw [hcont] at this
          cases this
      exact ⟨d, tl ++ [c], rfl, hd⟩

theorem buf_holds_init : BufHolds frequency_mode_init [] :=
  buf_core_clear FREQ_MODE_IDLE (by decide)

/-- Every key call preserves the buffer invariant. -/
theorem buf_holds_handle_key (radio : ℚ → Int) (key : Char) (is_hold : Bool) (s : FreqMode)
    (h : ∃ content, BufHolds s content) :
    ∃ content, BufHolds (frequency_mode_handle_key radio key is_hold s).2 content := by
  obtain ⟨content, h⟩ := h
  unfold BufHolds at h ⊢
  have hclear : ∀ st, st ≠ FREQ_MODE_ENTERING → ∃ c, BufCore st
      (List.replicate (MAX_FREQ_DIGITS + 1).toNat (Char.ofNat 0)) 0 false c :=
    fun st hst => ⟨[], buf_core_clear st hst⟩
  cases hs : s.g_state
  · -- IDLE
    rw [hs] at h
    unfold frequency_mode_handle_key
    simp only [hs]
    split_ifs
    · exact ⟨content, buf_core_state _ FREQ_MODE_SELECT_VFO _ _ _ _ h (by decide) (by decide)⟩
    · exact ⟨content, by rw [hs]; exact h⟩
  · -- SELECT_VFO
    rw [hs] at h
    have hnil : content = [] := h.2.2.2.2.2.2.1 (by decide)
    unfold frequency_mode_handle_key
    simp only [hs]
    split_ifs with h1 h2 h3 h4
    · exact ⟨content, by simpa [speech_say_text, hs] using h⟩
    · refine ⟨content ++ [key], ?_⟩
      have hlt : s.g_freq_len < MAX_FREQ_DIGITS := by
        rw [h.2.1, hnil]; decide
      have hk : '.' ∉ content ++ [key] := by
        rw [hnil]
        intro hmem
        simp only [List.nil_append, List.mem_singleton] at hmem
        rw [← hmem] at h2
        revert h2; decide
      have := buf_core_append _ _ _ _ s.g_has_decimal content key h hlt (Or.inl h2)
        (by rw [List.count_eq_zero_of_not_mem hk]; omega)
        (by
          constructor
          · intro hd
            have := h.2.2.2.2.2.1.1 hd
            rw [hnil] at this
            cases this
          · intro hm; exact absurd hm hk)
        (fun _ => h2)
      simpa [announce_digit, speech_say_text, append_char] using this
    · simpa [speech_say_text, clear_freq_buffer] using hclear FREQ_MODE_IDLE (by decide)
    · simpa [speech_say_text, clear_freq_buffer] using hclear FREQ_MODE_IDLE (by decide)
    · exact ⟨content, by rw [hs]; exact h⟩
  · -- ENTERING
    rw [hs] at h
    unfold frequency_mode_handle_key
    simp only [hs]
    split_ifs with h1 h2 h3 h4 h5 h6 h7
    · -- digit below the cap
      refine ⟨content ++ [key], ?_⟩
      have hk : key ≠ '.' := by
        intro hk; rw [hk] at h1; revert h1; decide
      have := buf_core_append _ _ _ _ s.g_has_decimal content key h h2 (Or.inl h1)
        (by
          rw [List.count_append, List.count_singleton]
          have := h.2.2.2.2.1
          simp only [beq_iff_eq, hk, if_false]
          omega)
        (by
          rw [h.2.2.2.2.2.1]
          simp [List.mem_append, Ne.symm hk])
        (fun _ => h1)
      simpa [announce_digit, speech_say_text, append_char, hs] using this
    · exact ⟨content, by rw [hs]; exact h⟩
    · -- point, none yet, below the cap
      refine ⟨content ++ ['.'], ?_⟩
      have hno : '.' ∉ content := by
        intro hm
        have := h.2.2.2.2.2.1.2 hm
        rw [h4] at this
        cases this
      have := buf_core_append _ _ _ _ true content '.' h h5 (Or.inr rfl)
        (by rw [List.count_append, List.count_eq_zero_of_not_mem hno]; simp)
        (by simp)
        (by
          intro hc
          obtain ⟨d, tl, hd, _⟩ := h.2.2.2.2.2.2.2 rfl
          rw [hc] at hd
          cases hd)
      simpa [speech_say_text, append_char, hs] using this
    · exact ⟨content, by rw [hs]; exact h⟩
    · simpa [speech_say_text, clear_freq_buffer] using hclear FREQ_MODE_IDLE (by decide)
    · -- submit
      simp only [submit_frequency]
      split_ifs <;>
        simpa [speech_say_text, clear_freq_buffer, announce_frequency] using
          hclear FREQ_MODE_IDLE (by decide)
    · simpa [speech_say_text, clear_freq_buffer] using hclear FREQ_MODE_IDLE (by decide)
    · exact ⟨content, by rw [hs]; exact h⟩

theorem buf_holds_apply_call (s : FreqMode) (c : Call) (h : ∃ content, BufHolds s content) :
    ∃ content, BufHolds (apply_call s c) content := by
  cases c with
  | handle_key radio key is_hold => exact buf_holds_handle_key radio key is_hold s h
  | cancel =>
    unfold apply_call frequency_mode_cancel
    split_ifs with hs
    · exact ⟨[], buf_core_clear FREQ_MODE_IDLE (by decide)⟩
    · exact h
  | on_radio_change f =>
    unfold apply_call frequency_mode_on_radio_change
    split_ifs with hs
    · exact h
    · exact h

/-- Every state reached from a state with the buffer invariant has it. -/
theorem buf_holds_run_calls (calls : List Call) :
    ∀ s : FreqMode, (∃ content, BufHolds s content) →
      ∃ content, BufHolds (run_calls s calls) content := by
  induction calls with
  | nil => intro s h; exact h
  | cons c cs ih =>
    intro s h
    exact ih (apply_call s c) (buf_holds_apply_call s c h)

/-- What the buffer invariant says about the array itself. -/
theorem buf_core_array (st : FreqModeState) (buf : List Char) (len : Int) (dec : Bool)
    (content : List Char) (h : BufCore st buf len dec content) :
    0 ≤ len ∧ len ≤ MAX_FREQ_DIGITS ∧ buf.length = 13 ∧
    buf[len.toNat]? = some (Char.ofNat 0) ∧ c_string buf = content ∧
    buf.count '.' ≤ 1 ∧ (dec = true ↔ '.' ∈ buf) := by
  obtain ⟨h1, h2, h3, h4, h5, h6, h7, h8⟩ := h
  have e1 : len.toNat = content.length := by omega
  have e3 : 13 - content.length = (12 - content.length) + 1 := by omega
  have hz : ('.' : Char) ≠ Char.ofNat 0 := by decide
  refine ⟨by omega, by unfold MAX_FREQ_DIGITS; omega, ?_, ?_, ?_, ?_, ?_⟩
  · rw [h1]; simp; omega
  · rw [h1, e1, List.getElem?_append_right (le_refl _), e3]
    simp [List.replicate_succ]
  · rw [h1, e3]; exact c_string_content content _ h4
  · rw [h1, List.count_append, List.count_replicate]
    simp only [beq_iff_eq, Ne.symm hz, if_false]
    omega
  · rw [h6, h1, List.mem_append]
    constructor
    · intro hm; exact Or.inl hm
    · rintro (hm | hm)
      · exact hm
      · exact absurd (List.eq_of_mem_replicate hm) hz

/-- Claim C15. Buffer invariant: after `frequency_mode_init` and any finite sequence of
`frequency_mode_handle_key`, `frequency_mode_cancel` and `frequency_mode_on_radio_change`
calls, `0 <= g_freq_len <= 12`, the 13-character buffer has a NUL at index `g_freq_len`
(and none before it: the C string in it has `g_freq_len` characters), it contains at most
one `'.'`, and `g_has_decimal` is true exactly when it contains a `'.'`. -/
theorem buffer_invariant (calls : List Call) :
    0 ≤ (run_calls frequency_mode_init calls).g_freq_len ∧
    (run_calls frequency_mode_init calls).g_freq_len ≤ MAX_FREQ_DIGITS ∧
    (run_calls frequency_mode_init calls).g_freq_buffer.length = 13 ∧
    (run_calls frequency_mode_init calls).g_freq_buffer[
        (run_calls frequency_mode_init calls).g_freq_len.toNat]? = some (Char.ofNat 0) ∧
    ((c_string (run_calls frequency_mode_init calls).g_freq_buffer).length : Int) =
      (run_calls frequency_mode_init calls).g_freq_len ∧
    (run_calls frequency_mode_init calls).g_freq_buffer.count '.' ≤ 1 ∧
    ((run_calls frequency_mode_init calls).g_has_decimal = true ↔
      '.' ∈ (run_calls frequency_mode_init calls).g_freq_buffer) := by
  obtain ⟨content, h⟩ := buf_holds_run_calls calls frequency_mode_init ⟨[], buf_holds_init⟩
  obtain ⟨a1, a2, a3, a4, a5, a6, a7⟩ := buf_core_array _ _ _ _ _ h
  refine ⟨a1, a2, a3, a4, ?_, a6, a7⟩
  rw [a5]
  exact h.2.1.symm

/-! ## Theorems: the states IDLE and SELECT_VFO, the point key, overflow, radio changes -/

/-- Claim C16. In state IDLE the key `#` is consumed, sets the state to SELECT_VFO and speaks
the name of the selected VFO, changing nothing else; every other key, held or not, is not
consumed and leaves the whole module state, speech included, unchanged. -/
theorem idle_key (radio : ℚ → Int) (is_hold : Bool) (s : FreqMode)
    (hs : s.g_state = FREQ_MODE_IDLE) :
    frequency_mode_handle_key radio '#' is_hold s =
      (true, { s with g_state := FREQ_MODE_SELECT_VFO,
                      spoken := s.spoken ++ [vfo_name s.g_selected_vfo] }) ∧
    ∀ key : Char, key ≠ '#' → frequency_mode_handle_key radio key is_hold s = (false, s) := by
  constructor
  · simp [frequency_mode_handle_key, hs, speech_say_text]
  · intro key hk
    simp [frequency_mode_handle_key, hs, hk]

/-- From the initial state: `#` enters SELECT_VFO and speaks "Current VFO"; `5` is not
consumed. -/
theorem idle_key_witness :
    frequency_mode_handle_key radio_ok '#' false frequency_mode_init =
      (true, { frequency_mode_init with
        g_state := FREQ_MODE_SELECT_VFO,
        spoken := frequency_mode_init.spoken ++
          [vfo_name frequency_mode_init.g_selected_vfo] }) ∧
    frequency_mode_handle_key radio_ok '5' false frequency_mode_init =
      (false, frequency_mode_init) :=
  ⟨(idle_key radio_ok false frequency_mode_init rfl).1,
   (idle_key radio_ok false frequency_mode_init rfl).2 '5' (by decide)⟩

/-- Claim C17. In state SELECT_VFO with a selection `v` among A, B, CURRENT, the key `#` is
consumed, replaces `v` by `(v + 1) mod 3`, speaks the name of the new selection and keeps
the state; three consecutive `#` keys select `(v + 1) mod 3`, `(v + 2) mod 3` and `v`
again, which are A, B and CURRENT in some order, speak their names and leave the state
SELECT_VFO. -/
theorem select_vfo_cycles (radio : ℚ → Int) (is_hold : Bool) (s : FreqMode)
    (hs : s.g_state = FREQ_MODE_SELECT_VFO)
    (hv : s.g_selected_vfo = VFO_A ∨ s.g_selected_vfo = VFO_B ∨
      s.g_selected_vfo = VFO_CURRENT) :
    frequency_mode_handle_key radio '#' is_hold s =
      (true, { s with g_selected_vfo := (s.g_selected_vfo + 1) % 3,
                      spoken := s.spoken ++ [vfo_name ((s.g_selected_vfo + 1) % 3)] }) ∧
    run_calls s (List.replicate 3 (Call.handle_key radio '#' is_hold)) =
      { s with spoken := s.spoken ++ [vfo_name ((s.g_selected_vfo + 1) % 3),
          vfo_name ((s.g_selected_vfo + 2) % 3), vfo_name s.g_selected_vfo] } ∧
    List.Perm [(s.g_selected_vfo + 1) % 3, (s.g_selected_vfo + 2) % 3, s.g_selected_vfo]
      [VFO_A, VFO_B, VFO_CURRENT] := by
  have hstep : ∀ t : FreqMode, t.g_state = FREQ_MODE_SELECT_VFO → 0 ≤ t.g_selected_vfo →
      frequency_mode_handle_key radio '#' is_hold t =
        (true, { t with g_selected_vfo := (t.g_selected_vfo + 1) % 3,
                        spoken := t.spoken ++ [vfo_name ((t.g_selected_vfo + 1) % 3)] }) := by
    intro t ht h0
    have hm : (t.g_selected_vfo + 1).tmod 3 = (t.g_selected_vfo + 1) % 3 :=
      Int.tmod_eq_emod (by omega) (by omega)
    simp [frequency_mode_handle_key, ht, speech_say_text, hm]
  unfold VFO_A VFO_B VFO_CURRENT at *
  have h0 : 0 ≤ s.g_selected_vfo := by omega
  refine ⟨hstep s hs h0, ?_, ?_⟩
  · have e1 : Int.tmod 1 3 = 1 := by decide
    have e2 : Int.tmod 2 3 = 2 := by decide
    have e3 : Int.tmod 3 3 = 0 := by decide
    cases s
    simp only at hs hv
    subst hs
    rcases hv with hv | hv | hv <;> subst hv <;>
      simp [List.replicate, run_calls, apply_call, frequency_mode_handle_key,
        speech_say_text, e1, e2, e3]
  · rcases hv with hv | hv | hv <;> rw [hv] <;> decide

/-- After `#` from the initial state (selection CURRENT), three more `#` keys say "VFO A",
"VFO B", "Current VFO" and restore the selection. -/
theorem select_vfo_cycles_witness :
    (run_calls (run_calls frequency_mode_init (taps radio_ok ['#']))
        (List.replicate 3 (Call.handle_key radio_ok '#' false))).spoken =
      ["Current VFO", "VFO A", "VFO B", "Current VFO"] ∧
    (run_calls (run_calls frequency_mode_init (taps radio_ok ['#']))
        (List.replicate 3 (Call.handle_key radio_ok '#' false))).g_selected_vfo =
      VFO_CURRENT ∧
    (run_calls (run_calls frequency_mode_init (taps radio_ok ['#']))
        (List.replicate 3 (Call.handle_key radio_ok '#' false))).g_state =
      FREQ_MODE_SELECT_VFO := by
  rw [(select_vfo_cycles radio_ok false (run_calls frequency_mode_init (taps radio_ok ['#']))
    rfl (Or.inr (Or.inr rfl))).2.1]
  exact ⟨by decide, rfl, rfl⟩

/-- The keys `#` and `123456789012` from the initial state fill the buffer. -/
theorem reach_12_digits :
    run_calls frequency_mode_init (taps radio_ok keys_12_digits) = entered_12_digits := rfl

/-- Claim C18, as stated, fails: after `#` and twelve digits the state is ENTERING and the
buffer holds no decimal point, yet the key `*` appends no `'.'` and speaks nothing: it is
consumed and the whole state stays as it was. -/
theorem point_key_ignored_when_full :
    run_calls frequency_mode_init (taps radio_ok keys_12_digits) = entered_12_digits ∧
    entered_12_digits.g_state = FREQ_MODE_ENTERING ∧
    '.' ∉ entered_12_digits.g_freq_buffer ∧
    frequency_mode_handle_key radio_ok '*' false entered_12_digits =
      (true, entered_12_digits) ∧
    "point" ∉ (frequency_mode_handle_key radio_ok '*' false entered_12_digits).2.spoken ∧
    '.' ∉ (frequency_mode_handle_key radio_ok '*' false entered_12_digits).2.g_freq_buffer := by
  refine ⟨rfl, rfl, by decide, rfl, ?_, ?_⟩
  · have h : frequency_mode_handle_key radio_ok '*' false entered_12_digits =
        (true, entered_12_digits) := rfl
    rw [h]; decide
  · have h : frequency_mode_handle_key radio_ok '*' false entered_12_digits =
        (true, entered_12_digits) := rfl
    rw [h]; decide

/-- Claim C18, amended.  In state ENTERING, for every buffer content reached from
`frequency_mode_init`, the point key `*` is consumed and: if the buffer contains no decimal
point and holds fewer than 12 characters, one `'.'` is appended, "point" is spoken and the
state stays ENTERING; if it contains no decimal point and is full (12 characters), nothing
changes and nothing is spoken; if a decimal point is already present, the whole entry is
cancelled (buffer cleared, state IDLE, "Cancelled" spoken). -/
theorem point_key_entering (calls : List Call) (radio : ℚ → Int) (is_hold : Bool)
    (s : FreqMode) (hreach : s = run_calls frequency_mode_init calls)
    (hs : s.g_state = FREQ_MODE_ENTERING) :
    ('.' ∉ s.g_freq_buffer → s.g_freq_len < MAX_FREQ_DIGITS →
      frequency_mode_handle_key radio '*' is_hold s =
        (true, { append_char s '.' with g_has_decimal := true,
                                        spoken := s.spoken ++ ["point"] }) ∧
      c_string (frequency_mode_handle_key radio '*' is_hold s).2.g_freq_buffer =
        c_string s.g_freq_buffer ++ ['.'] ∧
      (frequency_mode_handle_key radio '*' is_hold s).2.g_freq_len = s.g_freq_len + 1 ∧
      (frequency_mode_handle_key radio '*' is_hold s).2.g_state = FREQ_MODE_ENTERING) ∧
    ('.' ∉ s.g_freq_buffer → s.g_freq_len = MAX_FREQ_DIGITS →
      frequency_mode_handle_key radio '*' is_hold s = (true, s)) ∧
    ('.' ∈ s.g_freq_buffer →
      frequency_mode_handle_key radio '*' is_hold s =
        (true,
          { g_state := FREQ_MODE_IDLE, g_selected_vfo := s.g_selected_vfo,
            g_freq_buffer := empty_buffer, g_freq_len := 0, g_has_decimal := false,
            spoken := s.spoken ++ ["Cancelled"], radio_calls := s.radio_calls })) := by
  obtain ⟨content, h⟩ := buf_holds_run_calls calls frequency_mode_init ⟨[], buf_holds_init⟩
  rw [← hreach] at h
  unfold BufHolds at h
  obtain ⟨_, _, _, _, a5, _, a7⟩ := buf_core_array _ _ _ _ _ h
  have hd : Char.isDigit '*' = false := by decide
  refine ⟨?_, ?_, ?_⟩
  · intro hno hlt
    have hdec : s.g_has_decimal = false := by
      cases hb : s.g_has_decimal with
      | false => rfl
      | true => exact absurd (a7.1 hb) hno
    have hres : frequency_mode_handle_key radio '*' is_hold s =
        (true, { append_char s '.' with g_has_decimal := true,
                                        spoken := s.spoken ++ ["point"] }) := by
      simp [frequency_mode_handle_key, hs, hd, hdec, hlt, speech_say_text, append_char]
    have hno1 : '.' ∉ content := by
      intro hm
      have := h.2.2.2.2.2.1.2 hm
      rw [hdec] at this
      cases this
    rw [hs] at h
    have hnew := buf_core_append _ _ _ _ true content '.' h hlt (Or.inr rfl)
      (by rw [List.count_append, List.count_eq_zero_of_not_mem hno1]; simp)
      (by simp)
      (by
        intro hc
        obtain ⟨d, tl, hd1, _⟩ := h.2.2.2.2.2.2.2 rfl
        rw [hc] at hd1
        cases hd1)
    obtain ⟨_, _, _, _, b5, _, _⟩ := buf_core_array _ _ _ _ _ hnew
    refine ⟨hres, ?_, ?_, ?_⟩
    · rw [hres, a5]
      simpa [append_char] using b5
    · rw [hres]; rfl
    · rw [hres]; simp [append_char, hs]
  · intro hno hfull
    have hdec : s.g_has_decimal = false := by
      cases hb : s.g_has_decimal with
      | false => rfl
      | true => exact absurd (a7.1 hb) hno
    have hnlt : ¬ (s.g_freq_len < MAX_FREQ_DIGITS) := by rw [hfull]; exact lt_irrefl _
    simp [frequency_mode_handle_key, hs, hd, hdec, hnlt]
  · intro hyes
    have hdec : s.g_has_decimal = true := a7.2 hyes
    simp [frequency_mode_handle_key, hs, hd, hdec, speech_say_text, clear_freq_buffer,
      empty_buffer, MAX_FREQ_DIGITS]

/-- With `14.250` entered a further `*` cancels the entry; with `600` entered it appends
the decimal point. -/
theorem point_key_entering_witness :
    frequency_mode_handle_key radio_ok '*' false entered_14_250 =
      (true,
        { g_state := FREQ_MODE_IDLE, g_selected_vfo := entered_14_250.g_selected_vfo,
          g_freq_buffer := empty_buffer, g_freq_len := 0, g_has_decimal := false,
          spoken := entered_14_250.spoken ++ ["Cancelled"],
          radio_calls := entered_14_250.radio_calls }) ∧
    c_string (frequency_mode_handle_key radio_ok '*' false entered_600).2.g_freq_buffer =
      c_string entered_600.g_freq_buffer ++ ['.'] :=
  ⟨(point_key_entering (taps radio_ok ['#', '1', '4', '*', '2', '5', '0']) radio_ok false
      entered_14_250 rfl rfl).2.2 (by decide),
   ((point_key_entering (taps radio_ok ['#', '6', '0', '0']) radio_ok false
      entered_600 rfl rfl).1 (by decide) (by decide)).2.1⟩

/-- Claim C19, as stated, fails: after `#` and twelve digits the buffer is at its capacity;
a further digit `3` is consumed, but the buffer is not reset: `g_freq_len` is still 12 and
the twelve digits are still there. -/
theorem overflow_digit_keeps_buffer :
    run_calls frequency_mode_init (taps radio_ok keys_12_digits) = entered_12_digits ∧
    entered_12_digits.g_state = FREQ_MODE_ENTERING ∧
    entered_12_digits.g_freq_len = MAX_FREQ_DIGITS ∧
    (frequency_mode_handle_key radio_ok '3' false entered_12_digits).1 = true ∧
    (frequency_mode_handle_key radio_ok '3' false entered_12_digits).2.g_freq_len = 12 ∧
    c_string (frequency_mode_handle_key radio_ok '3' false entered_12_digits).2.g_freq_buffer
      = ['1', '2', '3', '4', '5', '6', '7', '8', '9', '0', '1', '2'] := by
  refine ⟨rfl, rfl, rfl, rfl, rfl, ?_⟩
  have h : frequency_mode_handle_key radio_ok '3' false entered_12_digits =
      (true, entered_12_digits) := rfl
  rw [h]; decide

/-- Claim C19, amended.  In state ENTERING with the digit buffer at its 12-character
capacity, a further digit key is rejected: it is consumed, nothing is spoken and the module
state, the buffer included, stays as it was.  The buffer is reset (`g_freq_len == 0`, no
decimal) by a submit (`#`), by the cancel key `D` and by `frequency_mode_cancel`. -/
theorem overflow_digit_rejected (radio : ℚ → Int) (is_hold : Bool) (s : FreqMode)
    (key : Char) (hs : s.g_state = FREQ_MODE_ENTERING)
    (hfull : s.g_freq_len = MAX_FREQ_DIGITS) (hd : key.isDigit = true) :
    frequency_mode_handle_key radio key is_hold s = (true, s) ∧
    ((frequency_mode_handle_key radio '#' is_hold s).2.g_freq_len = 0 ∧
      (frequency_mode_handle_key radio '#' is_hold s).2.g_has_decimal = false ∧
      (frequency_mode_handle_key radio '#' is_hold s).2.g_freq_buffer = empty_buffer) ∧
    ((frequency_mode_handle_key radio 'D' is_hold s).2.g_freq_len = 0 ∧
      (frequency_mode_handle_key radio 'D' is_hold s).2.g_has_decimal = false ∧
      (frequency_mode_handle_key radio 'D' is_hold s).2.g_freq_buffer = empty_buffer) ∧
    ((frequency_mode_cancel s).g_freq_len = 0 ∧
      (frequency_mode_cancel s).g_has_decimal = false ∧
      (frequency_mode_cancel s).g_freq_buffer = empty_buffer) := by
  have hnlt : ¬ (s.g_freq_len < MAX_FREQ_DIGITS) := by rw [hfull]; exact lt_irrefl _
  have h1 : Char.isDigit 'D' = false := by decide
  have h2 : ¬ ('D' = '*') := by decide
  have h3 : ¬ ('D' = '#') := by decide
  refine ⟨?_, ?_, ?_, ?_⟩
  · simp [frequency_mode_handle_key, hs, hd, hnlt]
  · rw [entering_pound radio is_hold s hs]
    simp only [submit_frequency]
    split_ifs <;>
      simp [speech_say_text, clear_freq_buffer, announce_frequency, empty_buffer,
        MAX_FREQ_DIGITS]
  · simp [frequency_mode_handle_key, hs, h1, h2, h3, speech_say_text, clear_freq_buffer,
      empty_buffer, MAX_FREQ_DIGITS]
  · simp [frequency_mode_cancel, hs, clear_freq_buffer, empty_buffer, MAX_FREQ_DIGITS]

/-- With twelve digits entered the digit `3` changes nothing. -/
theorem overflow_digit_rejected_witness :
    frequency_mode_handle_key radio_ok '3' false entered_12_digits =
      (true, entered_12_digits) ∧
    (frequency_mode_handle_key radio_ok '#' false entered_12_digits).2.g_freq_len = 0 :=
  ⟨(overflow_digit_rejected radio_ok false entered_12_digits '3' rfl rfl (by decide)).1,
   (overflow_digit_rejected radio_ok false entered_12_digits '3' rfl rfl (by decide)).2.1.1⟩

/-- Claim C21, as stated, fails: after `#` the state is SELECT_VFO; the key `D` is neither
`#` nor a digit nor `*`, yet it is not ignored: it speaks "Cancelled" and the state becomes
IDLE. -/
theorem select_vfo_key_d_cancels :
    (run_calls frequency_mode_init (taps radio_ok ['#'])).g_state = FREQ_MODE_SELECT_VFO ∧
    'D' ≠ '#' ∧ Char.isDigit 'D' = false ∧ 'D' ≠ '*' ∧
    (frequency_mode_handle_key radio_ok 'D' false
        (run_calls frequency_mode_init (taps radio_ok ['#']))).2.g_state = FREQ_MODE_IDLE ∧
    (frequency_mode_handle_key radio_ok 'D' false
        (run_calls frequency_mode_init (taps radio_ok ['#']))).2.spoken =
      ["Current VFO", "Cancelled"] := by
  refine ⟨rfl, by decide, by decide, by decide, rfl, by decide⟩

/-- Claim C21, amended.  In state SELECT_VFO every key other than the entry key `#`, a digit
and the two cancel keys `*` and `D` is consumed but ignored: the call returns true, speaks
nothing and leaves the state, the VFO selection and the digit buffer unchanged.  The key
`D` cancels as `*` does. -/
theorem select_vfo_other_keys_ignored (radio : ℚ → Int) (is_hold : Bool) (s : FreqMode)
    (key : Char) (hs : s.g_state = FREQ_MODE_SELECT_VFO) (h1 : key ≠ '#')
    (h2 : key.isDigit = false) (h3 : key ≠ '*') (h4 : key ≠ 'D') :
    frequency_mode_handle_key radio key is_hold s = (true, s) ∧
    frequency_mode_handle_key radio 'D' is_hold s =
      frequency_mode_handle_key radio '*' is_hold s := by
  have d1 : Char.isDigit 'D' = false := by decide
  have d2 : Char.isDigit '*' = false := by decide
  constructor
  · simp [frequency_mode_handle_key, hs, h1, h2, h3, h4]
  · simp [frequency_mode_handle_key, hs, d1, d2]

/-- In SELECT_VFO the key `A` changes nothing. -/
theorem select_vfo_other_keys_ignored_witness :
    frequency_mode_handle_key radio_ok 'A' false
        (run_calls frequency_mode_init (taps radio_ok ['#'])) =
      (true, run_calls frequency_mode_init (taps radio_ok ['#'])) :=
  (select_vfo_other_keys_ignored radio_ok false
    (run_calls frequency_mode_init (taps radio_ok ['#'])) 'A' rfl (by decide) (by decide)
    (by decide) (by decide)).1

theorem c_int_of_nonneg (x : ℚ) (h : 0 ≤ x) : c_int x = ⌊x⌋ := by
  rw [c_int, if_pos h]

theorem round_half_even_bounds (y : ℚ) :
    y - 1 / 2 ≤ (round_half_even y : ℚ) ∧ (round_half_even y : ℚ) ≤ y + 1 / 2 := by
  have h1 : Int.fract y = y - ⌊y⌋ := rfl
  have h2 := Int.fract_nonneg y
  have h3 := Int.fract_lt_one y
  unfold round_half_even
  split_ifs with a b c
  · constructor <;> linarith
  · push_cast; constructor <;> linarith
  · constructor <;> linarith
  · push_cast; constructor <;> linarith

theorem round_half_even_ge (y : ℚ) (n : Int) (h : (n : ℚ) ≤ y) : n ≤ round_half_even y := by
  have h1 : n ≤ ⌊y⌋ := Int.le_floor.2 h
  unfold round_half_even
  split_ifs <;> omega

theorem to_double_zero : to_double 0 = 0 := by
  simp [to_double]

theorem to_double_of_pos (x : ℚ) (h : 0 < x) : to_double x = to_double_pos x := by
  simp [to_double, h]

theorem to_double_pos_error (x : ℚ) (h : 0 < x) :
    x - x / 2 ^ 53 ≤ to_double_pos x ∧ to_double_pos x ≤ x + x / 2 ^ 53 := by
  have hs : (0 : ℚ) < (2 : ℚ) ^ (Int.log 2 x - 52) := zpow_pos (by norm_num) _
  have hb := round_half_even_bounds (x / (2 : ℚ) ^ (Int.log 2 x - 52))
  have hle : (2 : ℚ) ^ (Int.log 2 x) ≤ x := Int.zpow_log_le_self (by norm_num) h
  have hsplit : (2 : ℚ) ^ (Int.log 2 x - 52) = (2 : ℚ) ^ (Int.log 2 x) / 2 ^ 52 := by
    rw [zpow_sub₀ (by norm_num)]
    norm_num
  have hs2 : (2 : ℚ) ^ (Int.log 2 x - 52) / 2 ≤ x / 2 ^ 53 := by
    rw [hsplit]
    have : x / 2 ^ 53 = x / 2 ^ 52 / 2 := by ring
    rw [this]
    gcongr
  have hx : x / (2 : ℚ) ^ (Int.log 2 x - 52) * (2 : ℚ) ^ (Int.log 2 x - 52) = x :=
    div_mul_cancel₀ _ (ne_of_gt hs)
  unfold to_double_pos
  constructor
  · have := mul_le_mul_of_nonneg_right hb.1 (le_of_lt hs)
    rw [sub_mul, hx] at this
    linarith
  · have := mul_le_mul_of_nonneg_right hb.2 (le_of_lt hs)
    rw [add_mul, hx] at this
    linarith

/-- Rounding a non-negative value of size at most `B` moves it by at most `B / 2^53`. -/
theorem to_double_error (x B : ℚ) (h0 : 0 ≤ x) (hB : x ≤ B) :
    x - B / 2 ^ 53 ≤ to_double x ∧ to_double x ≤ x + B / 2 ^ 53 ∧ 0 ≤ to_double x := by
  rcases eq_or_lt_of_le h0 with h | h
  · subst h
    rw [to_double_zero]
    have : (0 : ℚ) ≤ B / 2 ^ 53 := by positivity
    refine ⟨by linarith, by linarith, le_refl _⟩
  · rw [to_double_of_pos x h]
    have he := to_double_pos_error x h
    have h1 : x / 2 ^ 53 ≤ B / 2 ^ 53 := by gcongr
    have h2 : x / 2 ^ 53 ≤ x := by
      apply div_le_self h0
      norm_num
    refine ⟨by linarith, by linarith, by linarith⟩

/-- Rounding does not cross an integer below the value. -/
theorem to_double_ge_int (x : ℚ) (n : Int) (h0 : 0 ≤ x) (h1 : x < 2 ^ 52) (hn : (n : ℚ) ≤ x) :
    (n : ℚ) ≤ to_double x := by
  rcases eq_or_lt_of_le h0 with h | h
  · subst h
    rw [to_double_zero]; exact hn
  · rw [to_double_of_pos x h]
    have hlog : Int.log 2 x < 52 := by
      have h52 : x < ((2 : Nat) : ℚ) ^ (52 : Int) := by
        have e : ((2 : Nat) : ℚ) ^ (52 : Int) = 2 ^ 52 := by norm_num
        rw [e]; exact h1
      exact (Int.lt_zpow_iff_log_lt (by norm_num) h).1 h52
    obtain ⟨t, ht⟩ : ∃ t : Nat, Int.log 2 x - 52 = - (t : Int) :=
      ⟨(52 - Int.log 2 x).toNat, by omega⟩
    have hs : (0 : ℚ) < (2 : ℚ) ^ (Int.log 2 x - 52) := zpow_pos (by norm_num) _
    have hinv : (2 : ℚ) ^ (Int.log 2 x - 52) = 1 / (2 : ℚ) ^ t := by
      rw [ht, zpow_neg, zpow_natCast]; simp
    have hN : ((n * 2 ^ t : Int) : ℚ) ≤ x / (2 : ℚ) ^ (Int.log 2 x - 52) := by
      rw [hinv]
      push_cast
      have : x / (1 / (2 : ℚ) ^ t) = x * 2 ^ t := by field_simp
      rw [this]
      gcongr
    have hr := round_half_even_ge _ _ hN
    have hr2 : ((n * 2 ^ t : Int) : ℚ) ≤
        (round_half_even (x / (2 : ℚ) ^ (Int.log 2 x - 52)) : ℚ) := by exact_mod_cast hr
    unfold to_double_pos
    have := mul_le_mul_of_nonneg_right hr2 (le_of_lt hs)
    have h3 : ((n * 2 ^ t : Int) : ℚ) * (2 : ℚ) ^ (Int.log 2 x - 52) = n := by
      rw [hinv]; push_cast; field_simp
    rw [h3] at this
    exact this



theorem mul_add_double_error (fused : Bool) (b : ℚ) (h0 : 0 ≤ b) (h1 : b ≤ 2) :
    b * 1000 + 1 / 2 - 7001 / 2 ^ 53 ≤ mul_add_double fused b 1000 (1 / 2) ∧
    mul_add_double fused b 1000 (1 / 2) ≤ b * 1000 + 1 / 2 + 7001 / 2 ^ 53 ∧
    0 ≤ mul_add_double fused b 1000 (1 / 2) := by
  cases fused
  · have hc := to_double_error (b * 1000) 2000 (by positivity) (by linarith)
    have hq := to_double_error (to_double (b * 1000) + 1 / 2) 2002
      (by linarith [hc.2.2]) (by norm_num at hc ⊢; linarith [hc.2.1])
    simp only [mul_add_double, Bool.false_eq_true, if_false]
    norm_num at hc hq ⊢
    refine ⟨by linarith [hc.1, hq.1], by linarith [hc.2.1, hq.2.1], hq.2.2⟩
  · have hq := to_double_error (b * 1000 + 1 / 2) 2001 (by positivity) (by linarith)
    simp only [mul_add_double, if_true]
    norm_num at hq ⊢
    refine ⟨by linarith [hq.1], by linarith [hq.2.1], hq.2.2⟩

/-- The two integers that `announce_frequency` computes in binary64 arithmetic, away from
the rounding ties. -/
theorem double_parts (fused : Bool) (f : ℚ) (hf0 : 0 ≤ f) (hf1 : f ≤ 1000000000000)
    (k : Nat) (hk : k ≤ 999)
    (hlo : (k : ℚ) + 1 / 1000000 ≤ Int.fract (f / 1000000) * 1000 + 1 / 2)
    (hhi : Int.fract (f / 1000000) * 1000 + 1 / 2 ≤ (k : ℚ) + 1 - 1 / 1000000) :
    c_int (to_double (f / 1000000)) = ⌊f / 1000000⌋ ∧
    c_int (mul_add_double fused
      (to_double (to_double (f / 1000000) - ((⌊f / 1000000⌋ : Int) : ℚ))) 1000 (1 / 2)) = k := by
  have hx0 : (0 : ℚ) ≤ f / 1000000 := by positivity
  have hx1 : f / 1000000 ≤ 1000000 := by
    rw [div_le_iff₀ (by norm_num)]; linarith
  have hfr : Int.fract (f / 1000000) = f / 1000000 - ((⌊f / 1000000⌋ : Int) : ℚ) := rfl
  have hr0 := Int.fract_nonneg (f / 1000000)
  have hk' : (k : ℚ) ≤ 999 := by exact_mod_cast hk
  have ha := to_double_error (f / 1000000) 1000000 hx0 hx1
  have haM := to_double_ge_int (f / 1000000) ⌊f / 1000000⌋ hx0
    (lt_of_le_of_lt hx1 (by norm_num)) (Int.floor_le _)
  norm_num at ha
  have hfloor : ⌊to_double (f / 1000000)⌋ = ⌊f / 1000000⌋ := by
    rw [Int.floor_eq_iff]
    exact ⟨haM, by linarith [ha.2.1]⟩
  have hd0 : (0 : ℚ) ≤ to_double (f / 1000000) - ((⌊f / 1000000⌋ : Int) : ℚ) := by linarith
  have hd1 : to_double (f / 1000000) - ((⌊f / 1000000⌋ : Int) : ℚ) ≤ 1 := by
    linarith [ha.2.1]
  have hb := to_double_error _ 1 hd0 hd1
  norm_num at hb
  have hq := mul_add_double_error fused _ hb.2.2 (by linarith [hb.2.1])
  norm_num at hq
  constructor
  · rw [c_int_of_nonneg _ ha.2.2, hfloor]
  · rw [c_int_of_nonneg _ hq.2.2, Int.floor_eq_iff]
    constructor
    · push_cast; linarith [hq.1, hb.1, ha.1]
    · push_cast; linarith [hq.2.1, hb.2.1, ha.2.1]



theorem round_half_even_eq (y : ℚ) (k : Int) (h1 : (k : ℚ) - 1 / 2 < y) (h2 : y < k + 1 / 2) :
    round_half_even y = k := by
  have hb := round_half_even_bounds y
  have h3 : ((round_half_even y : Int) : ℚ) < ((k + 1 : Int) : ℚ) := by push_cast; linarith
  have h4 : ((k - 1 : Int) : ℚ) < ((round_half_even y : Int) : ℚ) := by push_cast; linarith
  have h5 : round_half_even y < k + 1 := by exact_mod_cast h3
  have h6 : k - 1 < round_half_even y := by exact_mod_cast h4
  omega

/-- Evaluation of `to_double`: when `x * 2^t` lies in `[2^52, 2^53)` and `k` is the integer
nearest to it, the double is `k / 2^t`. -/
theorem to_double_eq (x : ℚ) (t : Nat) (k : Int) (h1 : (2 : ℚ) ^ 52 ≤ x * 2 ^ t)
    (h2 : x * 2 ^ t < 2 ^ 53) (h3 : (k : ℚ) - 1 / 2 < x * 2 ^ t) (h4 : x * 2 ^ t < k + 1 / 2) :
    to_double x = k / 2 ^ t := by
  have ht : (0 : ℚ) < 2 ^ t := by positivity
  have hx : 0 < x := by
    by_contra hc
    have : x * 2 ^ t ≤ 0 := mul_nonpos_of_nonpos_of_nonneg (not_lt.1 hc) (le_of_lt ht)
    have : (0 : ℚ) < 2 ^ 52 := by norm_num
    linarith
  have hz : ∀ n : Int, ((2 : Nat) : ℚ) ^ (n - (t : Int)) = 2 ^ n / 2 ^ t := by
    intro n
    rw [zpow_sub₀ (by norm_num), zpow_natCast]
    norm_num
  have hlog : Int.log 2 x = 52 - (t : Int) := by
    have ha : 52 - (t : Int) ≤ Int.log 2 x := by
      rw [← Int.zpow_le_iff_le_log (by norm_num) hx, hz, div_le_iff₀ ht]
      norm_num
      linarith
    have hb : Int.log 2 x < 53 - (t : Int) := by
      rw [← Int.lt_zpow_iff_log_lt (by norm_num) hx, hz, lt_div_iff₀ ht]
      norm_num
      linarith
    omega
  have hs : (2 : ℚ) ^ (Int.log 2 x - 52) = 1 / 2 ^ t := by
    rw [hlog]
    have : (52 : Int) - (t : Int) - 52 = - (t : Int) := by ring
    rw [this, zpow_neg, zpow_natCast]
    simp
  have hy : x / (1 / 2 ^ t) = x * 2 ^ t := by field_simp
  rw [to_double_of_pos x hx, to_double_pos, hs, hy, round_half_even_eq _ k h3 h4]
  ring

theorem to_double_half : to_double (1 / 2) = 1 / 2 := by
  rw [to_double_eq (1 / 2) 53 (2 ^ 52) (by norm_num) (by norm_num) (by norm_num) (by norm_num)]
  norm_num

/-- At 28,000,500 Hz the fraction is exactly 0.5 kHz, a rounding tie.  The double nearest to
28.0005 lies below it, so binary64 arithmetic yields the field 0 and the text has no
"point". -/
theorem frequency_text_double_28000500 (fused : Bool) :
    frequency_text_double fused 28000500 = "28 megahertz" := by
  have h1 : to_double ((28000500 : ℚ) / 1000000) = (7881440085386723 : Int) / 2 ^ 48 :=
    to_double_eq _ 48 _ (by norm_num) (by norm_num) (by norm_num) (by norm_num)
  have h2 : c_int (((7881440085386723 : Int) : ℚ) / 2 ^ 48) = 28 :=
    c_int_eq _ 28 (by norm_num) (by norm_num) (by norm_num)
  have h3 : to_double (((7881440085386723 : Int) : ℚ) / 2 ^ 48 - ((28 : Int) : ℚ)) =
      (4611686018416640 : Int) / 2 ^ 63 :=
    to_double_eq _ 63 _ (by norm_num) (by norm_num) (by norm_num) (by norm_num)
  have h4 : to_double (((4611686018416640 : Int) : ℚ) / 2 ^ 63 * 1000) =
      (9007199254720000 : Int) / 2 ^ 54 :=
    to_double_eq _ 54 _ (by norm_num) (by norm_num) (by norm_num) (by norm_num)
  have h5 : to_double (((9007199254720000 : Int) : ℚ) / 2 ^ 54 + 1 / 2) =
      (9007199254730496 : Int) / 2 ^ 53 :=
    to_double_eq _ 53 _ (by norm_num) (by norm_num) (by norm_num) (by norm_num)
  have h6 : to_double (((4611686018416640 : Int) : ℚ) / 2 ^ 63 * 1000 + 1 / 2) =
      (9007199254730496 : Int) / 2 ^ 53 :=
    to_double_eq _ 53 _ (by norm_num) (by norm_num) (by norm_num) (by norm_num)
  have h7 : c_int (((9007199254730496 : Int) : ℚ) / 2 ^ 53) = 0 :=
    c_int_eq _ 0 (by norm_num) (by norm_num) (by norm_num)
  cases fused
  · simp only [frequency_text_double, mul_add_double, h1, h2, h3, h4, h5, h7,
      Bool.false_eq_true, if_false]
    decide
  · simp only [frequency_text_double, mul_add_double, h1, h2, h3, h6, h7, if_true]
    decide



/-- At 500,500 Hz the fraction is exactly 500.5 kHz, a rounding tie: binary64 arithmetic
yields the field 500. -/
theorem frequency_text_double_500500 (fused : Bool) :
    frequency_text_double fused 500500 = "0 point 500 megahertz" := by
  have h1 : to_double ((500500 : ℚ) / 1000000) = (4508103226997866 : Int) / 2 ^ 53 :=
    to_double_eq _ 53 _ (by norm_num) (by norm_num) (by norm_num) (by norm_num)
  have h2 : c_int (((4508103226997866 : Int) : ℚ) / 2 ^ 53) = 0 :=
    c_int_eq _ 0 (by norm_num) (by norm_num) (by norm_num)
  have h3 : to_double (((4508103226997866 : Int) : ℚ) / 2 ^ 53 - ((0 : Int) : ℚ)) =
      (4508103226997866 : Int) / 2 ^ 53 :=
    to_double_eq _ 53 _ (by norm_num) (by norm_num) (by norm_num) (by norm_num)
  have h4 : to_double (((4508103226997866 : Int) : ℚ) / 2 ^ 53 * 1000) =
      (8804889115230207 : Int) / 2 ^ 44 :=
    to_double_eq _ 44 _ (by norm_num) (by norm_num) (by norm_num) (by norm_num)
  have h5 : to_double (((8804889115230207 : Int) : ℚ) / 2 ^ 44 + 1 / 2) =
      (8813685208252415 : Int) / 2 ^ 44 :=
    to_double_eq _ 44 _ (by norm_num) (by norm_num) (by norm_num) (by norm_num)
  have h6 : to_double (((4508103226997866 : Int) : ℚ) / 2 ^ 53 * 1000 + 1 / 2) =
      (8813685208252415 : Int) / 2 ^ 44 :=
    to_double_eq _ 44 _ (by norm_num) (by norm_num) (by norm_num) (by norm_num)
  have h7 : c_int (((8813685208252415 : Int) : ℚ) / 2 ^ 44) = 500 :=
    c_int_eq _ 500 (by norm_num) (by norm_num) (by norm_num)
  cases fused
  · simp only [frequency_text_double, mul_add_double, h1, h2, h3, h4, h5, h7,
      Bool.false_eq_true, if_false]
    decide
  · simp only [frequency_text_double, mul_add_double, h1, h2, h3, h6, h7, if_true]
    decide

/-- Exact arithmetic rounds the two ties up: the texts differ from those of binary64
arithmetic. -/
theorem frequency_text_at_ties :
    frequency_text 28000500 = "28 point 001 megahertz" ∧
    frequency_text 500500 = "0 point 501 megahertz" := by
  have e1 : c_int ((28000500 : ℚ) / 1000000) = 28 :=
    c_int_eq _ 28 (by norm_num) (by norm_num) (by norm_num)
  have e2 : c_int (((28000500 : ℚ) / 1000000 - ((28 : Int) : ℚ)) * 1000 + 1 / 2) = 1 :=
    c_int_eq _ 1 (by norm_num) (by norm_num) (by norm_num)
  have e3 : c_int ((500500 : ℚ) / 1000000) = 0 :=
    c_int_eq _ 0 (by norm_num) (by norm_num) (by norm_num)
  have e4 : c_int (((500500 : ℚ) / 1000000 - ((0 : Int) : ℚ)) * 1000 + 1 / 2) = 501 :=
    c_int_eq _ 501 (by norm_num) (by norm_num) (by norm_num)
  constructor
  · simp only [frequency_text, e1, e2]
    decide
  · simp only [frequency_text, e3, e4]
    decide

/-- At 14,999,600 Hz binary64 arithmetic yields the field 1000, as exact arithmetic
does. -/
theorem frequency_text_double_14999600 (fused : Bool) :
    frequency_text_double fused 14999600 = "14 point 1000 megahertz" := by
  have h1 : to_double ((14999600 : ℚ) / 1000000) = (8444024121338311 : Int) / 2 ^ 49 :=
    to_double_eq _ 49 _ (by norm_num) (by norm_num) (by norm_num) (by norm_num)
  have h2 : c_int (((8444024121338311 : Int) : ℚ) / 2 ^ 49) = 14 :=
    c_int_eq _ 14 (by norm_num) (by norm_num) (by norm_num)
  have h3 : to_double (((8444024121338311 : Int) : ℚ) / 2 ^ 49 - ((14 : Int) : ℚ)) =
      (9003596375039088 : Int) / 2 ^ 53 :=
    to_double_eq _ 53 _ (by norm_num) (by norm_num) (by norm_num) (by norm_num)
  have h4 : to_double (((9003596375039088 : Int) : ℚ) / 2 ^ 53 * 1000) =
      (8792574584999109 : Int) / 2 ^ 43 :=
    to_double_eq _ 43 _ (by norm_num) (by norm_num) (by norm_num) (by norm_num)
  have h5 : to_double (((8792574584999109 : Int) : ℚ) / 2 ^ 43 + 1 / 2) =
      (8796972631510213 : Int) / 2 ^ 43 :=
    to_double_eq _ 43 _ (by norm_num) (by norm_num) (by norm_num) (by norm_num)
  have h6 : to_double (((9003596375039088 : Int) : ℚ) / 2 ^ 53 * 1000 + 1 / 2) =
      (8796972631510213 : Int) / 2 ^ 43 :=
    to_double_eq _ 43 _ (by norm_num) (by norm_num) (by norm_num) (by norm_num)
  have h7 : c_int (((8796972631510213 : Int) : ℚ) / 2 ^ 43) = 1000 :=
    c_int_eq _ 1000 (by norm_num) (by norm_num) (by norm_num)
  cases fused
  · simp only [frequency_text_double, mul_add_double, h1, h2, h3, h4, h5, h7,
      Bool.false_eq_true, if_false]
    decide
  · simp only [frequency_text_double, mul_add_double, h1, h2, h3, h6, h7, if_true]
    decide

/-- Away from the rounding ties of the kHz field, binary64 arithmetic and exact arithmetic
build the same text. -/
theorem frequency_text_double_eq_exact (fused : Bool) (f : ℚ) (hf0 : 0 ≤ f)
    (hf1 : f ≤ 1000000000000) (k : Nat) (hk : k ≤ 999)
    (hlo : (k : ℚ) + 1 / 1000000 ≤ Int.fract (f / 1000000) * 1000 + 1 / 2)
    (hhi : Int.fract (f / 1000000) * 1000 + 1 / 2 ≤ (k : ℚ) + 1 - 1 / 1000000) :
    frequency_text_double fused f = frequency_text f := by
  have hp := double_parts fused f hf0 hf1 k hk hlo hhi
  have hx0 : (0 : ℚ) ≤ f / 1000000 := by positivity
  have hm : c_int (f / 1000000) = ⌊f / 1000000⌋ := c_int_of_nonneg _ hx0
  have hfr : f / 1000000 - ((⌊f / 1000000⌋ : Int) : ℚ) = Int.fract (f / 1000000) := rfl
  have hr0 := Int.fract_nonneg (f / 1000000)
  have hq : c_int (Int.fract (f / 1000000) * 1000 + 1 / 2) = (k : Int) :=
    c_int_eq _ k (by positivity) (by push_cast; linarith) (by push_cast; linarith)
  simp only [frequency_text_double, frequency_text, hp.1, hp.2, hm, hfr, hq]

theorem atof_14_9996 : atof (c_string entered_14_9996.g_freq_buffer) = 149996 / 10000 := by
  have h1 : c_string entered_14_9996.g_freq_buffer = ['1', '4', '.', '9', '9', '9', '6'] := by
    decide
  have h2 : List.dropWhile Char.isDigit ['1', '4', '.', '9', '9', '9', '6'] =
      ['.', '9', '9', '9', '6'] := by decide
  have h3 : List.takeWhile Char.isDigit ['1', '4', '.', '9', '9', '9', '6'] = ['1', '4'] := by
    decide
  have h4 : List.takeWhile Char.isDigit ['9', '9', '9', '6'] = ['9', '9', '9', '6'] := by
    decide
  have h5 : digits_value ['1', '4'] = 14 := by decide
  have h6 : digits_value ['9', '9', '9', '6'] = 9996 := by decide
  simp only [h1, atof, h2, h3, h4, h5, h6]
  norm_num

theorem frequency_text_14_9996 : frequency_text 14999600 = "14 point 1000 megahertz" := by
  have e1 : c_int ((14999600 : ℚ) / 1000000) = 14 :=
    c_int_eq _ 14 (by norm_num) (by norm_num) (by norm_num)
  have e2 : c_int (((14999600 : ℚ) / 1000000 - ((14 : Int) : ℚ)) * 1000 + 1 / 2) = 1000 :=
    c_int_eq _ 1000 (by norm_num) (by norm_num) (by norm_num)
  simp only [frequency_text, e1, e2]
  decide

/-- Claim C28. The kHz field can be 1000: the keys `#`, `1`, `4`, `*`, `9`, `9`, `9`, `6`
enter 14.9996 MHz, which the submit accepts (it calls the setter with 14,999,600 Hz); the
rendering spoken after "Frequency set" is "14 point 1000 megahertz", with a four-digit
field after "point". -/
theorem khz_field_reaches_1000 :
    run_calls frequency_mode_init
        (taps radio_ok ['#', '1', '4', '*', '9', '9', '9', '6']) = entered_14_9996 ∧
    (1 : ℚ) / 10 ≤ atof (c_string entered_14_9996.g_freq_buffer) ∧
    atof (c_string entered_14_9996.g_freq_buffer) ≤ 500 ∧
    c_int ((14999600 / 1000000 - ((c_int ((14999600 : ℚ) / 1000000) : Int) : ℚ)) * 1000
      + 1 / 2) = 1000 ∧
    (frequency_mode_handle_key radio_ok '#' false entered_14_9996).2.radio_calls =
      [14999600] ∧
    (frequency_mode_handle_key radio_ok '#' false entered_14_9996).2.spoken =
      ["Current VFO", "1", "4", "point", "9", "9", "9", "6", "Frequency set",
        "14 point 1000 megahertz"] := by
  have hv : atof (c_string entered_14_9996.g_freq_buffer) * 1000000 = 14999600 := by
    rw [atof_14_9996]; norm_num
  have hlo : (1 : ℚ) / 10 ≤ atof (c_string entered_14_9996.g_freq_buffer) := by
    rw [atof_14_9996]; norm_num
  have hhi : atof (c_string entered_14_9996.g_freq_buffer) ≤ 500 := by
    rw [atof_14_9996]; norm_num
  have e1 : c_int ((14999600 : ℚ) / 1000000) = 14 :=
    c_int_eq _ 14 (by norm_num) (by norm_num) (by norm_num)
  have hsub := submit_in_range radio_ok entered_14_9996 (by decide) hlo hhi
  rw [hv, frequency_text_14_9996] at hsub
  refine ⟨rfl, hlo, hhi, ?_, ?_, ?_⟩
  · rw [e1]
    exact c_int_eq _ 1000 (by norm_num) (by norm_num) (by norm_num)
  · rw [entering_pound radio_ok false _ rfl, hsub]
    rfl
  · rw [entering_pound radio_ok false _ rfl, hsub]
    rfl

theorem text_megahertz_ne_failed (a : String) :
    a ++ " megahertz" ≠ "Failed to set frequency" := by
  intro h
  have h1 := congrArg (fun s : String => s.data.reverse.head?) h
  simp only [String.data_append, List.reverse_append] at h1
  have h2 : (" megahertz" : String).data.reverse =
      'z' :: ['t', 'r', 'e', 'h', 'a', 'g', 'e', 'm', ' '] := by decide
  have h3 : ("Failed to set frequency" : String).data.reverse.head? = some 'y' := by decide
  rw [h2, h3, List.cons_append, List.head?_cons] at h1
  revert h1
  decide

theorem frequency_text_ne_failed (x : ℚ) : frequency_text x ≠ "Failed to set frequency" := by
  unfold frequency_text
  simp only
  split_ifs
  · exact text_megahertz_ne_failed _
  · exact text_megahertz_ne_failed _

/-- Claim C29. When a valid frequency is submitted (non-empty buffer, value `v` MHz with
`0.1 <= v <= 500.0`) and `radio_set_frequency` returns non-zero, `submit_frequency` makes that
one setter call and no other, speaks "Failed to set frequency" and nothing else, which is
neither "Frequency set" nor a frequency rendering, clears the buffer and returns to
IDLE. -/
theorem submit_radio_failure (radio : ℚ → Int) (s : FreqMode) (hlen : s.g_freq_len ≠ 0)
    (hlo : 1 / 10 ≤ atof (c_string s.g_freq_buffer))
    (hhi : atof (c_string s.g_freq_buffer) ≤ 500)
    (hfail : radio (atof (c_string s.g_freq_buffer) * 1000000) ≠ 0) :
    submit_frequency radio s =
      { g_state := FREQ_MODE_IDLE, g_selected_vfo := s.g_selected_vfo,
        g_freq_buffer := empty_buffer, g_freq_len := 0, g_has_decimal := false,
        spoken := s.spoken ++ ["Failed to set frequency"],
        radio_calls := s.radio_calls ++ [atof (c_string s.g_freq_buffer) * 1000000] } ∧
    "Failed to set frequency" ≠ "Frequency set" ∧
    ∀ x : ℚ, frequency_text x ≠ "Failed to set frequency" := by
  refine ⟨?_, by decide, frequency_text_ne_failed⟩
  rw [submit_in_range radio s hlen hlo hhi]
  simp only [hfail, if_false]

/-- With `14.250` entered and a radio that refuses, the submit calls the setter once with
14,250,000 Hz and says "Failed to set frequency". -/
theorem submit_radio_failure_witness :
    submit_frequency radio_refusing entered_14_250 =
      { g_state := FREQ_MODE_IDLE, g_selected_vfo := entered_14_250.g_selected_vfo,
        g_freq_buffer := empty_buffer, g_freq_len := 0, g_has_decimal := false,
        spoken := entered_14_250.spoken ++ ["Failed to set frequency"],
        radio_calls := entered_14_250.radio_calls ++
          [atof (c_string entered_14_250.g_freq_buffer) * 1000000] } :=
  (submit_radio_failure radio_refusing entered_14_250 (by decide)
    (by rw [atof_14_250]; norm_num) (by rw [atof_14_250]; norm_num) (by decide)).1

/-! ## Theorems: state and buffer, independence of the VFO selection -/

/-- Claim C26. After `frequency_mode_init` and any finite sequence of public calls: in the
states IDLE and SELECT_VFO the digit buffer is empty (`g_freq_len == 0`, `g_has_decimal ==
false`, empty C string); in state ENTERING it is not empty and its first character is a
digit.  Hence in SELECT_VFO the unguarded append of a digit key writes index 0 (the buffer
then starts with that digit and has length 1), and in ENTERING, the only state in which a
submit happens, `g_freq_len` is not 0, so `parse_frequency` does not take its empty-buffer
branch: it returns -1 only for a value out of range. -/
theorem state_buffer_invariant (calls : List Call) (s : FreqMode)
    (hreach : s = run_calls frequency_mode_init calls) (radio : ℚ → Int) (is_hold : Bool)
    (key : Char) :
    (s.g_state = FREQ_MODE_IDLE ∨ s.g_state = FREQ_MODE_SELECT_VFO →
      s.g_freq_len = 0 ∧ s.g_has_decimal = false ∧ c_string s.g_freq_buffer = []) ∧
    (s.g_state = FREQ_MODE_ENTERING →
      1 ≤ s.g_freq_len ∧ c_string s.g_freq_buffer ≠ [] ∧
      ∃ d, s.g_freq_buffer[0]? = some d ∧ d.isDigit = true) ∧
    (s.g_state = FREQ_MODE_SELECT_VFO → key.isDigit = true →
      s.g_freq_len.toNat = 0 ∧
      (frequency_mode_handle_key radio key is_hold s).2.g_freq_buffer[0]? = some key ∧
      (frequency_mode_handle_key radio key is_hold s).2.g_freq_len = 1) ∧
    (s.g_state = FREQ_MODE_ENTERING →
      s.g_freq_len ≠ 0 ∧
      parse_frequency s =
        (if atof (c_string s.g_freq_buffer) < 1 / 10 ∨ atof (c_string s.g_freq_buffer) > 500
          then -1 else atof (c_string s.g_freq_buffer) * 1000000)) := by
  obtain ⟨content, h⟩ := buf_holds_run_calls calls frequency_mode_init ⟨[], buf_holds_init⟩
  rw [← hreach] at h
  unfold BufHolds at h
  obtain ⟨_, _, _, _, a5, _, _⟩ := buf_core_array _ _ _ _ _ h
  obtain ⟨h1, h2, h3, h4, h5, h6, h7, h8⟩ := h
  have hempty : s.g_state ≠ FREQ_MODE_ENTERING →
      s.g_freq_len = 0 ∧ s.g_has_decimal = false ∧ c_string s.g_freq_buffer = [] := by
    intro hne
    have hc := h7 hne
    subst hc
    refine ⟨by simpa using h2, ?_, a5⟩
    cases hb : s.g_has_decimal with
    | false => rfl
    | true => exact absurd (h6.1 hb) (by simp)
  have hfull : s.g_state = FREQ_MODE_ENTERING → 1 ≤ s.g_freq_len ∧
      c_string s.g_freq_buffer ≠ [] ∧
      ∃ d, s.g_freq_buffer[0]? = some d ∧ d.isDigit = true := by
    intro hs
    obtain ⟨d, tl, hd, hdig⟩ := h8 hs
    subst hd
    refine ⟨by rw [h2]; simp, by rw [a5]; simp, d, ?_, hdig⟩
    rw [h1]; simp
  refine ⟨?_, hfull, ?_, ?_⟩
  · rintro (hs | hs)
    · exact hempty (by rw [hs]; decide)
    · exact hempty (by rw [hs]; decide)
  · intro hs hk
    have hne : s.g_state ≠ FREQ_MODE_ENTERING := by rw [hs]; decide
    have hc := h7 hne
    subst hc
    have hk1 : key ≠ '#' := by
      intro hk1; rw [hk1] at hk; revert hk; decide
    have hlen : s.g_freq_len = 0 := by simpa using h2
    refine ⟨by rw [hlen]; rfl, ?_, ?_⟩
    · simp [frequency_mode_handle_key, hs, hk1, hk, announce_digit, speech_say_text,
        append_char, hlen, h1, List.replicate_succ]
    · simp [frequency_mode_handle_key, hs, hk1, hk, announce_digit, speech_say_text,
        append_char, hlen]
  · intro hs
    have hlen : s.g_freq_len ≠ 0 := by
      have := (hfull hs).1
      omega
    refine ⟨hlen, ?_⟩
    simp only [parse_frequency, hlen, if_false]

/-- With `14.250` entered the state is ENTERING: the length is not 0 and the value
14.25 MHz is in range, so `parse_frequency` returns 14,250,000. -/
theorem state_buffer_invariant_witness :
    entered_14_250.g_freq_len ≠ 0 ∧
    parse_frequency entered_14_250 =
      (if atof (c_string entered_14_250.g_freq_buffer) < 1 / 10 ∨
          atof (c_string entered_14_250.g_freq_buffer) > 500
        then -1 else atof (c_string entered_14_250.g_freq_buffer) * 1000000) :=
  (state_buffer_invariant (taps radio_ok ['#', '1', '4', '*', '2', '5', '0']) entered_14_250
    rfl radio_ok false '7').2.2.2 rfl

theorem vfo_name_is_vfo_name (v : Int) : is_vfo_name (vfo_name v) := by
  unfold vfo_name is_vfo_name
  split_ifs <;> simp

theorem same_apart_refl (a : List String) : same_apart_from_vfo_names a a := by
  induction a with
  | nil => exact List.Forall₂.nil
  | cons x xs ih => exact List.Forall₂.cons (Or.inl rfl) ih

theorem same_apart_snoc (a b : List String) (t : String)
    (h : same_apart_from_vfo_names a b) :
    same_apart_from_vfo_names (a ++ [t]) (b ++ [t]) :=
  List.rel_append h (List.Forall₂.cons (Or.inl rfl) List.Forall₂.nil)

theorem same_apart_snoc_vfo (a b : List String) (v1 v2 : Int)
    (h : same_apart_from_vfo_names a b) :
    same_apart_from_vfo_names (a ++ [vfo_name v1]) (b ++ [vfo_name v2]) :=
  List.rel_append h (List.Forall₂.cons
    (Or.inr ⟨vfo_name_is_vfo_name v1, vfo_name_is_vfo_name v2⟩) List.Forall₂.nil)

/-- A key call keeps two states equal apart from the VFO selection, and is consumed or not
alike in both. -/
theorem vfo_blind_handle_key (radio : ℚ → Int) (key : Char) (is_hold : Bool)
    (s1 s2 : FreqMode) (h : VfoBlind s1 s2) :
    VfoBlind (frequency_mode_handle_key radio key is_hold s1).2
        (frequency_mode_handle_key radio key is_hold s2).2 ∧
      (frequency_mode_handle_key radio key is_hold s1).1 =
        (frequency_mode_handle_key radio key is_hold s2).1 := by
  obtain ⟨st1, v1, buf1, len1, dec1, sp1, rc1⟩ := s1
  obtain ⟨st2, v2, buf2, len2, dec2, sp2, rc2⟩ := s2
  obtain ⟨e1, e2, e3, e4, e5, hsp⟩ := h
  simp only at e1 e2 e3 e4 e5 hsp
  subst e1 e2 e3 e4 e5
  have hs := same_apart_snoc sp1 sp2
  have hv := same_apart_snoc_vfo sp1 sp2
  cases st1
  · simp only [frequency_mode_handle_key]
    split_ifs
    · exact ⟨⟨rfl, rfl, rfl, rfl, rfl, hv _ _ hsp⟩, rfl⟩
    · exact ⟨⟨rfl, rfl, rfl, rfl, rfl, hsp⟩, rfl⟩
  · simp only [frequency_mode_handle_key]
    split_ifs
    · exact ⟨⟨rfl, rfl, rfl, rfl, rfl, hv _ _ hsp⟩, rfl⟩
    · exact ⟨⟨rfl, rfl, rfl, rfl, rfl, hs _ hsp⟩, rfl⟩
    · exact ⟨⟨rfl, rfl, rfl, rfl, rfl, hs _ hsp⟩, rfl⟩
    · exact ⟨⟨rfl, rfl, rfl, rfl, rfl, hs _ hsp⟩, rfl⟩
    · exact ⟨⟨rfl, rfl, rfl, rfl, rfl, hsp⟩, rfl⟩
  · simp only [frequency_mode_handle_key]
    split_ifs
    · exact ⟨⟨rfl, rfl, rfl, rfl, rfl, hs _ hsp⟩, rfl⟩
    · exact ⟨⟨rfl, rfl, rfl, rfl, rfl, hsp⟩, rfl⟩
    · exact ⟨⟨rfl, rfl, rfl, rfl, rfl, hs _ hsp⟩, rfl⟩
    · exact ⟨⟨rfl, rfl, rfl, rfl, rfl, hsp⟩, rfl⟩
    · exact ⟨⟨rfl, rfl, rfl, rfl, rfl, hs _ hsp⟩, rfl⟩
    · refine ⟨?_, rfl⟩
      have hp : ∀ v sp, parse_frequency ⟨FREQ_MODE_ENTERING, v, buf1, len1, dec1, sp, rc1⟩ =
          parse_frequency ⟨FREQ_MODE_ENTERING, v1, buf1, len1, dec1, sp1, rc1⟩ := by
        intro v sp; rfl
      simp only [submit_frequency, hp v2 sp2]
      split_ifs
      · exact ⟨rfl, rfl, rfl, rfl, rfl, hs _ hsp⟩
      · exact ⟨rfl, rfl, rfl, rfl, rfl, same_apart_snoc _ _ _ (hs _ hsp)⟩
      · exact ⟨rfl, rfl, rfl, rfl, rfl, hs _ hsp⟩
    · exact ⟨⟨rfl, rfl, rfl, rfl, rfl, hs _ hsp⟩, rfl⟩
    · exact ⟨⟨rfl, rfl, rfl, rfl, rfl, hsp⟩, rfl⟩

theorem vfo_blind_apply_call (c : Call) (s1 s2 : FreqMode) (h : VfoBlind s1 s2) :
    VfoBlind (apply_call s1 c) (apply_call s2 c) := by
  cases c with
  | handle_key radio key is_hold => exact (vfo_blind_handle_key radio key is_hold s1 s2 h).1
  | cancel =>
    obtain ⟨e1, e2, e3, e4, e5, hsp⟩ := h
    simp only [apply_call, frequency_mode_cancel, e1]
    split_ifs
    · exact ⟨rfl, rfl, rfl, rfl, e5, hsp⟩
    · exact ⟨e1, e2, e3, e4, e5, hsp⟩
  | on_radio_change f =>
    obtain ⟨e1, e2, e3, e4, e5, hsp⟩ := h
    simp only [apply_call, frequency_mode_on_radio_change, e1]
    split_ifs
    · exact ⟨e1, e2, e3, e4, e5, same_apart_snoc _ _ _ hsp⟩
    · exact ⟨e1, e2, e3, e4, e5, hsp⟩

theorem vfo_blind_run_calls (calls : List Call) :
    ∀ s1 s2 : FreqMode, VfoBlind s1 s2 → VfoBlind (run_calls s1 calls) (run_calls s2 calls) := by
  induction calls with
  | nil => intro s1 s2 h; exact h
  | cons c cs ih =>
    intro s1 s2 h
    exact ih _ _ (vfo_blind_apply_call c s1 s2 h)

/-- Claim C27. The VFO selection does not influence a submit: for a state `s` and the state
that differs from it only in `g_selected_vfo`, every sequence of calls (keys with the same
radio answers, cancels, radio changes) produces the same sequence of `radio_set_frequency`
calls, the same final state, buffer, length and decimal flag, and speech traces of the same
length that agree at every position or have VFO names at that position in both. -/
theorem vfo_selection_independent (s : FreqMode) (vfo : Int) (calls : List Call) :
    (run_calls s calls).radio_calls =
      (run_calls { s with g_selected_vfo := vfo } calls).radio_calls ∧
    (run_calls s calls).g_state = (run_calls { s with g_selected_vfo := vfo } calls).g_state ∧
    (run_calls s calls).g_freq_buffer =
      (run_calls { s with g_selected_vfo := vfo } calls).g_freq_buffer ∧
    (run_calls s calls).g_freq_len =
      (run_calls { s with g_selected_vfo := vfo } calls).g_freq_len ∧
    (run_calls s calls).g_has_decimal =
      (run_calls { s with g_selected_vfo := vfo } calls).g_has_decimal ∧
    same_apart_from_vfo_names (run_calls s calls).spoken
      (run_calls { s with g_selected_vfo := vfo } calls).spoken := by
  obtain ⟨e1, e2, e3, e4, e5, e6⟩ := vfo_blind_run_calls calls s { s with g_selected_vfo := vfo }
    ⟨rfl, rfl, rfl, rfl, rfl, same_apart_refl _⟩
  exact ⟨e5, e1, e2, e3, e4, e6⟩

/-! ## Theorems: radio setters -/

theorem connected_rig_down (link : RadioLink)
    (hd : link.g_connected = false ∨ link.g_rig = none) : connected_rig link = none := by
  unfold connected_rig
  rcases hd with hd | hd
  · simp [hd]
  · simp [hd]

theorem connected_rig_up (link : RadioLink) (rig : Rig) (hc : link.g_connected = true)
    (hr : link.g_rig = some rig) : connected_rig link = some rig := by
  simp [connected_rig, hc, hr]

/-- Claim C23. Fail fast when disconnected: when `g_connected` is false or `g_rig` is NULL,
every operation of `radio_setters.c` returns its error value (-1 for `int` results, false
for `bool` results, `AGC_OFF` for `radio_get_agc_speed`, and so "Off" for
`radio_get_agc_string`), for all arguments; each takes `g_rig_mutex` and releases it at
once, or, for `radio_set_mode_by_index` with an index outside the table, never takes it;
none makes a call into the rig library; the mutex is free on return. -/
theorem fail_fast_when_disconnected (link : RadioLink)
    (hd : link.g_connected = false ∨ link.g_rig = none) (level : Int) (enabled : Bool) :
    radio_set_power link level = (-1, [Ev.lock, Ev.unlock]) ∧
    radio_get_power link = (-1, [Ev.lock, Ev.unlock]) ∧
    radio_set_mic_gain link level = (-1, [Ev.lock, Ev.unlock]) ∧
    radio_get_mic_gain link = (-1, [Ev.lock, Ev.unlock]) ∧
    radio_set_compression link level = (-1, [Ev.lock, Ev.unlock]) ∧
    radio_get_compression link = (-1, [Ev.lock, Ev.unlock]) ∧
    radio_set_compression_enabled link enabled = (-1, [Ev.lock, Ev.unlock]) ∧
    radio_get_compression_enabled link = (false, [Ev.lock, Ev.unlock]) ∧
    radio_set_nb link enabled level = (-1, [Ev.lock, Ev.unlock]) ∧
    radio_get_nb_enabled link = (false, [Ev.lock, Ev.unlock]) ∧
    radio_get_nb_level link = (-1, [Ev.lock, Ev.unlock]) ∧
    radio_set_nr link enabled level = (-1, [Ev.lock, Ev.unlock]) ∧
    radio_get_nr_enabled link = (false, [Ev.lock, Ev.unlock]) ∧
    radio_get_nr_level link = (-1, [Ev.lock, Ev.unlock]) ∧
    radio_set_agc_speed link level = (-1, [Ev.lock, Ev.unlock]) ∧
    radio_get_agc_speed link = (AGC_OFF, [Ev.lock, Ev.unlock]) ∧
    radio_get_agc_string link = ("Off", [Ev.lock, Ev.unlock]) ∧
    radio_set_preamp link level = (-1, [Ev.lock, Ev.unlock]) ∧
    radio_get_preamp link = (-1, [Ev.lock, Ev.unlock]) ∧
    radio_set_attenuation link level = (-1, [Ev.lock, Ev.unlock]) ∧
    radio_get_attenuation link = (-1, [Ev.lock, Ev.unlock]) ∧
    radio_cycle_mode link = (-1, [Ev.lock, Ev.unlock]) ∧
    (radio_set_mode_by_index link level = (-1, [Ev.lock, Ev.unlock]) ∨
      radio_set_mode_by_index link level = (-1, [])) ∧
    (∀ e ∈ [Ev.lock, Ev.unlock], e.is_rig_call = false) ∧
    mutex_held false [Ev.lock, Ev.unlock] = false ∧ mutex_held false [] = false := by
  have h := connected_rig_down link hd
  refine ⟨?_, ?_, ?_, ?_, ?_, ?_, ?_, ?_, ?_, ?_, ?_, ?_, ?_, ?_, ?_, ?_, ?_, ?_, ?_, ?_, ?_,
    ?_, ?_, by decide, rfl, rfl⟩
  · simp [radio_set_power, set_percent_level, h]
  · simp [radio_get_power, get_scaled_level, h]
  · simp [radio_set_mic_gain, set_percent_level, h]
  · simp [radio_get_mic_gain, get_scaled_level, h]
  · simp [radio_set_compression, set_percent_level, h]
  · simp [radio_get_compression, get_scaled_level, h]
  · simp [radio_set_compression_enabled, h]
  · simp [radio_get_compression_enabled, get_func_enabled, h]
  · simp [radio_set_nb, set_noise_control, h]
  · simp [radio_get_nb_enabled, get_func_enabled, h]
  · simp [radio_get_nb_level, get_scaled_level, h]
  · simp [radio_set_nr, set_noise_control, h]
  · simp [radio_get_nr_enabled, get_func_enabled, h]
  · simp [radio_get_nr_level, get_scaled_level, h]
  · simp [radio_set_agc_speed, set_int_level, h]
  · simp [radio_get_agc_speed, h]
  · simp [radio_get_agc_string, radio_get_agc_speed, h]
  · simp [radio_set_preamp, set_int_level, h]
  · simp [radio_get_preamp, h]
  · simp [radio_set_attenuation, set_int_level, h]
  · simp [radio_get_attenuation, h]
  · simp [radio_cycle_mode, h]
  · unfold radio_set_mode_by_index
    split_ifs
    · exact Or.inr rfl
    · exact Or.inl (by simp [h])

/-- Before the radio is connected (`g_connected` false, `g_rig` NULL): power 50 is refused
and the AGC speed reads `AGC_OFF`, with no rig call. -/
theorem fail_fast_when_disconnected_witness :
    radio_set_power link_down 50 = (-1, [Ev.lock, Ev.unlock]) ∧
    radio_get_agc_speed link_down = (AGC_OFF, [Ev.lock, Ev.unlock]) :=
  ⟨(fail_fast_when_disconnected link_down (Or.inl rfl) 50 true).1,
   (fail_fast_when_disconnected link_down (Or.inl rfl) 50 true).2.2.2.2.2.2.2.2.2.2.2.2.2.2.2.1⟩

/-- Claim C24. The mode requested is not the documented one: for a connected rig,
`radio_set_mode_by_index(i)` passes `mode_list[i]` to `rig_set_mode`, and `mode_list` is
USB, LSB, CW, AM, FM, RTTY, while `radio_setters.h` documents 0 = AM, 1 = CW, 2 = USB,
3 = LSB, 4 = FM, 5 = RTTY.  Index 0 requests USB where AM is documented; the indices 1, 2
and 3 differ as well, and only 4 and 5 agree. -/
theorem mode_by_index_not_as_documented (rig : Rig) :
    set_mode_requests (radio_set_mode_by_index (link_to rig) 0).2 = [RIG_MODE_USB] ∧
    documented_mode 0 = RIG_MODE_AM ∧
    set_mode_requests (radio_set_mode_by_index (link_to rig) 1).2 = [RIG_MODE_LSB] ∧
    documented_mode 1 = RIG_MODE_CW ∧
    set_mode_requests (radio_set_mode_by_index (link_to rig) 2).2 = [RIG_MODE_CW] ∧
    documented_mode 2 = RIG_MODE_USB ∧
    set_mode_requests (radio_set_mode_by_index (link_to rig) 3).2 = [RIG_MODE_AM] ∧
    documented_mode 3 = RIG_MODE_LSB ∧
    set_mode_requests (radio_set_mode_by_index (link_to rig) 4).2 = [documented_mode 4] ∧
    set_mode_requests (radio_set_mode_by_index (link_to rig) 5).2 = [documented_mode 5] := by
  have h : connected_rig (link_to rig) = some rig := connected_rig_up _ rig rfl rfl
  have key : ∀ i : Int, 0 ≤ i → i < 6 →
      set_mode_requests (radio_set_mode_by_index (link_to rig) i).2 = [mode_at i] := by
    intro i h0 h6
    have hr : ¬ (i < 0 ∨ i ≥ mode_count) := by
      have : mode_count = 6 := rfl
      rw [this]; omega
    simp only [radio_set_mode_by_index, hr, if_false, h]
    split_ifs <;> rfl
  refine ⟨?_, rfl, ?_, rfl, ?_, rfl, ?_, rfl, ?_, ?_⟩
  · rw [key 0 (by decide) (by decide)]; rfl
  · rw [key 1 (by decide) (by decide)]; rfl
  · rw [key 2 (by decide) (by decide)]; rfl
  · rw [key 3 (by decide) (by decide)]; rfl
  · rw [key 4 (by decide) (by decide)]; rfl
  · rw [key 5 (by decide) (by decide)]; rfl

theorem clamp_0_100_eq (level : Int) : clamp_0_100 level = max 0 (min level 100) := by
  unfold clamp_0_100
  simp only
  split_ifs <;> omega

/-- Claim C25. Level clamping: when connected, for every `int` level, `radio_set_power`,
`radio_set_mic_gain` and `radio_set_compression` make one rig call, `rig_set_level` on
their level selector with the value `clamp(level, 0, 100) / 100`, which lies in `[0, 1]`,
and return 0 exactly when that call reports `RIG_OK` and -1 otherwise. -/
theorem level_clamping (link : RadioLink) (rig : Rig) (level : Int)
    (hc : link.g_connected = true) (hr : link.g_rig = some rig) :
    (0 : ℚ) ≤ ((max 0 (min level 100) : Int) : ℚ) / 100 ∧
    ((max 0 (min level 100) : Int) : ℚ) / 100 ≤ 1 ∧
    radio_set_power link level =
      (if rig.rig_set_level RIG_LEVEL_RFPOWER
            (value_t.f (((max 0 (min level 100) : Int) : ℚ) / 100)) = RIG_OK then 0 else -1,
        [Ev.lock, Ev.rig_set_level RIG_LEVEL_RFPOWER
            (value_t.f (((max 0 (min level 100) : Int) : ℚ) / 100)), Ev.unlock]) ∧
    radio_set_mic_gain link level =
      (if rig.rig_set_level RIG_LEVEL_MICGAIN
            (value_t.f (((max 0 (min level 100) : Int) : ℚ) / 100)) = RIG_OK then 0 else -1,
        [Ev.lock, Ev.rig_set_level RIG_LEVEL_MICGAIN
            (value_t.f (((max 0 (min level 100) : Int) : ℚ) / 100)), Ev.unlock]) ∧
    radio_set_compression link level =
      (if rig.rig_set_level RIG_LEVEL_COMP
            (value_t.f (((max 0 (min level 100) : Int) : ℚ) / 100)) = RIG_OK then 0 else -1,
        [Ev.lock, Ev.rig_set_level RIG_LEVEL_COMP
            (value_t.f (((max 0 (min level 100) : Int) : ℚ) / 100)), Ev.unlock]) := by
  have h := connected_rig_up link rig hc hr
  have hb0 : (0 : Int) ≤ max 0 (min level 100) := le_max_left _ _
  have hb1 : max 0 (min level 100) ≤ (100 : Int) := by omega
  have hq0 : (0 : ℚ) ≤ ((max 0 (min level 100) : Int) : ℚ) := by exact_mod_cast hb0
  have hq1 : ((max 0 (min level 100) : Int) : ℚ) ≤ 100 := by exact_mod_cast hb1
  have hsel : ∀ sel, set_percent_level sel link level =
      (if rig.rig_set_level sel
            (value_t.f (((max 0 (min level 100) : Int) : ℚ) / 100)) = RIG_OK then 0 else -1,
        [Ev.lock, Ev.rig_set_level sel
            (value_t.f (((max 0 (min level 100) : Int) : ℚ) / 100)), Ev.unlock]) := by
    intro sel
    simp only [set_percent_level, h, clamp_0_100_eq]
    split_ifs <;> simp_all
  refine ⟨by positivity, ?_, hsel _, hsel _, hsel _⟩
  rw [div_le_one (by norm_num)]
  exact hq1

/-- Power 250 on a rig that accepts everything: the rig is passed 1.0. -/
theorem level_clamping_witness :
    radio_set_power (link_to (rig_accepting RIG_MODE_USB)) 250 =
      (if (rig_accepting RIG_MODE_USB).rig_set_level RIG_LEVEL_RFPOWER
            (value_t.f (((max 0 (min 250 100) : Int) : ℚ) / 100)) = RIG_OK then 0 else -1,
        [Ev.lock, Ev.rig_set_level RIG_LEVEL_RFPOWER
            (value_t.f (((max 0 (min 250 100) : Int) : ℚ) / 100)), Ev.unlock]) :=
  (level_clamping (link_to (rig_accepting RIG_MODE_USB)) (rig_accepting RIG_MODE_USB) 250
    rfl rfl).2.2.1

/-- The second loop of `radio_cycle_mode`: it requests the candidate modes in order up to
the first that the rig accepts, returns 0 if there is one and -1 otherwise, and releases
the mutex. -/
theorem try_next_modes_spec (rig : Rig) (c : Int) :
    ∀ (left : Nat) (i : Int),
      set_mode_requests (try_next_modes rig c left i).2 =
        attempts_until_ok (accepts_mode rig)
          ((List.range left).map
            (fun (j : Nat) => mode_at ((c + 1 + (i + (j : Int))).tmod mode_count))) ∧
      (((try_next_modes rig c left i).1 = 0 ∧
          ∃ m ∈ (List.range left).map
            (fun (j : Nat) => mode_at ((c + 1 + (i + (j : Int))).tmod mode_count)),
            accepts_mode rig m = true) ∨
        ((try_next_modes rig c left i).1 = -1 ∧
          ∀ m ∈ (List.range left).map
            (fun (j : Nat) => mode_at ((c + 1 + (i + (j : Int))).tmod mode_count)),
            accepts_mode rig m = false)) ∧
      mutex_held true (try_next_modes rig c left i).2 = false := by
  intro left
  induction left with
  | zero =>
    intro i
    simp [try_next_modes, set_mode_requests, attempts_until_ok, mutex_held]
  | succ n ih =>
    intro i
    obtain ⟨ih1, ih2, ih3⟩ := ih (i + 1)
    have hshift : (List.range (n + 1)).map
        (fun (j : Nat) => mode_at ((c + 1 + (i + (j : Int))).tmod mode_count)) =
        mode_at ((c + 1 + i).tmod mode_count) ::
          (List.range n).map
            (fun (j : Nat) => mode_at ((c + 1 + (i + 1 + (j : Int))).tmod mode_count)) := by
      rw [List.range_succ_eq_map, List.map_cons, List.map_map]
      congr 1
      · simp
      · apply List.map_congr_left
        intro j _
        simp only [Function.comp, Nat.succ_eq_add_one]
        push_cast
        congr 2
        ring
    rw [hshift]
    by_cases hok : rig.rig_set_mode (mode_at ((c + 1 + i).tmod mode_count))
        (rig.rig_passband_normal (mode_at ((c + 1 + i).tmod mode_count))) = RIG_OK
    · have hacc : accepts_mode rig (mode_at ((c + 1 + i).tmod mode_count)) = true := by
        simp [accepts_mode, hok]
      simp only [try_next_modes, hok, if_true, set_mode_requests, attempts_until_ok, hacc,
        mutex_held]
      refine ⟨trivial, Or.inl ⟨trivial, _, List.mem_cons_self _ _, hacc⟩, trivial⟩
    · have hacc : accepts_mode rig (mode_at ((c + 1 + i).tmod mode_count)) = false := by
        simp [accepts_mode, hok]
      simp only [try_next_modes, hok, if_false, set_mode_requests, attempts_until_ok, hacc,
        mutex_held, Bool.false_eq_true]
      refine ⟨by rw [ih1], ?_, ih3⟩
      rcases ih2 with ⟨r0, m, hm, hmacc⟩ | ⟨r1, hall⟩
      · exact Or.inl ⟨r0, m, List.mem_cons_of_mem _ hm, hmacc⟩
      · refine Or.inr ⟨r1, ?_⟩
        intro m hm
        rcases List.mem_cons.1 hm with hm | hm
        · rw [hm]; exact hacc
        · exact hall m hm

theorem find_current_index_eq (mode : rmode_t) :
    find_current_index mode (-1) mode_count.toNat 0 = index_in_mode_list mode := by
  have h6 : mode_count.toNat = 6 := rfl
  rw [h6]
  cases mode <;>
    simp [find_current_index, mode_at, mode_list, index_in_mode_list, List.indexOf_cons]

theorem index_in_mode_list_range (mode : rmode_t) :
    -1 ≤ index_in_mode_list mode ∧ index_in_mode_list mode ≤ 5 := by
  cases mode <;> simp [index_in_mode_list, mode_list, List.indexOf_cons]

theorem attempts_until_ok_length (ok : rmode_t → Bool) (ms : List rmode_t) :
    (attempts_until_ok ok ms).length ≤ ms.length := by
  induction ms with
  | nil => simp [attempts_until_ok]
  | cons m ms ih =>
    unfold attempts_until_ok
    split_ifs
    · simp
    · simpa using ih

theorem candidate_modes_eq (c : Int) (h0 : -1 ≤ c) :
    (List.range 6).map
        (fun (j : Nat) => mode_at ((c + 1 + (0 + (j : Int))).tmod mode_count)) =
      candidate_modes c := by
  unfold candidate_modes
  apply List.map_congr_left
  intro j _
  have h6 : mode_count = 6 := rfl
  have hnn : 0 ≤ c + 1 + (0 + (j : Int)) := by omega
  rw [h6, Int.tmod_eq_emod hnn (by norm_num), zero_add]
  have hge : ¬ ((c + 1 + (j : Int)) % 6 < 0) := by omega
  simp only [mode_at, hge, if_false]

/-- Claim C30. The call `radio_cycle_mode`, when connected and `rig_get_mode` succeeds.  Let
`c` be the index of the current mode in the 6-entry `mode_list`, -1 when it is not in the
list.  The indices `(c + 1 + i) mod 6`, `i = 0 .. 5`, all lie in 0..5 (and are what the
C expression `(current_index + 1 + i) % mode_count` computes).  The modes passed to
`rig_set_mode` are the modes at these indices, in that order, up to and including the first
one that reports `RIG_OK`; so there are at most 6 attempts.  The result is 0 when an
attempt succeeded and -1 exactly when all 6 fail, and `g_rig_mutex` is free on return. -/
theorem cycle_mode_attempts (link : RadioLink) (rig : Rig)
    (hc : link.g_connected = true) (hr : link.g_rig = some rig)
    (hget : rig.rig_get_mode.1 = RIG_OK) :
    (-1 ≤ index_in_mode_list rig.rig_get_mode.2.1 ∧
      index_in_mode_list rig.rig_get_mode.2.1 ≤ 5) ∧
    (∀ i : Nat, i < 6 →
      0 ≤ (index_in_mode_list rig.rig_get_mode.2.1 + 1 + (i : Int)) % 6 ∧
      (index_in_mode_list rig.rig_get_mode.2.1 + 1 + (i : Int)) % 6 ≤ 5 ∧
      (index_in_mode_list rig.rig_get_mode.2.1 + 1 + (i : Int)).tmod mode_count =
        (index_in_mode_list rig.rig_get_mode.2.1 + 1 + (i : Int)) % 6) ∧
    set_mode_requests (radio_cycle_mode link).2 =
      attempts_until_ok (accepts_mode rig)
        (candidate_modes (index_in_mode_list rig.rig_get_mode.2.1)) ∧
    (set_mode_requests (radio_cycle_mode link).2).length ≤ 6 ∧
    ((radio_cycle_mode link).1 = 0 ↔
      ∃ m ∈ candidate_modes (index_in_mode_list rig.rig_get_mode.2.1),
        accepts_mode rig m = true) ∧
    ((radio_cycle_mode link).1 = -1 ↔
      ∀ m ∈ candidate_modes (index_in_mode_list rig.rig_get_mode.2.1),
        accepts_mode rig m = false) ∧
    mutex_held false (radio_cycle_mode link).2 = false := by
  have h := connected_rig_up link rig hc hr
  obtain ⟨hlo, hhi⟩ := index_in_mode_list_range rig.rig_get_mode.2.1
  have hget1 : ¬ (rig.rig_get_mode.1 ≠ RIG_OK) := by simp [hget]
  have hres : radio_cycle_mode link =
      ((try_next_modes rig (index_in_mode_list rig.rig_get_mode.2.1) 6 0).1,
        Ev.lock :: Ev.rig_get_mode ::
          (try_next_modes rig (index_in_mode_list rig.rig_get_mode.2.1) 6 0).2) := by
    have h6 : mode_count.toNat = 6 := rfl
    simp only [radio_cycle_mode, h, hget1, if_false, find_current_index_eq]
    rw [h6]
  obtain ⟨t1, t2, t3⟩ :=
    try_next_modes_spec rig (index_in_mode_list rig.rig_get_mode.2.1) 6 0
  rw [candidate_modes_eq _ hlo] at t1 t2
  have hreq : set_mode_requests (radio_cycle_mode link).2 =
      attempts_until_ok (accepts_mode rig)
        (candidate_modes (index_in_mode_list rig.rig_get_mode.2.1)) := by
    rw [hres]
    simp only [set_mode_requests]
    exact t1
  have h6 : mode_count = 6 := rfl
  refine ⟨⟨hlo, hhi⟩, ?_, hreq, ?_, ?_, ?_, ?_⟩
  · intro i hi
    refine ⟨by omega, by omega, ?_⟩
    rw [h6]
    exact Int.tmod_eq_emod (by omega) (by norm_num)
  · rw [hreq]
    refine le_trans (attempts_until_ok_length _ _) ?_
    simp [candidate_modes]
  · rw [hres]
    simp only
    rcases t2 with ⟨r0, hex⟩ | ⟨r1, hall⟩
    · exact ⟨fun _ => hex, fun _ => r0⟩
    · constructor
      · intro h0
        rw [r1] at h0
        exact absurd h0 (by decide)
      · rintro ⟨m, hm, hacc⟩
        rw [hall m hm] at hacc
        cases hacc
  · rw [hres]
    simp only
    rcases t2 with ⟨r0, m, hm, hacc⟩ | ⟨r1, hall⟩
    · constructor
      · intro h1
        rw [r0] at h1
        exact absurd h1 (by decide)
      · intro hall
        rw [hall m hm] at hacc
        cases hacc
    · exact ⟨fun _ => hall, fun _ => r1⟩
  · rw [hres]
    simp only [mutex_held]
    exact t3

/-- A rig in mode AM (index 3) that accepts only CW: the requests are FM, RTTY, USB, LSB, CW,
the last of which succeeds; the result is 0. -/
theorem cycle_mode_attempts_witness :
    set_mode_requests (radio_cycle_mode (link_to rig_cw_only)).2 =
      attempts_until_ok (accepts_mode rig_cw_only)
        (candidate_modes (index_in_mode_list rig_cw_only.rig_get_mode.2.1)) ∧
    set_mode_requests (radio_cycle_mode (link_to rig_cw_only)).2 =
      [RIG_MODE_FM, RIG_MODE_RTTY, RIG_MODE_USB, RIG_MODE_LSB, RIG_MODE_CW] ∧
    (radio_cycle_mode (link_to rig_cw_only)).1 = 0 :=
  ⟨(cycle_mode_attempts (link_to rig_cw_only) rig_cw_only rfl rfl rfl).2.2.1,
   by decide, by decide⟩

end Hampod
